import Mathlib

/-!
# versfs: a versioning FUSE file system

A shallow embedding of the version store of `src/versfs.c` (`vers_readdir`,
`vers_mknod`, `vers_mkdir`, `vers_unlink`, `vers_rename`, `vers_truncate`,
`vers_write`) over an explicit model of the backing store and of the
resources of the serving process.

Modelling conventions:

* C strings and file contents are lists of characters (`CStr`); `strcpy` /
  `strcat` are list append into a buffer of fixed capacity.  Every path
  buffer of the source has its capacity: the static `storage_path[256]`, the
  arrays `storage_from[256]` and `storage_to[256]`, the `malloc(256)` blocks
  and the 50 byte copy of `to` in `vers_rename`.  A string that does not fit
  its buffer, terminator included, is undefined behaviour (`Outcome.ub`).
* The backing store is a finite map from absolute path strings to nodes
  (`FS.ents`).  The system calls used by the source (`lstat`, `open`,
  `close`, `pread`, `pwrite`, `truncate`, `mkdir`, `rmdir`, `unlink`,
  `rename`, `opendir` / `readdir`) are modelled with their POSIX results on
  that map; a failing call yields its `errno`.
* Descriptors are counted: `FS.fd_free` is the number of descriptors the
  serving process can still open.  `open` and `opendir` take one and answer
  `EMFILE` when none is left; `close` gives one back.  A descriptor or a
  directory stream that the source never closes stays taken.
* The arrays the source declares with a length computed at run time
  (`temp_buf[size]`, `prev_vers_buf[...]`) live on the stack of the handler,
  of which `Env.stack` bytes are available: an array of no element, or one
  that does not fit, is undefined behaviour.
* Sizes and offsets (`size_t`, `off_t`) are natural numbers.  No file is
  larger than `Env.max_size`, which is what the store allows and at most the
  largest `off_t`: `truncate` and `pwrite` answer `EFBIG` beyond it.  The
  loop counter `int i` of `vers_write` overflows past `2^31 - 1`, and a byte
  count that `int res` cannot hold leaves the model (`Outcome.ub`).
* Memory allocation is taken to succeed: `malloc` does not return the null
  pointer.  The handlers are taken to run one at a time.
* The backing store can refuse writes to individual files (`Env.faults`), as
  a full or failing medium does: `pwrite` to such a file returns `-1`, and so
  does the creation of such a file.
* The two five byte buffers holding the version number are modelled with
  their capacity: writing more than five bytes into one, or scanning one that
  has no terminator, is undefined behaviour (`Outcome.ub`).
* A data buffer that is handed to `pwrite` with a count larger than the
  buffer supplies, after its own bytes, whatever lies in memory; those bytes
  are given by the parameter `junk`.
-/

namespace VersFS

/-- A C string or a run of file bytes. -/
abbrev CStr := List Char

/-- The zero byte. -/
def NUL : Char := Char.ofNat 0

/-- A run of `n` zero bytes. -/
def zeros (n : Nat) : CStr := List.replicate n NUL

def ENOENT : Int := 2
def EIO : Int := 5
def EBADF : Int := 9
def EEXIST : Int := 17
def ENOTDIR : Int := 20
def EISDIR : Int := 21
def EINVAL : Int := 22
def EMFILE : Int := 24
def EFBIG : Int := 27
def ENOSPC : Int := 28
def ESPIPE : Int := 29
def ENOTEMPTY : Int := 39

/-! ## The backing store -/

/-- A node of the backing store. -/
inductive Node where
  | file (data : CStr)
  | dir
  | special
deriving DecidableEq, Repr

/-- What an operation cannot change: the files which the store refuses to
write or to create, each with the `errno` it answers, the stack available to
a handler, in bytes, and the largest size the store allows a file. -/
structure Env where
  faults : List (CStr × Int)
  stack : Nat
  store_max : Nat
deriving DecidableEq

/-- The largest size of a file, and the largest end of a write: what the
store allows, and never more than the largest `off_t`, 2^63 - 1.  Beyond it
`truncate` and `pwrite` answer `EFBIG`. -/
def Env.max_size (e : Env) : Nat := min e.store_max 9223372036854775807

/-- The state an operation runs in: the nodes of the backing store by
absolute path, the fixed environment, and the number of descriptors the
serving process can still open. -/
structure FS where
  ents : List (CStr × Node)
  env : Env
  fd_free : Nat
deriving DecidableEq

def lookupEnt : List (CStr × Node) → CStr → Option Node
  | [], _ => none
  | (k, v) :: rest, p => if k = p then some v else lookupEnt rest p

def eraseEnt : List (CStr × Node) → CStr → List (CStr × Node)
  | [], _ => []
  | (k, v) :: rest, p => if k = p then eraseEnt rest p else (k, v) :: eraseEnt rest p

def setEnt : List (CStr × Node) → CStr → Node → List (CStr × Node)
  | [], p, n => [(p, n)]
  | (k, v) :: rest, p, n => if k = p then (p, n) :: eraseEnt rest p else (k, v) :: setEnt rest p n

def lookupFault : List (CStr × Int) → CStr → Option Int
  | [], _ => none
  | (k, e) :: rest, p => if k = p then some e else lookupFault rest p

def FS.lookup (fs : FS) (p : CStr) : Option Node := lookupEnt fs.ents p

def FS.erase (fs : FS) (p : CStr) : FS := { fs with ents := eraseEnt fs.ents p }

def FS.set (fs : FS) (p : CStr) (n : Node) : FS := { fs with ents := setEnt fs.ents p n }

/-- The directory part of a path: everything before its last slash. -/
def parentDir (p : CStr) : CStr := ((p.reverse.dropWhile (fun c => c ≠ '/')).drop 1).reverse

/-- Path `q` lies below directory `d`. -/
def under (d q : CStr) : Prop := q.take (d.length + 1) = d ++ ['/']

instance (d q : CStr) : Decidable (under d q) := by unfold under; infer_instance

/-- The name of `q` as an entry of directory `d`, when it is one. -/
def childName (d q : CStr) : Option CStr :=
  if under d q then
    let n := q.drop (d.length + 1)
    if n ≠ [] ∧ '/' ∉ n then some n else none
  else none

/-- The names `readdir` yields for the entries of `d`. -/
def dirNames (fs : FS) (d : CStr) : List CStr := fs.ents.filterMap (fun e => childName d e.1)

/-- No node of the store lies below `d`. -/
def dirEmpty (fs : FS) (d : CStr) : Bool := fs.ents.all (fun e => decide (¬ under d e.1))


/-! ## System calls -/

/-- The state once a descriptor has been taken. -/
def FS.takeFd (fs : FS) : FS := { fs with fd_free := fs.fd_free - 1 }

/-- The call `close` (also `closedir`): the descriptor is free again. -/
def sys_close (fs : FS) : FS := { fs with fd_free := fs.fd_free + 1 }

def sys_lstat (fs : FS) (p : CStr) : Except Int Nat :=
  match fs.lookup p with
  | some (Node.file d) => Except.ok d.length
  | some Node.dir => Except.ok 4096
  | some Node.special => Except.ok 0
  | none => Except.error ENOENT

/-- The flag combinations with which the source calls `open`. -/
inductive OFlag where
  | rdonly
  | wronly
  | wronly_creat
  | wronly_creat_excl
deriving DecidableEq, Repr

/-- Creation of a node at a path that does not exist yet; the store can
refuse it (no space left for the new file). -/
def createAt (fs : FS) (p : CStr) (n : Node) : Except Int FS :=
  match fs.lookup (parentDir p) with
  | some Node.dir =>
    match lookupFault fs.env.faults p with
    | some e => Except.error e
    | none => Except.ok (fs.set p n)
  | some _ => Except.error ENOTDIR
  | none => Except.error ENOENT

/-- What `open` does to the store once it has a descriptor. -/
def openNode (fs : FS) (p : CStr) (fl : OFlag) : Except Int FS :=
  match fs.lookup p with
  | some Node.dir =>
    match fl with
    | OFlag.rdonly => Except.ok fs
    | OFlag.wronly_creat_excl => Except.error EEXIST
    | _ => Except.error EISDIR
  | some _ =>
    match fl with
    | OFlag.wronly_creat_excl => Except.error EEXIST
    | _ => Except.ok fs
  | none =>
    match fl with
    | OFlag.rdonly => Except.error ENOENT
    | OFlag.wronly => Except.error ENOENT
    | _ => createAt fs p (Node.file [])

/-- The call `open`: `EMFILE` when the process has no descriptor left;
otherwise the file is looked up or created and a descriptor is taken. -/
def sys_open (fs : FS) (p : CStr) (fl : OFlag) : Except Int FS :=
  if fs.fd_free = 0 then Except.error EMFILE
  else
    match openNode fs p fl with
    | Except.error e => Except.error e
    | Except.ok fs => Except.ok fs.takeFd

def sys_pread (fs : FS) (p : CStr) (count off : Nat) : Except Int CStr :=
  match fs.lookup p with
  | some (Node.file d) => Except.ok ((d.drop off).take count)
  | some Node.dir => Except.error EISDIR
  | some Node.special => Except.error ESPIPE
  | none => Except.error EBADF

/-- The content of a file holding `d` once the bytes `buf` are placed at
`off`: a hole between the old end and `off` reads as zero bytes. -/
def overlay (d buf : CStr) (off : Nat) : CStr :=
  d.take off ++ zeros (off - d.length) ++ buf ++ d.drop (off + buf.length)

/-- The content of a file after `pwrite` of `buf` at `off`; a write of zero
bytes changes nothing. -/
def written (d buf : CStr) (off : Nat) : CStr := if buf = [] then d else overlay d buf off

/-- The call `pwrite`: bytes that would end beyond the largest file size of
the store, or beyond the largest `off_t`, are answered `EFBIG`, a file the
medium refuses with its `errno`. -/
def sys_pwrite (fs : FS) (p : CStr) (buf : CStr) (off : Nat) : Except Int (Int × FS) :=
  match fs.lookup p with
  | some (Node.file d) =>
    if buf ≠ [] ∧ (fs.env.store_max < off + buf.length
        ∨ 9223372036854775807 < off + buf.length) then Except.error EFBIG
    else
      match lookupFault fs.env.faults p with
      | some e => Except.error e
      | none => Except.ok ((buf.length : Int), fs.set p (Node.file (written d buf off)))
  | some Node.dir => Except.error EBADF
  | some Node.special => Except.error ESPIPE
  | none => Except.error EBADF

/-- The content of a file after `truncate` to `size`. -/
def resize (d : CStr) (size : Nat) : CStr := d.take size ++ zeros (size - d.length)

/-- The call `truncate`: a size beyond the largest file size of the store,
or beyond the largest `off_t`, is answered `EFBIG`. -/
def sys_truncate (fs : FS) (p : CStr) (size : Nat) : Except Int FS :=
  match fs.lookup p with
  | some (Node.file d) =>
    if fs.env.store_max < size ∨ 9223372036854775807 < size then Except.error EFBIG
    else Except.ok (fs.set p (Node.file (resize d size)))
  | some Node.dir => Except.error EISDIR
  | some Node.special => Except.error EINVAL
  | none => Except.error ENOENT

def sys_mkdir (fs : FS) (p : CStr) : Except Int FS :=
  match fs.lookup p with
  | some _ => Except.error EEXIST
  | none => createAt fs p Node.dir

def sys_rmdir (fs : FS) (p : CStr) : Except Int FS :=
  match fs.lookup p with
  | some Node.dir => if dirEmpty fs p then Except.ok (fs.erase p) else Except.error ENOTEMPTY
  | some _ => Except.error ENOTDIR
  | none => Except.error ENOENT

def sys_unlink (fs : FS) (p : CStr) : Except Int FS :=
  match fs.lookup p with
  | some Node.dir => Except.error EISDIR
  | some _ => Except.ok (fs.erase p)
  | none => Except.error ENOENT

/-- The call `rename`.  When `vers_rename` reaches it the source is not a
directory (its `pread` has succeeded); a directory source is not modelled
and answered `EINVAL`. -/
def sys_rename (fs : FS) (src dst : CStr) : Except Int FS :=
  match fs.lookup src with
  | none => Except.error ENOENT
  | some Node.dir => Except.error EINVAL
  | some n =>
    match fs.lookup (parentDir dst) with
    | none => Except.error ENOENT
    | some Node.dir =>
      match fs.lookup dst with
      | some Node.dir => Except.error EISDIR
      | _ => if src = dst then Except.ok fs else Except.ok ((fs.erase src).set dst n)
    | some _ => Except.error ENOTDIR

/-- The call `opendir`: `EMFILE` when the process has no descriptor left;
otherwise the names the `readdir` loop sees, and the state with the
descriptor of the stream taken. -/
def sys_opendir (fs : FS) (p : CStr) : Except Int (List CStr × FS) :=
  if fs.fd_free = 0 then Except.error EMFILE
  else
    match fs.lookup p with
    | some Node.dir => Except.ok (['.'] :: ['.', '.'] :: dirNames fs p, fs.takeFd)
    | some _ => Except.error ENOTDIR
    | none => Except.error ENOENT

/-- The fields of `struct dirent` the source reads. -/
structure Dirent where
  d_ino : Nat
  d_type : Nat
  d_name : CStr
deriving DecidableEq, Repr

/-- The fields of `struct stat` the source sets; the others are zeroed. -/
structure Stat where
  st_ino : Nat
  st_mode : Nat
deriving DecidableEq, Repr

def sys_mknod (fs : FS) (p : CStr) : Except Int FS :=
  match fs.lookup p with
  | some _ => Except.error EEXIST
  | none => createAt fs p Node.special

/-! ## C library helpers -/

/-- The function `basename` of `libgen.h`. -/
def basename (path : CStr) : CStr :=
  if path = [] then ['.']
  else
    let stripped := path.reverse.dropWhile (fun c => c = '/')
    if stripped = [] then ['/']
    else (stripped.takeWhile (fun c => c ≠ '/')).reverse

def isDigit (c : Char) : Bool := decide (48 ≤ c.toNat) && decide (c.toNat ≤ 57)

def isSpace (c : Char) : Bool := decide (c.toNat = 32) || (decide (9 ≤ c.toNat) && decide (c.toNat ≤ 13))

/-- The digit scan of `atoi` over a buffer; `none` when the scan runs off the
end of the buffer. -/
def atoiDigits : Nat → CStr → Option Nat
  | _, [] => none
  | acc, c :: cs => if isDigit c then atoiDigits (acc * 10 + (c.toNat - 48)) cs else some acc

def atoiSigned : CStr → Option Int
  | [] => none
  | c :: cs =>
    if c = '-' then (atoiDigits 0 cs).map (fun n => - (n : Int))
    else if c = '+' then (atoiDigits 0 cs).map (fun n => (n : Int))
    else (atoiDigits 0 (c :: cs)).map (fun n => (n : Int))

/-- The function `atoi` applied to a buffer; `none` when it reads past the
buffer. -/
def atoi : CStr → Option Int
  | [] => none
  | c :: cs => if isSpace c then atoi cs else atoiSigned (c :: cs)

def digitChar (d : Nat) : Char := Char.ofNat (48 + d)

def decimalAux : Nat → Nat → CStr → CStr
  | 0, _, acc => acc
  | fuel + 1, n, acc =>
    if n < 10 then digitChar n :: acc else decimalAux fuel (n / 10) (digitChar (n % 10) :: acc)

/-- The decimal digits of a natural number. -/
def decimal (n : Nat) : CStr := decimalAux (n + 1) n []

/-- The characters `sprintf(_, "%d", n)` produces, terminator excluded. -/
def sprintf_d (n : Int) : CStr := if n < 0 then '-' :: decimal n.natAbs else decimal n.natAbs

/-- The string held by a buffer: its characters up to the first zero byte;
`none` when the buffer holds no zero byte. -/
def cstrOf : CStr → Option CStr
  | [] => none
  | c :: cs => if c = NUL then some [] else (cstrOf cs).map (fun s => c :: s)

/-- The function `strstr`: the part of `haystack` that starts at the first
occurrence of `needle`, or `none` (the null pointer) when there is none. -/
def strstr : CStr → CStr → Option CStr
  | [], needle => if needle = [] then some [] else none
  | c :: cs, needle =>
    if (c :: cs).take needle.length = needle then some (c :: cs) else strstr cs needle

/-- The first `n` bytes found at the address of a buffer holding `data`:
the bytes of `data` and, from where they end, whatever lies in memory
(`junk i` at distance `i` from the start of the buffer). -/
def memTake (junk : Nat → Char) (data : CStr) (n : Nat) : CStr :=
  (List.range n).map (fun i => data.getD i (junk i))


/-- A string and its terminator do not fit a buffer of `cap` bytes. -/
def overflows (cap : Nat) (s : CStr) : Bool := decide (cap < s.length + 1)

/-- An array of `n` bytes cannot be declared with `room` bytes of stack left:
it has no element, or it does not fit. -/
def noVLA (room n : Nat) : Bool := decide (n = 0 ∨ room < n)

/-- A byte count that an `int` cannot hold. -/
def noInt (n : Nat) : Bool := decide (2147483648 ≤ n)

/-! ## The file system operations -/

/-- The reserved token that marks a history area. -/
def marker : CStr := "__versions__".toList

/-- The name of the counter file, with its leading slash. -/
def version_file : CStr := "/.version_file.txt".toList

/-- The string `prepend_storage_dir` leaves in the buffer it is given; every
caller hands it a buffer of 256 bytes and checks `overflows 256` first. -/
def prepend_storage_dir (storage_dir path : CStr) : CStr := storage_dir ++ path

/-- The result of one file system operation: the value returned to FUSE and
the state left behind, or `ub` where the C code leaves the model: undefined
behaviour (a buffer overrun, an array that does not fit the stack, signed
overflow) or a byte count that `int res` cannot hold. -/
inductive Outcome where
  | ret (code : Int) (fs : FS)
  | ub
deriving DecidableEq

/-- The file types `vers_mknod` distinguishes in `mode`. -/
inductive Mode where
  | reg
  | fifo
  | other
deriving DecidableEq, Repr

/-- The loop of `vers_readdir` over the entries that `readdir` still has to
yield: an entry whose name holds the marker is skipped, any other is handed
to `filler`, and the loop ends when `filler` answers non-zero. -/
def vers_readdir_loop {β : Type} (filler : β → CStr → Stat → Int → β × Int) :
    List Dirent → β → β
  | [], buf => buf
  | de :: rest, buf =>
    let st : Stat := { st_ino := de.d_ino, st_mode := de.d_type <<< 12 }
    if (strstr de.d_name marker).isSome then vers_readdir_loop filler rest buf
    else
      let r := filler buf de.d_name st 0
      if r.2 ≠ 0 then r.1 else vers_readdir_loop filler rest r.1

/-- The operation `vers_readdir`.  The content of the backing directories is
the parameter `readdir`: for a path, the `errno` with which `opendir` fails
for a reason other than a lack of descriptors, or the entries the successive
`readdir` calls yield, in their order.  The stream is closed before the
operation returns, so the descriptors of `fs` are as before.  The result is
the value returned and the caller's buffer as `filler` left it, or `none`
when the path overruns `storage_path`. -/
def vers_readdir {β : Type} (readdir : CStr → Except Int (List Dirent))
    (storage_dir path : CStr) (filler : β → CStr → Stat → Int → β × Int) (buf : β) (fs : FS) :
    Option (Int × β) :=
  -- src 101: the path is built in the static storage_path[256]
  if overflows 256 (prepend_storage_dir storage_dir path) then none
  else
    let path := prepend_storage_dir storage_dir path
    -- src 102-104: opendir needs a descriptor; src 117: closedir gives it back
    if fs.fd_free = 0 then some (-EMFILE, buf)
    else
      match readdir path with
      | Except.error e => some (-e, buf)
      | Except.ok entries => some (0, vers_readdir_loop filler entries buf)

/-- The operation `vers_mkdir` (the permission bits of `mode` are not
modelled). -/
def vers_mkdir (storage_dir path : CStr) (fs : FS) : Outcome :=
  if (strstr path marker).isSome then Outcome.ret 1 fs
  else if overflows 256 (prepend_storage_dir storage_dir path) then Outcome.ub
  else
    let path := prepend_storage_dir storage_dir path
    match sys_mkdir fs path with
    | Except.error e => Outcome.ret (-e) fs
    | Except.ok fs => Outcome.ret 0 fs

def vers_mknod (storage_dir path : CStr) (mode : Mode) (fs : FS) : Outcome :=
  -- src 127: storage_path[256]
  if overflows 256 (prepend_storage_dir storage_dir path) then Outcome.ub
  else
    let path := prepend_storage_dir storage_dir path
    match mode with
    | Mode.reg =>
      match sys_open fs path OFlag.wronly_creat_excl with
      | Except.error e => Outcome.ret (-e) fs
      | Except.ok fs => Outcome.ret 0 (sys_close fs)
    | _ =>
      match sys_mknod fs path with
      | Except.error e => Outcome.ret (-e) fs
      | Except.ok fs => Outcome.ret 0 fs

/-- What one round of the removal loop of `vers_unlink` and `vers_rename`
does once the path of the entry is built: the entries `.` and `..` are
skipped, any other is unlinked and the result of `unlink` is not looked
at. -/
def unlink_entry (versions_dir_path : CStr) (fs : FS) (file_name : CStr) : FS :=
  let file_path := versions_dir_path ++ ['/'] ++ file_name
  if file_name = ['.', '.'] ∨ file_name = ['.'] then fs
  else
    match sys_unlink fs file_path with
    | Except.error _ => fs
    | Except.ok fs => fs

/-- One round of the removal loop: the path of the entry is built in a block
of 256 bytes (`none`, undefined behaviour, when it does not fit, and from
then on), then the entry is dealt with. -/
def remove_entry (versions_dir_path : CStr) (st : Option FS) (file_name : CStr) : Option FS :=
  match st with
  | none => none
  | some fs =>
    if overflows 256 (versions_dir_path ++ ['/'] ++ file_name) then none
    else some (unlink_entry versions_dir_path fs file_name)

def vers_unlink (storage_dir path : CStr) (fs : FS) : Outcome :=
  -- src 166: storage_path[256]
  if overflows 256 (prepend_storage_dir storage_dir path) then Outcome.ub
  else
  let path := prepend_storage_dir storage_dir path
  -- src 169-172: versions_dir_path, a block of 256 bytes
  if overflows 256 (path ++ marker) then Outcome.ub
  else
  let versions_dir_path := path ++ marker
  -- src 177-179: the stream is opened and never closed
  match sys_opendir fs versions_dir_path with
  | Except.error e => Outcome.ret (-e) fs
  | Except.ok (names, fs) =>
  -- src 182-197: the loop; file_path is a block of 256 bytes (src 186-190)
  match names.foldl (remove_entry versions_dir_path) (some fs) with
  | none => Outcome.ub
  | some fs =>
  match sys_rmdir fs versions_dir_path with
  | Except.error e => Outcome.ret (-e) fs
  | Except.ok fs =>
  match sys_unlink fs path with
  | Except.error e => Outcome.ret (-e) fs
  | Except.ok fs => Outcome.ret 0 fs

def vers_rename (storage_dir from_path to_path : CStr) (fs : FS) : Outcome :=
  -- src 251-253: strcpy(placeholder, to) into a block of 50 bytes
  if overflows 50 to_path then Outcome.ub
  else
  let file_name := basename to_path
  -- src 243-244, 256-257: storage_from[256] and storage_to[256]
  if overflows 256 (prepend_storage_dir storage_dir from_path) then Outcome.ub
  else
  let storage_from := prepend_storage_dir storage_dir from_path
  if overflows 256 (prepend_storage_dir storage_dir to_path) then Outcome.ub
  else
  let storage_to := prepend_storage_dir storage_dir to_path
  -- src 260-263: versions_dir_path, a block of 256 bytes
  if overflows 256 (storage_from ++ marker) then Outcome.ub
  else
  let versions_dir_path := storage_from ++ marker
  -- src 268-270: the stream is opened and never closed
  match sys_opendir fs versions_dir_path with
  | Except.error e => Outcome.ret (-e) fs
  | Except.ok (names, fs) =>
  match names.foldl (remove_entry versions_dir_path) (some fs) with
  | none => Outcome.ub
  | some fs =>
  match sys_rmdir fs versions_dir_path with
  | Except.error e => Outcome.ret (-e) fs
  | Except.ok fs =>
  -- src 296-298: the same block, now for the destination
  if overflows 256 (storage_to ++ marker) then Outcome.ub
  else
  let versions_dir_path := storage_to ++ marker
  -- src 301-304: version_file_path, a block of 256 bytes
  if overflows 256 (versions_dir_path ++ version_file) then Outcome.ub
  else
  let version_file_path := versions_dir_path ++ version_file
  match sys_mkdir fs versions_dir_path with
  | Except.error e => Outcome.ret (-e) fs
  | Except.ok fs =>
  let version_file_buf : CStr := ['0', NUL]
  match sys_open fs version_file_path OFlag.wronly_creat with
  | Except.error e => Outcome.ret (-e) fs
  | Except.ok fs =>
  match sys_pwrite fs version_file_path version_file_buf 0 with
  | Except.error e => Outcome.ret (-e) fs
  | Except.ok (_, fs) =>
  let fs := sys_close fs
  -- src 323-328: reg_file_path, a block of 256 bytes
  if overflows 256 (versions_dir_path ++ ['/'] ++ file_name ++ [',', '0']) then Outcome.ub
  else
  let reg_file_path := versions_dir_path ++ ['/'] ++ file_name ++ [',', '0']
  match sys_lstat fs storage_from with
  | Except.error e => Outcome.ret (-e) fs
  | Except.ok prev_vers_size =>
  -- src 337: char prev_vers_buf[prev_vers_size]
  if noVLA fs.env.stack prev_vers_size then Outcome.ub
  else
  match sys_open fs storage_from OFlag.rdonly with
  | Except.error e => Outcome.ret (-e) fs
  | Except.ok fs =>
  -- src 341: int res = pread(...)
  if noInt prev_vers_size then Outcome.ub
  else
  match sys_pread fs storage_from prev_vers_size 0 with
  | Except.error e => Outcome.ret (-e) fs
  | Except.ok prev_vers_buf =>
  let fs := sys_close fs
  match sys_open fs reg_file_path OFlag.wronly_creat with
  | Except.error e => Outcome.ret (-e) fs
  | Except.ok fs =>
  match sys_pwrite fs reg_file_path prev_vers_buf 0 with
  | Except.error e => Outcome.ret (-e) fs
  | Except.ok (_, fs) =>
  let fs := sys_close fs
  match sys_rename fs storage_from storage_to with
  | Except.error e => Outcome.ret (-e) fs
  | Except.ok fs => Outcome.ret 0 fs

def vers_truncate (junk : Nat → Char) (storage_dir path : CStr) (size : Nat) (fs : FS) :
    Outcome :=
  let file_name := basename path
  -- src 416: storage_path[256]
  if overflows 256 (prepend_storage_dir storage_dir path) then Outcome.ub
  else
  let path := prepend_storage_dir storage_dir path
  match sys_lstat fs path with
  | Except.error e => Outcome.ret (-e) fs
  | Except.ok prev_file_size =>
  -- src 429-432: versions_dir_path, a block of 256 bytes
  if overflows 256 (path ++ marker) then Outcome.ub
  else
  let versions_dir_path := path ++ marker
  -- src 435-438: version_file_path, a block of 256 bytes
  if overflows 256 (versions_dir_path ++ version_file) then Outcome.ub
  else
  let version_file_path := versions_dir_path ++ version_file
  match sys_truncate fs path size with
  | Except.error e => Outcome.ret (-e) fs
  | Except.ok fs =>
  -- src 453-457: the stream is opened and never closed
  match sys_opendir fs versions_dir_path with
  | Except.error e => Outcome.ret (-e) fs
  | Except.ok (_, fs) =>
  match sys_open fs version_file_path OFlag.rdonly with
  | Except.error e => Outcome.ret (-e) fs
  | Except.ok fs =>
  match sys_pread fs version_file_path 5 0 with
  | Except.error e => Outcome.ret (-e) fs
  | Except.ok bytes =>
  let prev_vers_num_str := bytes ++ zeros (5 - bytes.length)
  match atoi prev_vers_num_str with
  | none => Outcome.ub
  | some prev_vers_num =>
  let fs := sys_close fs
  let curr_vers_num := prev_vers_num + 1
  let digits := sprintf_d curr_vers_num
  -- src 476-478: sprintf into a block of 5 bytes
  if 5 < digits.length + 1 then Outcome.ub
  else
  let curr_vers_num_str := digits ++ zeros (5 - digits.length)
  match sys_open fs version_file_path OFlag.wronly with
  | Except.error e => Outcome.ret (-e) fs
  | Except.ok fs =>
  match sys_pwrite fs version_file_path curr_vers_num_str 0 with
  | Except.error e => Outcome.ret (-e) fs
  | Except.ok (_, fs) =>
  let fs := sys_close fs
  match cstrOf prev_vers_num_str with
  | none => Outcome.ub
  | some prev_digits =>
  let reg_file_path := versions_dir_path ++ ['/'] ++ file_name ++ [',']
  -- src 494-506: reg_file_path and prev_vers_file_path, blocks of 256 bytes
  if overflows 256 (reg_file_path ++ digits) then Outcome.ub
  else if overflows 256 (reg_file_path ++ prev_digits) then Outcome.ub
  else
  let prev_vers_file_path := reg_file_path ++ prev_digits
  let reg_file_path := reg_file_path ++ digits
  -- src 510: char prev_vers_buf[prev_file_size]
  if noVLA fs.env.stack prev_file_size then Outcome.ub
  else
  match sys_open fs prev_vers_file_path OFlag.rdonly with
  | Except.error e => Outcome.ret (-e) fs
  | Except.ok fs =>
  -- src 514: int res = pread(...)
  if noInt prev_file_size then Outcome.ub
  else
  match sys_pread fs prev_vers_file_path prev_file_size 0 with
  | Except.error e => Outcome.ret (-e) fs
  | Except.ok prev_vers_buf =>
  let fs := sys_close fs
  match sys_open fs reg_file_path OFlag.wronly_creat with
  | Except.error e => Outcome.ret (-e) fs
  | Except.ok fs =>
  -- src 524: int res = pwrite(fd, prev_vers_buf, size, 0)
  if noInt size then Outcome.ub
  else
  match sys_pwrite fs reg_file_path (memTake junk prev_vers_buf size) 0 with
  | Except.error e => Outcome.ret (-e) fs
  | Except.ok (_, fs) => Outcome.ret 0 (sys_close fs)

def vers_write (junk : Nat → Char) (storage_dir path buf : CStr) (offset : Nat) (fs : FS) :
    Outcome :=
  let size := buf.length
  -- src 600: char temp_buf[size]
  if noVLA fs.env.stack size then Outcome.ub
  else
  let file_name := basename path
  -- src 612: storage_path[256]
  if overflows 256 (prepend_storage_dir storage_dir path) then Outcome.ub
  else
  let path := prepend_storage_dir storage_dir path
  match sys_open fs path OFlag.wronly with
  | Except.error e => Outcome.ret (-e) fs
  | Except.ok fs =>
  -- src 618-620: the loop counter is an int
  if noInt size then Outcome.ub
  else
  let live :=
    match sys_pwrite fs path buf offset with
    | Except.error e => (-e, fs)
    | Except.ok r => r
  let res := live.1
  let fs := sys_close live.2
  -- src 627-630: versions_dir_path, a block of 256 bytes
  if overflows 256 (path ++ marker) then Outcome.ub
  else
  let versions_dir_path := path ++ marker
  -- src 633-636: version_file_path, a block of 256 bytes
  if overflows 256 (versions_dir_path ++ version_file) then Outcome.ub
  else
  let version_file_path := versions_dir_path ++ version_file
  -- src 639-640: the stream is opened and never closed
  match sys_opendir fs versions_dir_path with
  | Except.ok (_, fs) =>
    match sys_open fs version_file_path OFlag.rdonly with
    | Except.error e => Outcome.ret (-e) fs
    | Except.ok fs =>
    match sys_pread fs version_file_path 5 0 with
    | Except.error e => Outcome.ret (-e) fs
    | Except.ok bytes =>
    let prev_vers_num_str := bytes ++ zeros (5 - bytes.length)
    match atoi prev_vers_num_str with
    | none => Outcome.ub
    | some prev_vers_num =>
    let fs := sys_close fs
    let curr_vers_num := prev_vers_num + 1
    let digits := sprintf_d curr_vers_num
    -- src 660-662: sprintf into a block of 5 bytes
    if 5 < digits.length + 1 then Outcome.ub
    else
    let curr_vers_num_str := digits ++ zeros (5 - digits.length)
    match sys_open fs version_file_path OFlag.wronly with
    | Except.error e => Outcome.ret (-e) fs
    | Except.ok fs =>
    match sys_pwrite fs version_file_path curr_vers_num_str 0 with
    | Except.error e => Outcome.ret (-e) fs
    | Except.ok (_, fs) =>
    let fs := sys_close fs
    match cstrOf prev_vers_num_str with
    | none => Outcome.ub
    | some prev_digits =>
    let reg_file_path := versions_dir_path ++ ['/'] ++ file_name ++ [',']
    -- src 678-690: reg_file_path and prev_vers_file_path, blocks of 256 bytes
    if overflows 256 (reg_file_path ++ digits) then Outcome.ub
    else if overflows 256 (reg_file_path ++ prev_digits) then Outcome.ub
    else
    let prev_vers_file_path := reg_file_path ++ prev_digits
    let reg_file_path := reg_file_path ++ digits
    match sys_lstat fs prev_vers_file_path with
    | Except.error e => Outcome.ret (-e) fs
    | Except.ok prev_vers_size =>
    -- src 702: char prev_vers_buf[prev_vers_size], with temp_buf still in place
    if noVLA (fs.env.stack - size) prev_vers_size then Outcome.ub
    else
    match sys_open fs prev_vers_file_path OFlag.rdonly with
    | Except.error e => Outcome.ret (-e) fs
    | Except.ok fs =>
    -- src 706: int res = pread(...)
    if noInt prev_vers_size then Outcome.ub
    else
    match sys_pread fs prev_vers_file_path prev_vers_size 0 with
    | Except.error e => Outcome.ret (-e) fs
    | Except.ok prev_vers_buf =>
    let fs := sys_close fs
    match sys_open fs reg_file_path OFlag.wronly_creat with
    | Except.error e => Outcome.ret (-e) fs
    | Except.ok fs =>
    -- src 717: int res = pwrite(fd, prev_vers_buf, offset, 0)
    if noInt offset then Outcome.ub
    else
    match sys_pwrite fs reg_file_path (memTake junk prev_vers_buf offset) 0 with
    | Except.error e => Outcome.ret (-e) fs
    | Except.ok (_, fs) =>
    match sys_pwrite fs reg_file_path buf offset with
    | Except.error e => Outcome.ret (-e) fs
    | Except.ok (res, fs) => Outcome.ret res (sys_close fs)
  | Except.error e =>
    if e = ENOENT then
      match sys_mkdir fs versions_dir_path with
      | Except.error e => Outcome.ret (-e) fs
      | Except.ok fs =>
      let version_file_buf : CStr := ['0', NUL]
      match sys_open fs version_file_path OFlag.wronly_creat with
      | Except.error e => Outcome.ret (-e) fs
      | Except.ok fs =>
      match sys_pwrite fs version_file_path version_file_buf 0 with
      | Except.error e => Outcome.ret (-e) fs
      | Except.ok (_, fs) =>
      let fs := sys_close fs
      -- src 745-750: reg_file_path, a block of 256 bytes
      if overflows 256 (versions_dir_path ++ ['/'] ++ file_name ++ [',', '0']) then Outcome.ub
      else
      let reg_file_path := versions_dir_path ++ ['/'] ++ file_name ++ [',', '0']
      match sys_open fs reg_file_path OFlag.wronly_creat with
      | Except.error e => Outcome.ret (-e) fs
      | Except.ok fs =>
      match sys_pwrite fs reg_file_path buf offset with
      | Except.error e => Outcome.ret (-e) fs
      | Except.ok (res, fs) => Outcome.ret res (sys_close fs)
    else Outcome.ret res fs

/-- The persisted counter as the code reads it back: the first five bytes of
the counter file in a zeroed five byte buffer, converted by `atoi`. -/
def read_counter (fs : FS) (version_file_path : CStr) : Option Int :=
  match sys_pread fs version_file_path 5 0 with
  | Except.error _ => none
  | Except.ok bytes => atoi (bytes ++ zeros (5 - bytes.length))

/-! ## Predicates and stores used by the statements -/

/-- A directory entry name other than `.` and `..`: not empty, without a
slash. -/
def plainName (n : CStr) : Bool :=
  decide (n ≠ [] ∧ '/' ∉ n ∧ n ≠ ['.'] ∧ n ≠ ['.', '.'])

/-- Everything the store holds below `d` is an entry of `d` itself and is not
a directory. -/
def flatDir (fs : FS) (d : CStr) : Bool :=
  fs.ents.all (fun e =>
    decide (under d e.1 → plainName (e.1.drop (d.length + 1)) = true ∧ e.2 ≠ Node.dir))

/-- The paths the removal loop builds for the entries of `d`, those of `.`
and `..` included, fit their blocks of 256 bytes. -/
def entriesFit (fs : FS) (d : CStr) : Bool :=
  decide (d.length + 3 < 256) && fs.ents.all (fun e => decide (under d e.1 → e.1.length < 256))

/-- The path of snapshot `i` of the file stored at `sp` under the name `fn`. -/
def snapshotPath (sp fn : CStr) (i : Nat) : CStr :=
  sp ++ marker ++ '/' :: (fn ++ ',' :: decimal i)

/-- The path of the counter file of the file stored at `sp`. -/
def counterPath (sp : CStr) : CStr := sp ++ marker ++ version_file

/-- The paths `vers_write` and `vers_truncate` build for the file stored at
`sp` under the name `fn` fit their blocks of 256 bytes: the path of the
counter file and the path of every snapshot whose number has at most four
digits. -/
def pathsFit (sp fn : CStr) : Prop :=
  sp.length + 30 < 256 ∧ sp.length + fn.length + 18 < 256

instance (sp fn : CStr) : Decidable (pathsFit sp fn) := by unfold pathsFit; infer_instance

/-- The file stored at `sp` has a history area whose counter file holds `k`
and which holds, besides the counter file, exactly the snapshots `0..k`. -/
def HistoryAt (fs : FS) (sp fn : CStr) (k : Nat) : Prop :=
  fs.env.faults = [] ∧
  (∃ d, fs.lookup sp = some (Node.file d)) ∧
  fs.lookup (sp ++ marker) = some Node.dir ∧
  (∃ z, fs.lookup (counterPath sp) = some (Node.file (decimal k ++ NUL :: z)) ∧
    (decimal k ++ NUL :: z).length ≤ 5) ∧
  (∀ i, i ≤ k → ∃ d, fs.lookup (snapshotPath sp fn i) = some (Node.file d)) ∧
  (∀ q, under (sp ++ marker) q → fs.lookup q ≠ none →
    q = counterPath sp ∨ ∃ i, i ≤ k ∧ q = snapshotPath sp fn i)

/-- The string `needle` occurs in the string `hay`. -/
def Occurs (needle hay : CStr) : Prop := ∃ pre post, hay = pre ++ needle ++ post

/-- A caller's `filler` that accepts every entry and records its name. -/
def collect (buf : List CStr) (name : CStr) (_st : Stat) (_off : Int) : List CStr × Int :=
  (buf ++ [name], 0)

/-- The state `fs` on a medium that has no room for snapshot `k + 1` of the
file stored at `sp`: its creation is answered with `e`. -/
def noRoomFor (fs : FS) (sp fn : CStr) (k : Nat) (e : Int) : FS :=
  ⟨fs.ents, ⟨[(snapshotPath sp fn (k + 1), e)], fs.env.stack, fs.env.store_max⟩, fs.fd_free⟩

/-- A run of whole-file writes to one file, each at offset 0: the values the
writes return and the state they leave, or `none` when one of them has
undefined behaviour. -/
def write_all (junk : Nat → Char) (storage_dir path : CStr) : List CStr → FS → Option (List Int × FS)
  | [], fs => some ([], fs)
  | buf :: rest, fs =>
    match vers_write junk storage_dir path buf 0 fs with
    | Outcome.ret code fs1 =>
      match write_all junk storage_dir path rest fs1 with
      | some (codes, fs2) => some (code :: codes, fs2)
      | none => none
    | Outcome.ub => none

/-- The state of the examples: the given nodes and refused files, `fd_free`
descriptors left, a handler stack of 8 MiB and files of at most 16 TiB. -/
def store (ents : List (CStr × Node)) (faults : List (CStr × Int)) (fd_free : Nat) : FS :=
  ⟨ents, ⟨faults, 8388608, 17592186044416⟩, fd_free⟩

/-- A store holding the storage directory `/s` and in it the empty, newly
created file `a`; the serving process can open 1019 more descriptors. -/
def store_new : FS := store [("/s".toList, Node.dir), ("/s/a".toList, Node.file [])] [] 1019

/-- The entries of a backing directory: `.`, `..`, the files `a` and `b` and
the history area of `a`. -/
def dir_entries : List Dirent :=
  [⟨1, 4, ".".toList⟩, ⟨2, 4, "..".toList⟩, ⟨3, 8, "a".toList⟩,
    ⟨4, 4, "a__versions__".toList⟩, ⟨5, 8, "b".toList⟩]

/-- A backing store in which every directory holds `dir_entries`. -/
def dir_stream (_path : CStr) : Except Int (List Dirent) := Except.ok dir_entries

/-- A store holding the storage directory `/s` only. -/
def store_root : FS := store [("/s".toList, Node.dir)] [] 1019

/-- Memory that holds the byte `J` everywhere. -/
def junk_J : Nat → Char := fun _ => 'J'

/-- A store holding the storage directory `/s` and in it the file `a` with
content `hello` and no history area. -/
def store_plain : FS :=
  store [("/s".toList, Node.dir), ("/s/a".toList, Node.file "hello".toList)] [] 1019

/-- The nodes left by the first write of `hello` to the new file `a`: the
file, its history area, the counter file holding `0` and snapshot 0. -/
def ents_hello : List (CStr × Node) :=
  [("/s".toList, Node.dir), ("/s/a".toList, Node.file "hello".toList),
    ("/s/a__versions__".toList, Node.dir),
    ("/s/a__versions__/.version_file.txt".toList, Node.file ['0', NUL]),
    ("/s/a__versions__/a,0".toList, Node.file "hello".toList)]

/-- The state left by the first write of `hello` to the new file `a`. -/
def store_hello : FS := store ents_hello [] 1019

/-- The store `store_new` on a medium that answers `EIO` to every write to
the file `a`. -/
def store_faulty : FS :=
  store [("/s".toList, Node.dir), ("/s/a".toList, Node.file [])] [("/s/a".toList, EIO)] 1019

/-- A store with two tracked files: `a` as in `store_hello` and `b` with
content `old`, each with a history area holding snapshot 0. -/
def store_two : FS :=
  store [("/s".toList, Node.dir), ("/s/a".toList, Node.file "hello".toList),
    ("/s/a__versions__".toList, Node.dir),
    ("/s/a__versions__/.version_file.txt".toList, Node.file ['0', NUL]),
    ("/s/a__versions__/a,0".toList, Node.file "hello".toList),
    ("/s/b".toList, Node.file "old".toList),
    ("/s/b__versions__".toList, Node.dir),
    ("/s/b__versions__/.version_file.txt".toList, Node.file ['0', NUL]),
    ("/s/b__versions__/b,0".toList, Node.file "old".toList)] [] 1019

/-! ## The store as a map -/

theorem lookupEnt_eraseEnt (l : List (CStr × Node)) (p q : CStr) :
    lookupEnt (eraseEnt l p) q = if q = p then none else lookupEnt l q := by
  induction l with
  | nil => simp [eraseEnt, lookupEnt]
  | cons e rest ih =>
    obtain ⟨k, v⟩ := e
    by_cases hk : k = p
    · subst hk
      simp only [eraseEnt, if_true, ih, lookupEnt]
      by_cases hq : q = k
      · simp [hq]
      · have : ¬ k = q := fun h => hq h.symm
        simp [hq, this]
    · simp only [eraseEnt, hk, if_false, lookupEnt, ih]
      by_cases hq : q = p
      · subst hq
        simp [hk]
      · simp [hq]

theorem lookupEnt_setEnt (l : List (CStr × Node)) (p q : CStr) (n : Node) :
    lookupEnt (setEnt l p n) q = if q = p then some n else lookupEnt l q := by
  induction l with
  | nil =>
    by_cases hq : q = p
    · simp [setEnt, lookupEnt, hq]
    · have : ¬ p = q := fun h => hq h.symm
      simp [setEnt, lookupEnt, hq, this]
  | cons e rest ih =>
    obtain ⟨k, v⟩ := e
    by_cases hk : k = p
    · subst hk
      simp only [setEnt, if_true, lookupEnt, lookupEnt_eraseEnt]
      by_cases hq : q = k
      · simp [hq]
      · have : ¬ k = q := fun h => hq h.symm
        simp [hq, this]
    · simp only [setEnt, hk, if_false, lookupEnt, ih]
      by_cases hq : q = p
      · subst hq
        simp [hk]
      · simp [hq]

theorem lookupEnt_ne_none_of_mem (l : List (CStr × Node)) (k : CStr) (v : Node)
    (h : (k, v) ∈ l) : lookupEnt l k ≠ none := by
  induction l with
  | nil => simp at h
  | cons e rest ih =>
    obtain ⟨k', v'⟩ := e
    by_cases hk : k' = k
    · simp [lookupEnt, hk]
    · simp only [lookupEnt, hk, if_false]
      apply ih
      simp only [List.mem_cons, Prod.mk.injEq] at h
      rcases h with h | h
      · exact absurd h.1.symm hk
      · exact h

theorem mem_of_lookupEnt (l : List (CStr × Node)) (k : CStr) (v : Node)
    (h : lookupEnt l k = some v) : (k, v) ∈ l := by
  induction l with
  | nil => simp [lookupEnt] at h
  | cons e rest ih =>
    obtain ⟨k', v'⟩ := e
    by_cases hk : k' = k
    · simp only [lookupEnt, hk, if_true, Option.some.injEq] at h
      simp [hk, h]
    · simp only [lookupEnt, hk, if_false] at h
      exact List.mem_cons_of_mem _ (ih h)

@[simp]
theorem FS.lookup_set (fs : FS) (p q : CStr) (n : Node) :
    (fs.set p n).lookup q = if q = p then some n else fs.lookup q := by
  simp [FS.lookup, FS.set, lookupEnt_setEnt]

@[simp]
theorem FS.lookup_erase (fs : FS) (p q : CStr) :
    (fs.erase p).lookup q = if q = p then none else fs.lookup q := by
  simp [FS.lookup, FS.erase, lookupEnt_eraseEnt]

@[simp]
theorem FS.env_set (fs : FS) (p : CStr) (n : Node) : (fs.set p n).env = fs.env := rfl

@[simp]
theorem FS.env_erase (fs : FS) (p : CStr) : (fs.erase p).env = fs.env := rfl

@[simp]
theorem FS.env_takeFd (fs : FS) : fs.takeFd.env = fs.env := rfl

@[simp]
theorem env_sys_close (fs : FS) : (sys_close fs).env = fs.env := rfl

@[simp]
theorem FS.fd_free_set (fs : FS) (p : CStr) (n : Node) : (fs.set p n).fd_free = fs.fd_free := rfl

@[simp]
theorem FS.fd_free_erase (fs : FS) (p : CStr) : (fs.erase p).fd_free = fs.fd_free := rfl

@[simp]
theorem FS.fd_free_takeFd (fs : FS) : fs.takeFd.fd_free = fs.fd_free - 1 := rfl

@[simp]
theorem fd_free_sys_close (fs : FS) : (sys_close fs).fd_free = fs.fd_free + 1 := rfl

@[simp]
theorem FS.lookup_takeFd (fs : FS) (q : CStr) : fs.takeFd.lookup q = fs.lookup q := rfl

@[simp]
theorem lookup_sys_close (fs : FS) (q : CStr) : (sys_close fs).lookup q = fs.lookup q := rfl

theorem FS.set_takeFd (fs : FS) (p : CStr) (n : Node) : fs.takeFd.set p n = (fs.set p n).takeFd :=
  rfl

/-- Closing the descriptor that was taken last gives the state back. -/
theorem sys_close_takeFd (fs : FS) (h : 0 < fs.fd_free) : sys_close fs.takeFd = fs := by
  obtain ⟨ents, env, fd⟩ := fs
  simp only [sys_close, FS.takeFd, FS.mk.injEq, true_and]
  simp only at h
  omega

theorem overflows_false (cap : Nat) (s : CStr) (h : s.length < cap) : overflows cap s = false := by
  simp [overflows]
  omega

theorem overflows_true (cap : Nat) (s : CStr) (h : cap ≤ s.length) : overflows cap s = true := by
  simp [overflows]
  omega

theorem noVLA_false (room n : Nat) (h0 : 0 < n) (h : n ≤ room) : noVLA room n = false := by
  simp [noVLA]
  omega

theorem noInt_false (n : Nat) (h : n < 2147483648) : noInt n = false := by
  simp [noInt]
  omega

theorem dirEmpty_iff (fs : FS) (d : CStr) :
    dirEmpty fs d = true ↔ ∀ q, under d q → fs.lookup q = none := by
  unfold dirEmpty
  rw [List.all_eq_true]
  constructor
  · intro h q hq
    by_contra hne
    obtain ⟨v, hv⟩ := Option.ne_none_iff_exists'.mp hne
    have := h (q, v) (mem_of_lookupEnt _ _ _ hv)
    simp at this
    exact this hq
  · intro h e he
    simp only [decide_eq_true_eq]
    intro hu
    exact lookupEnt_ne_none_of_mem fs.ents e.1 e.2 he (h e.1 hu)

theorem mem_dirNames (fs : FS) (d q n : CStr) (v : Node) (h : fs.lookup q = some v)
    (hn : childName d q = some n) : n ∈ dirNames fs d := by
  unfold dirNames
  rw [List.mem_filterMap]
  exact ⟨(q, v), mem_of_lookupEnt _ _ _ h, hn⟩

/-! ## Paths -/

theorem dropWhile_append_all {α : Type} (p : α → Bool) (l₁ l₂ : List α)
    (h : ∀ x ∈ l₁, p x = true) : (l₁ ++ l₂).dropWhile p = l₂.dropWhile p := by
  induction l₁ with
  | nil => rfl
  | cons a l ih =>
    have ha : p a = true := h a (List.mem_cons_self _ _)
    simp only [List.cons_append, List.dropWhile_cons, ha, if_true]
    exact ih (fun x hx => h x (List.mem_cons_of_mem _ hx))

theorem takeWhile_append_stop {α : Type} (p : α → Bool) (l₁ l₂ : List α) (a : α)
    (h : ∀ x ∈ l₁, p x = true) (ha : p a = false) : (l₁ ++ a :: l₂).takeWhile p = l₁ := by
  induction l₁ with
  | nil => simp [List.takeWhile_cons, ha]
  | cons b l ih =>
    have hb : p b = true := h b (List.mem_cons_self _ _)
    simp only [List.cons_append, List.takeWhile_cons, hb, if_true]
    rw [ih (fun x hx => h x (List.mem_cons_of_mem _ hx))]

theorem parentDir_child (d n : CStr) (hn : '/' ∉ n) : parentDir (d ++ '/' :: n) = d := by
  unfold parentDir
  have h1 : (d ++ '/' :: n).reverse = n.reverse ++ '/' :: d.reverse := by simp
  rw [h1, dropWhile_append_all]
  · simp [List.dropWhile_cons]
  · intro x hx
    have : x ∈ n := List.mem_reverse.mp hx
    simp only [ne_eq, decide_not, Bool.not_eq_eq_eq_not, Bool.not_true, decide_eq_false_iff_not]
    intro hx'
    exact hn (hx' ▸ this)

theorem parentDir_append (p m : CStr) (hm : '/' ∉ m) : parentDir (p ++ m) = parentDir p := by
  unfold parentDir
  have h1 : (p ++ m).reverse = m.reverse ++ p.reverse := by simp
  rw [h1, dropWhile_append_all]
  intro x hx
  have : x ∈ m := List.mem_reverse.mp hx
  simp only [ne_eq, decide_not, Bool.not_eq_eq_eq_not, Bool.not_true, decide_eq_false_iff_not]
  intro hx'
  exact hm (hx' ▸ this)

theorem basename_child (d n : CStr) (hne : n ≠ []) (hn : '/' ∉ n) :
    basename (d ++ '/' :: n) = n := by
  unfold basename
  have h0 : d ++ '/' :: n ≠ [] := by simp
  have h1 : (d ++ '/' :: n).reverse = n.reverse ++ '/' :: d.reverse := by simp
  have hall : ∀ x ∈ n.reverse, (fun c : Char => decide (c ≠ '/')) x = true := by
    intro x hx
    have : x ∈ n := List.mem_reverse.mp hx
    simp only [ne_eq, decide_not, Bool.not_eq_eq_eq_not, Bool.not_true, decide_eq_false_iff_not]
    intro hx'
    exact hn (hx' ▸ this)
  have h2 : (n.reverse ++ '/' :: d.reverse).dropWhile (fun c => decide (c = '/'))
      = n.reverse ++ '/' :: d.reverse := by
    obtain ⟨a, l, hl⟩ := List.exists_cons_of_ne_nil (show n.reverse ≠ [] by simpa using hne)
    rw [hl]
    have ha : a ≠ '/' := by
      have := hall a (by rw [hl]; exact List.mem_cons_self _ _)
      simpa using this
    simp [List.dropWhile_cons, ha]
  simp only [h0, if_false, h1, h2]
  have h3 : n.reverse ++ '/' :: d.reverse ≠ [] := by simp
  simp only [h3, if_false]
  rw [takeWhile_append_stop _ _ _ _ hall (by simp)]
  simp

theorem under_child (d n : CStr) : under d (d ++ '/' :: n) := by
  unfold under
  have : d ++ '/' :: n = (d ++ ['/']) ++ n := by simp
  rw [this, List.take_left']
  simp

theorem under_length (d q : CStr) (h : under d q) : d.length + 1 ≤ q.length := by
  unfold under at h
  have := congrArg List.length h
  simp only [List.length_take, List.length_append, List.length_singleton] at this
  omega

theorem under_eq (d q : CStr) (h : under d q) : q = d ++ '/' :: q.drop (d.length + 1) := by
  unfold under at h
  have := List.take_append_drop (d.length + 1) q
  rw [h] at this
  simpa using this.symm

theorem not_under_of_length (d q : CStr) (h : q.length ≤ d.length) : ¬ under d q := by
  intro hu
  have := under_length d q hu
  omega

theorem childName_child (d n : CStr) (hne : n ≠ []) (hn : '/' ∉ n) :
    childName d (d ++ '/' :: n) = some n := by
  unfold childName
  have hd : List.drop (d.length + 1) (d ++ '/' :: n) = n := by
    have : d ++ '/' :: n = (d ++ ['/']) ++ n := by simp
    rw [this, List.drop_left']
    simp
  simp [under_child, hd, hne, hn]

/-! ## The removal loop -/

theorem flatDir_spec (fs : FS) (d q : CStr) (v : Node) (h : flatDir fs d = true)
    (hu : under d q) (hq : fs.lookup q = some v) :
    plainName (q.drop (d.length + 1)) = true ∧ v ≠ Node.dir := by
  unfold flatDir at h
  rw [List.all_eq_true] at h
  have := h (q, v) (mem_of_lookupEnt _ _ _ hq)
  simp only [decide_eq_true_eq] at this
  exact this hu

theorem lookup_unlink_entry (vd : CStr) (fs : FS) (n q : CStr) :
    (unlink_entry vd fs n).lookup q =
      if (n ≠ ['.', '.'] ∧ n ≠ ['.'] ∧ q = vd ++ '/' :: n) ∧ fs.lookup q ≠ some Node.dir
      then none else fs.lookup q := by
  unfold unlink_entry
  by_cases hn : n = ['.', '.'] ∨ n = ['.']
  · have : ¬ (n ≠ ['.', '.'] ∧ n ≠ ['.'] ∧ q = vd ++ '/' :: n) := by
      rintro ⟨h1, h2, _⟩
      rcases hn with hn | hn
      · exact h1 hn
      · exact h2 hn
    simp [hn, this]
  · have hn1 : n ≠ ['.', '.'] := fun h => hn (Or.inl h)
    have hn2 : n ≠ ['.'] := fun h => hn (Or.inr h)
    simp only [hn, if_false, hn1, hn2, ne_eq, not_false_eq_true, true_and, List.append_assoc,
      List.singleton_append]
    unfold sys_unlink
    by_cases hq : q = vd ++ '/' :: n
    · subst hq
      cases hl : fs.lookup (vd ++ '/' :: n) with
      | none => simp [hl]
      | some v => cases v <;> simp [hl]
    · cases hl : fs.lookup (vd ++ '/' :: n) with
      | none => simp [hq]
      | some v => cases v <;> simp [hq]

theorem res_unlink_entry (vd : CStr) (fs : FS) (n : CStr) :
    (unlink_entry vd fs n).env = fs.env ∧ (unlink_entry vd fs n).fd_free = fs.fd_free := by
  unfold unlink_entry sys_unlink
  by_cases hn : n = ['.', '.'] ∨ n = ['.']
  · simp [hn]
  · simp only [hn, if_false]
    cases hl : fs.lookup (vd ++ ['/'] ++ n) with
    | none => simp
    | some v => cases v <;> simp

theorem res_foldl_unlink (vd : CStr) (ns : List CStr) (fs : FS) :
    (ns.foldl (unlink_entry vd) fs).env = fs.env ∧
      (ns.foldl (unlink_entry vd) fs).fd_free = fs.fd_free := by
  induction ns generalizing fs with
  | nil => exact ⟨rfl, rfl⟩
  | cons n ns ih =>
    rw [List.foldl_cons]
    exact ⟨(ih _).1.trans (res_unlink_entry vd fs n).1, (ih _).2.trans (res_unlink_entry vd fs n).2⟩

theorem lookup_foldl_unlink (vd : CStr) (ns : List CStr) (fs : FS) (q : CStr) :
    (ns.foldl (unlink_entry vd) fs).lookup q =
      if (∃ n ∈ ns, n ≠ ['.', '.'] ∧ n ≠ ['.'] ∧ q = vd ++ '/' :: n) ∧ fs.lookup q ≠ some Node.dir
      then none else fs.lookup q := by
  induction ns generalizing fs with
  | nil => simp
  | cons n ns ih =>
    rw [List.foldl_cons, ih]
    have hrm := lookup_unlink_entry vd fs n q
    by_cases hd : fs.lookup q = some Node.dir
    · rw [if_neg (fun h => h.2 hd)] at hrm
      rw [hrm]
      refine Eq.trans ?_ (if_neg (fun h => h.2 hd)).symm
      exact if_neg (fun h => h.2 hd)
    · by_cases h1 : (n ≠ ['.', '.'] ∧ n ≠ ['.'] ∧ q = vd ++ '/' :: n)
      · have hex : ∃ n' ∈ n :: ns, n' ≠ ['.', '.'] ∧ n' ≠ ['.'] ∧ q = vd ++ '/' :: n' :=
          ⟨n, List.mem_cons_self _ _, h1⟩
        rw [if_pos ⟨h1, hd⟩] at hrm
        rw [hrm]
        refine Eq.trans ?_ (if_pos ⟨hex, hd⟩).symm
        split <;> rfl
      · rw [if_neg (fun h => h1 h.1)] at hrm
        rw [hrm]
        by_cases h2 : ∃ n' ∈ ns, n' ≠ ['.', '.'] ∧ n' ≠ ['.'] ∧ q = vd ++ '/' :: n'
        · have hex : ∃ n' ∈ n :: ns, n' ≠ ['.', '.'] ∧ n' ≠ ['.'] ∧ q = vd ++ '/' :: n' := by
            obtain ⟨n', hm, hp⟩ := h2
            exact ⟨n', List.mem_cons_of_mem _ hm, hp⟩
          refine Eq.trans ?_ (if_pos ⟨hex, hd⟩).symm
          exact if_pos ⟨h2, hd⟩
        · have hex : ¬ ∃ n' ∈ n :: ns, n' ≠ ['.', '.'] ∧ n' ≠ ['.'] ∧ q = vd ++ '/' :: n' := by
            rintro ⟨n', hm, hp⟩
            rcases List.mem_cons.mp hm with hm | hm
            · exact h1 (hm ▸ hp)
            · exact h2 ⟨n', hm, hp⟩
          refine Eq.trans ?_ (if_neg (fun h => hex h.1)).symm
          exact if_neg (fun h => h2 h.1)

/-- While every path the loop builds fits its block, the loop is the
removal of the entries one after the other. -/
theorem foldl_remove_entry (vd : CStr) (ns : List CStr) (fs : FS)
    (h : ∀ n ∈ ns, (vd ++ ['/'] ++ n).length < 256) :
    ns.foldl (remove_entry vd) (some fs) = some (ns.foldl (unlink_entry vd) fs) := by
  induction ns generalizing fs with
  | nil => rfl
  | cons n ns ih =>
    rw [List.foldl_cons, List.foldl_cons]
    have h1 : remove_entry vd (some fs) n = some (unlink_entry vd fs n) := by
      simp only [remove_entry, overflows_false _ _ (h n (List.mem_cons_self _ _)),
        Bool.false_eq_true, if_false]
    rw [h1]
    exact ih _ (fun m hm => h m (List.mem_cons_of_mem _ hm))

theorem childName_eq (d q n : CStr) (h : childName d q = some n) : q = d ++ '/' :: n := by
  unfold childName at h
  by_cases hu : under d q
  · rw [if_pos hu] at h
    by_cases hn : q.drop (d.length + 1) ≠ [] ∧ '/' ∉ q.drop (d.length + 1)
    · simp only [hn, ne_eq, not_false_eq_true, and_self, if_true, Option.some.injEq] at h
      rw [← h]
      exact under_eq d q hu
    · simp only [hn, if_false] at h
      exact absurd h (by simp)
  · rw [if_neg hu] at h
    exact absurd h (by simp)

/-- The paths of the entries of a directory whose `entriesFit` holds fit. -/
theorem entriesFit_spec (fs : FS) (vd : CStr) (h : entriesFit fs vd = true) :
    vd.length + 3 < 256 ∧
      ∀ n ∈ ['.'] :: ['.', '.'] :: dirNames fs vd, (vd ++ ['/'] ++ n).length < 256 := by
  unfold entriesFit at h
  rw [Bool.and_eq_true, decide_eq_true_eq, List.all_eq_true] at h
  obtain ⟨h3, hall⟩ := h
  refine ⟨h3, ?_⟩
  intro n hn
  rcases List.mem_cons.mp hn with hn | hn
  · subst hn
    simp only [List.length_append, List.length_cons, List.length_nil]
    omega
  rcases List.mem_cons.mp hn with hn | hn
  · subst hn
    simp only [List.length_append, List.length_cons, List.length_nil]
    omega
  unfold dirNames at hn
  rw [List.mem_filterMap] at hn
  obtain ⟨e, he, hc⟩ := hn
  have hq := childName_eq vd e.1 n hc
  have := hall e he
  simp only [decide_eq_true_eq] at this
  have hlen := this (hq ▸ under_child vd n)
  rw [hq] at hlen
  simpa using hlen

/-- The removal loop over the listing of a flat directory whose entries have
paths that fit empties it and touches nothing else. -/
theorem removal_loop (fs : FS) (vd : CStr) (hflat : flatDir fs vd = true)
    (hfit : entriesFit fs vd = true) :
    ∃ fs1, (['.'] :: ['.', '.'] :: dirNames fs vd).foldl (remove_entry vd) (some fs) = some fs1 ∧
    (∀ q, under vd q → fs1.lookup q = none) ∧
    (∀ q, ¬ under vd q → fs1.lookup q = fs.lookup q) ∧
    fs1.env = fs.env ∧ fs1.fd_free = fs.fd_free := by
  refine ⟨_, foldl_remove_entry vd _ fs (entriesFit_spec fs vd hfit).2, ?_, ?_,
    (res_foldl_unlink _ _ _).1, (res_foldl_unlink _ _ _).2⟩
  · intro q hu
    rw [lookup_foldl_unlink]
    cases hl : fs.lookup q with
    | none => simp
    | some v =>
      obtain ⟨hp, hv⟩ := flatDir_spec fs vd q v hflat hu hl
      have hq := under_eq vd q hu
      unfold plainName at hp
      simp only [decide_eq_true_eq] at hp
      obtain ⟨hp1, hp2, hp3, hp4⟩ := hp
      have hc : childName vd q = some (q.drop (vd.length + 1)) := by
        conv => lhs; rw [hq]
        exact childName_child vd _ hp1 hp2
      have hm : q.drop (vd.length + 1) ∈ dirNames fs vd := mem_dirNames fs vd q _ v hl hc
      have hex : ∃ n ∈ ['.'] :: ['.', '.'] :: dirNames fs vd,
          n ≠ ['.', '.'] ∧ n ≠ ['.'] ∧ q = vd ++ '/' :: n :=
        ⟨_, List.mem_cons_of_mem _ (List.mem_cons_of_mem _ hm), hp4, hp3, hq⟩
      have hvd : some v ≠ some Node.dir := fun h => hv (Option.some.inj h)
      rw [if_pos ⟨hex, hvd⟩]
  · intro q hu
    rw [lookup_foldl_unlink]
    have : ¬ ∃ n ∈ ['.'] :: ['.', '.'] :: dirNames fs vd,
        n ≠ ['.', '.'] ∧ n ≠ ['.'] ∧ q = vd ++ '/' :: n := by
      rintro ⟨n, _, _, _, hq⟩
      exact hu (hq ▸ under_child vd n)
    rw [if_neg (fun h => this h.1)]

theorem marker_length : marker.length = 12 := by decide

theorem slash_not_mem_marker : '/' ∉ marker := by decide

theorem append_marker_ne (p : CStr) : p ++ marker ≠ p := by
  intro h
  have := congrArg List.length h
  simp [marker_length] at this

theorem not_under_self (d : CStr) : ¬ under d d :=
  not_under_of_length d d (Nat.le_refl _)

theorem not_under_marker (p : CStr) : ¬ under (p ++ marker) p :=
  not_under_of_length _ _ (by simp)

theorem sys_opendir_none (fs : FS) (p : CStr) (h : fs.lookup p = none) (hfd : 0 < fs.fd_free) :
    sys_opendir fs p = Except.error ENOENT := by
  unfold sys_opendir
  rw [if_neg (by omega), h]

theorem sys_opendir_dir (fs : FS) (p : CStr) (h : fs.lookup p = some Node.dir)
    (hfd : 0 < fs.fd_free) :
    sys_opendir fs p = Except.ok (['.'] :: ['.', '.'] :: dirNames fs p, fs.takeFd) := by
  unfold sys_opendir
  rw [if_neg (by omega), h]

theorem sys_open_file (fs : FS) (p : CStr) (d : CStr) (fl : OFlag)
    (h : fs.lookup p = some (Node.file d)) (hfl : fl ≠ OFlag.wronly_creat_excl)
    (hfd : 0 < fs.fd_free) :
    sys_open fs p fl = Except.ok fs.takeFd := by
  unfold sys_open openNode
  rw [if_neg (by omega), h]
  cases fl <;> first | rfl | exact absurd rfl hfl

theorem sys_open_emfile (fs : FS) (p : CStr) (fl : OFlag) (hfd : fs.fd_free = 0) :
    sys_open fs p fl = Except.error EMFILE := by
  unfold sys_open
  rw [if_pos hfd]

theorem sys_open_creat_new (fs : FS) (p : CStr) (hf : fs.env.faults = [])
    (h : fs.lookup p = none) (hp : fs.lookup (parentDir p) = some Node.dir)
    (hfd : 0 < fs.fd_free) :
    sys_open fs p OFlag.wronly_creat = Except.ok (fs.set p (Node.file [])).takeFd := by
  unfold sys_open openNode
  rw [if_neg (by omega), h]
  simp only [createAt, hp, hf, lookupFault]

theorem sys_pwrite_ok (fs : FS) (p buf : CStr) (off : Nat) (d : CStr)
    (hnf : lookupFault fs.env.faults p = none) (h : fs.lookup p = some (Node.file d))
    (hsz : buf = [] ∨ off + buf.length ≤ fs.env.max_size) :
    sys_pwrite fs p buf off
      = Except.ok ((buf.length : Int), fs.set p (Node.file (written d buf off))) := by
  unfold sys_pwrite
  rw [h]
  have hc : ¬ (buf ≠ [] ∧ (fs.env.store_max < off + buf.length
      ∨ 9223372036854775807 < off + buf.length)) := by
    rintro ⟨h1, h2⟩
    rcases hsz with hsz | hsz
    · exact h1 hsz
    · unfold Env.max_size at hsz
      omega
  simp only [hc, if_false, hnf]

theorem sys_pwrite_file (fs : FS) (p buf : CStr) (off : Nat) (d : CStr)
    (hf : fs.env.faults = []) (h : fs.lookup p = some (Node.file d))
    (hsz : buf = [] ∨ off + buf.length ≤ fs.env.max_size) :
    sys_pwrite fs p buf off
      = Except.ok ((buf.length : Int), fs.set p (Node.file (written d buf off))) :=
  sys_pwrite_ok fs p buf off d (by rw [hf]; rfl) h hsz

/-- Closing the descriptor through which a file was written. -/
theorem sys_close_set (fs : FS) (p : CStr) (n : Node) (hfd : 0 < fs.fd_free) :
    sys_close (fs.takeFd.set p n) = fs.set p n := by
  rw [FS.set_takeFd]
  exact sys_close_takeFd _ hfd

theorem sys_close_set_set (fs : FS) (p : CStr) (n m : Node) (hfd : 0 < fs.fd_free) :
    sys_close ((fs.takeFd.set p n).set p m) = (fs.set p n).set p m := by
  rw [FS.set_takeFd, FS.set_takeFd]
  exact sys_close_takeFd _ hfd

theorem sys_truncate_file (fs : FS) (p d : CStr) (size : Nat)
    (h : fs.lookup p = some (Node.file d)) (hsize : size ≤ fs.env.max_size) :
    sys_truncate fs p size = Except.ok (fs.set p (Node.file (resize d size))) := by
  unfold sys_truncate
  rw [h]
  have hc : ¬ (fs.env.store_max < size ∨ 9223372036854775807 < size) := by
    unfold Env.max_size at hsize
    omega
  simp only [hc, if_false]

theorem sys_mkdir_new (fs : FS) (p : CStr) (hf : fs.env.faults = []) (h : fs.lookup p = none)
    (hp : fs.lookup (parentDir p) = some Node.dir) :
    sys_mkdir fs p = Except.ok (fs.set p Node.dir) := by
  unfold sys_mkdir
  rw [h]
  simp only [createAt, hp, hf, lookupFault]

theorem sys_lstat_file (fs : FS) (p d : CStr) (h : fs.lookup p = some (Node.file d)) :
    sys_lstat fs p = Except.ok d.length := by
  unfold sys_lstat
  rw [h]

theorem sys_pread_file (fs : FS) (p d : CStr) (count off : Nat)
    (h : fs.lookup p = some (Node.file d)) :
    sys_pread fs p count off = Except.ok ((d.drop off).take count) := by
  unfold sys_pread
  rw [h]

theorem version_file_eq : version_file = '/' :: ".version_file.txt".toList := by decide

theorem version_file_length : version_file.length = 18 := by decide

theorem parentDir_version_file (vd : CStr) : parentDir (vd ++ version_file) = vd := by
  rw [version_file_eq]
  exact parentDir_child vd _ (by decide)

theorem under_version_file (vd : CStr) : under vd (vd ++ version_file) := by
  rw [version_file_eq]
  exact under_child vd _

theorem under_ne (d q : CStr) (h : under d q) : q ≠ d := by
  intro he
  subst he
  exact not_under_self _ h

theorem under_marker_ne (p q : CStr) (h : under (p ++ marker) q) : q ≠ p := by
  intro he
  subst he
  exact not_under_marker _ h

/-- The path of snapshot `digits` of file `fn` in the history area `vd`. -/
theorem snap_path (vd fn digits : CStr) :
    vd ++ ['/'] ++ fn ++ digits = vd ++ '/' :: (fn ++ digits) := by
  simp

theorem snap_ne_version_file (vd fn digits : CStr) :
    vd ++ '/' :: (fn ++ ',' :: digits) ≠ vd ++ version_file := by
  rw [version_file_eq]
  intro h
  have h1 := List.append_cancel_left h
  have h2 : fn ++ ',' :: digits = ".version_file.txt".toList := (List.cons.inj h1).2
  have h3 : ',' ∈ fn ++ ',' :: digits := by simp
  rw [h2] at h3
  exact absurd h3 (by decide)

/-- The paths of the history area of a file whose `pathsFit` holds fit their
blocks of 256 bytes. -/
theorem pathsFit_spec (sp fn : CStr) (h : pathsFit sp fn) :
    sp.length < 256 ∧ (sp ++ marker).length < 256 ∧
      (sp ++ marker ++ version_file).length < 256 ∧
      ∀ digits : CStr, digits.length ≤ 4 →
        (sp ++ marker ++ '/' :: (fn ++ ',' :: digits)).length < 256 := by
  obtain ⟨h1, h2⟩ := h
  refine ⟨by omega, ?_, ?_, ?_⟩
  · rw [List.length_append, marker_length]; omega
  · rw [List.length_append, List.length_append, marker_length, version_file_length]; omega
  · intro digits hd
    simp only [List.length_append, List.length_cons, marker_length]
    omega

/-! ## The first write -/

theorem written_counter : written [] ['0', NUL] 0 = ['0', NUL] := by decide

/-- The first write to a file without a history area creates the area, the
counter file holding `0` and snapshot 0 holding the written bytes; every
descriptor it opens is closed again. -/
theorem vers_write_first (junk : Nat → Char) (storage_dir path buf : CStr) (offset : Nat)
    (fs : FS) (d : CStr) (hf : fs.env.faults = [])
    (hlive : fs.lookup (prepend_storage_dir storage_dir path) = some (Node.file d))
    (hpar : fs.lookup (parentDir (prepend_storage_dir storage_dir path)) = some Node.dir)
    (hnone : fs.lookup (prepend_storage_dir storage_dir path ++ marker) = none)
    (hempty : dirEmpty fs (prepend_storage_dir storage_dir path ++ marker) = true)
    (hbase : '/' ∉ basename path)
    (hfit : pathsFit (prepend_storage_dir storage_dir path) (basename path))
    (hfd : 0 < fs.fd_free)
    (hb0 : 0 < buf.length) (hstack : buf.length ≤ fs.env.stack)
    (hint : buf.length < 2147483648) (hmax : offset + buf.length ≤ fs.env.max_size)
    (hmax2 : 2 ≤ fs.env.max_size) :
    ∃ fs1, vers_write junk storage_dir path buf offset fs = Outcome.ret buf.length fs1 ∧
      fs1.env = fs.env ∧ fs1.fd_free = fs.fd_free ∧
      ∀ q, fs1.lookup q =
        if q = prepend_storage_dir storage_dir path ++ marker ++ '/' :: (basename path ++ [',', '0'])
          then some (Node.file (written [] buf offset))
        else if q = prepend_storage_dir storage_dir path ++ marker ++ version_file
          then some (Node.file ['0', NUL])
        else if q = prepend_storage_dir storage_dir path ++ marker then some Node.dir
        else if q = prepend_storage_dir storage_dir path then some (Node.file (written d buf offset))
        else fs.lookup q := by
  unfold vers_write
  generalize prepend_storage_dir storage_dir path = sp at *
  generalize basename path = fn at *
  have hemp := (dirEmpty_iff fs _).mp hempty
  obtain ⟨hfit1, hfit2, hfit3, hfit4⟩ := pathsFit_spec sp fn hfit
  -- the paths involved
  have hsnap : sp ++ marker ++ ['/'] ++ fn ++ [',', '0']
      = sp ++ marker ++ '/' :: (fn ++ [',', '0']) := snap_path _ _ _
  have hu_c : under (sp ++ marker) (sp ++ marker ++ version_file) := under_version_file _
  have hu_s : under (sp ++ marker) (sp ++ marker ++ '/' :: (fn ++ [',', '0'])) := under_child _ _
  have hc_vd : sp ++ marker ++ version_file ≠ sp ++ marker := under_ne _ _ hu_c
  have hc_sp : sp ++ marker ++ version_file ≠ sp := under_marker_ne _ _ hu_c
  have hs_vd : sp ++ marker ++ '/' :: (fn ++ [',', '0']) ≠ sp ++ marker := under_ne _ _ hu_s
  have hs_sp : sp ++ marker ++ '/' :: (fn ++ [',', '0']) ≠ sp := under_marker_ne _ _ hu_s
  have hs_c : sp ++ marker ++ '/' :: (fn ++ [',', '0']) ≠ sp ++ marker ++ version_file :=
    snap_ne_version_file _ _ _
  have hvd_sp : sp ++ marker ≠ sp := append_marker_ne sp
  have hpar_sp : parentDir sp ≠ sp := by
    intro h
    rw [h, hlive] at hpar
    exact absurd hpar (by simp)
  have hpar_vd : parentDir (sp ++ marker) = parentDir sp := parentDir_append _ _ slash_not_mem_marker
  have hpar_s : parentDir (sp ++ marker ++ '/' :: (fn ++ [',', '0'])) = sp ++ marker :=
    parentDir_child _ _ (by simp [hbase])
  -- the checks
  have k1 : noVLA fs.env.stack buf.length = false := noVLA_false _ _ hb0 hstack
  have k2 : overflows 256 sp = false := overflows_false _ _ hfit1
  have k3 : noInt buf.length = false := noInt_false _ hint
  have k4 : overflows 256 (sp ++ marker) = false := overflows_false _ _ hfit2
  have k5 : overflows 256 (sp ++ marker ++ version_file) = false := overflows_false _ _ hfit3
  have k6 : overflows 256 (sp ++ marker ++ '/' :: (fn ++ [',', '0'])) = false :=
    overflows_false _ _ (hfit4 ['0'] (by decide))
  -- the calls
  have h1 : sys_open fs sp OFlag.wronly = Except.ok fs.takeFd :=
    sys_open_file fs sp d _ hlive (by decide) hfd
  have h2 := sys_pwrite_file fs.takeFd sp buf offset d hf hlive (Or.inr hmax)
  have c2 := sys_close_set fs sp (Node.file (written d buf offset)) hfd
  generalize hfs2 : fs.set sp (Node.file (written d buf offset)) = fs2 at c2
  have hl2 : ∀ q, fs2.lookup q = if q = sp then some (Node.file (written d buf offset))
      else fs.lookup q := by
    intro q; rw [← hfs2, FS.lookup_set]
  have he2 : fs2.env = fs.env := by rw [← hfs2, FS.env_set]
  have hd2 : fs2.fd_free = fs.fd_free := by rw [← hfs2, FS.fd_free_set]
  have hf2 : fs2.env.faults = [] := by rw [he2, hf]
  have h3 : sys_opendir fs2 (sp ++ marker) = Except.error ENOENT :=
    sys_opendir_none _ _ (by rw [hl2, if_neg hvd_sp, hnone]) (by omega)
  have h4 : sys_mkdir fs2 (sp ++ marker) = Except.ok (fs2.set (sp ++ marker) Node.dir) :=
    sys_mkdir_new _ _ hf2 (by rw [hl2, if_neg hvd_sp, hnone])
      (by rw [hpar_vd, hl2, if_neg hpar_sp, hpar])
  generalize hfs3 : fs2.set (sp ++ marker) Node.dir = fs3 at h4
  have hl3 : ∀ q, fs3.lookup q = if q = sp ++ marker then some Node.dir else fs2.lookup q := by
    intro q; rw [← hfs3, FS.lookup_set]
  have he3 : fs3.env = fs.env := by rw [← hfs3, FS.env_set, he2]
  have hd3 : fs3.fd_free = fs.fd_free := by rw [← hfs3, FS.fd_free_set, hd2]
  have hf3 : fs3.env.faults = [] := by rw [he3, hf]
  have h5 : sys_open fs3 (sp ++ marker ++ version_file) OFlag.wronly_creat
      = Except.ok (fs3.set (sp ++ marker ++ version_file) (Node.file [])).takeFd :=
    sys_open_creat_new _ _ hf3 (by rw [hl3, if_neg hc_vd, hl2, if_neg hc_sp, hemp _ hu_c])
      (by rw [parentDir_version_file, hl3, if_pos rfl]) (by omega)
  generalize hfs4 : fs3.set (sp ++ marker ++ version_file) (Node.file []) = fs4 at h5
  have hl4 : ∀ q, fs4.lookup q = if q = sp ++ marker ++ version_file then some (Node.file [])
      else fs3.lookup q := by
    intro q; rw [← hfs4, FS.lookup_set]
  have he4 : fs4.env = fs.env := by rw [← hfs4, FS.env_set, he3]
  have hd4 : fs4.fd_free = fs.fd_free := by rw [← hfs4, FS.fd_free_set, hd3]
  have hf4 : fs4.env.faults = [] := by rw [he4, hf]
  have h6 := sys_pwrite_file fs4.takeFd (sp ++ marker ++ version_file) ['0', NUL] 0 [] hf4
    (by rw [FS.lookup_takeFd, hl4, if_pos rfl])
    (Or.inr (by rw [FS.env_takeFd, he4]; simpa using hmax2))
  rw [written_counter] at h6
  have c6 := sys_close_set fs4 (sp ++ marker ++ version_file) (Node.file ['0', NUL]) (by omega)
  generalize hfs5 : fs4.set (sp ++ marker ++ version_file) (Node.file ['0', NUL]) = fs5 at c6
  have hl5 : ∀ q, fs5.lookup q = if q = sp ++ marker ++ version_file
      then some (Node.file ['0', NUL]) else fs4.lookup q := by
    intro q; rw [← hfs5, FS.lookup_set]
  have he5 : fs5.env = fs.env := by rw [← hfs5, FS.env_set, he4]
  have hd5 : fs5.fd_free = fs.fd_free := by rw [← hfs5, FS.fd_free_set, hd4]
  have hf5 : fs5.env.faults = [] := by rw [he5, hf]
  have h7 : sys_open fs5 (sp ++ marker ++ '/' :: (fn ++ [',', '0'])) OFlag.wronly_creat
      = Except.ok (fs5.set (sp ++ marker ++ '/' :: (fn ++ [',', '0'])) (Node.file [])).takeFd :=
    sys_open_creat_new _ _ hf5
      (by rw [hl5, if_neg hs_c, hl4, if_neg hs_c, hl3, if_neg hs_vd, hl2, if_neg hs_sp,
            hemp _ hu_s])
      (by rw [hpar_s, hl5, if_neg hc_vd.symm, hl4, if_neg hc_vd.symm, hl3, if_pos rfl])
      (by omega)
  generalize hfs6 : fs5.set (sp ++ marker ++ '/' :: (fn ++ [',', '0'])) (Node.file []) = fs6
    at h7
  have hl6 : ∀ q, fs6.lookup q = if q = sp ++ marker ++ '/' :: (fn ++ [',', '0'])
      then some (Node.file []) else fs5.lookup q := by
    intro q; rw [← hfs6, FS.lookup_set]
  have he6 : fs6.env = fs.env := by rw [← hfs6, FS.env_set, he5]
  have hd6 : fs6.fd_free = fs.fd_free := by rw [← hfs6, FS.fd_free_set, hd5]
  have hf6 : fs6.env.faults = [] := by rw [he6, hf]
  have h8 := sys_pwrite_file fs6.takeFd (sp ++ marker ++ '/' :: (fn ++ [',', '0'])) buf offset []
    hf6 (by rw [FS.lookup_takeFd, hl6, if_pos rfl])
    (Or.inr (by rw [FS.env_takeFd, he6]; exact hmax))
  have c8 := sys_close_set fs6 (sp ++ marker ++ '/' :: (fn ++ [',', '0']))
    (Node.file (written [] buf offset)) (by omega)
  refine ⟨fs6.set (sp ++ marker ++ '/' :: (fn ++ [',', '0']))
    (Node.file (written [] buf offset)), ?_, ?_, ?_, ?_⟩
  · simp only [k1, k2, k3, k4, k5, Bool.false_eq_true, if_false, h1, h2, c2, h3, h4, h5, h6, c6,
      hsnap, k6, h7, h8, c8, if_true]
  · rw [FS.env_set, he6]
  · rw [FS.fd_free_set, hd6]
  · intro q
    rw [FS.lookup_set, hl6, hl5, hl4, hl3, hl2]
    by_cases c1 : q = sp ++ marker ++ '/' :: (fn ++ [',', '0'])
    · rw [if_pos c1, if_pos c1]
    · rw [if_neg c1, if_neg c1, if_neg c1]
      by_cases c2 : q = sp ++ marker ++ version_file
      · rw [if_pos c2, if_pos c2]
      · rw [if_neg c2, if_neg c2, if_neg c2]
/-! ## The version number as text -/

theorem digitChar_toNat (d : Nat) (h : d < 10) : (digitChar d).toNat = 48 + d := by
  unfold digitChar
  interval_cases d <;> decide

theorem isDigit_digitChar (d : Nat) (h : d < 10) : isDigit (digitChar d) = true := by
  unfold isDigit
  rw [digitChar_toNat d h]
  simp
  omega

theorem isSpace_digitChar (d : Nat) (h : d < 10) : isSpace (digitChar d) = false := by
  unfold isSpace
  rw [digitChar_toNat d h]
  simp
  omega

theorem digitChar_ne (d : Nat) (h : d < 10) (c : Char) (hc : c.toNat < 48) : digitChar d ≠ c := by
  intro he
  have := digitChar_toNat d h
  rw [he] at this
  omega

theorem decimalAux_append (f n : Nat) (acc : CStr) :
    decimalAux f n acc = decimalAux f n [] ++ acc := by
  induction f generalizing n acc with
  | zero => simp [decimalAux]
  | succ f ih =>
    unfold decimalAux
    by_cases h : n < 10
    · simp [h]
    · simp only [h, if_false]
      rw [ih (n / 10) (digitChar (n % 10) :: acc), ih (n / 10) [digitChar (n % 10)]]
      simp

theorem atoiDigits_decimalAux (f : Nat) : ∀ (n : Nat), n < f → ∀ (a : Nat) (tail : CStr),
    ∃ k, atoiDigits a (decimalAux f n [] ++ tail) = atoiDigits (a * 10 ^ k + n) tail := by
  induction f with
  | zero => intro n h; omega
  | succ f ih =>
    intro n hn a tail
    unfold decimalAux
    by_cases h : n < 10
    · refine ⟨1, ?_⟩
      simp only [h, if_true, List.singleton_append, atoiDigits, isDigit_digitChar n h,
        digitChar_toNat n h]
      congr 1
      rw [pow_one]
      omega
    · simp only [h, if_false]
      rw [decimalAux_append, List.append_assoc, List.singleton_append]
      have hlt : n / 10 < f := by omega
      obtain ⟨k, hk⟩ := ih (n / 10) hlt a (digitChar (n % 10) :: tail)
      refine ⟨k + 1, ?_⟩
      rw [hk]
      have hm : n % 10 < 10 := Nat.mod_lt _ (by decide)
      simp only [atoiDigits, isDigit_digitChar _ hm, digitChar_toNat _ hm, if_true]
      congr 1
      have h48 : 48 + n % 10 - 48 = n % 10 := by omega
      rw [h48, pow_succ, Nat.add_mul, Nat.mul_assoc]
      omega

theorem decimalAux_digits (f n : Nat) :
    ∀ c ∈ decimalAux f n [], ∃ d, d < 10 ∧ c = digitChar d := by
  induction f generalizing n with
  | zero => intro c hc; simp [decimalAux] at hc
  | succ f ih =>
    unfold decimalAux
    by_cases h : n < 10
    · simp only [h, if_true]
      exact fun c hc => ⟨n, h, by simpa using hc⟩
    · simp only [h, if_false]
      rw [decimalAux_append]
      intro c hc
      rcases List.mem_append.mp hc with hc | hc
      · exact ih (n / 10) c hc
      · exact ⟨n % 10, Nat.mod_lt _ (by decide), by simpa using hc⟩

theorem decimalAux_ne_nil (f n : Nat) : decimalAux (f + 1) n [] ≠ [] := by
  unfold decimalAux
  by_cases h : n < 10
  · simp [h]
  · simp only [h, if_false]
    rw [decimalAux_append]
    simp

theorem decimalAux_length (f : Nat) : ∀ (n k : Nat), n < 10 ^ (k + 1) →
    (decimalAux f n []).length ≤ k + 1 := by
  induction f with
  | zero => intro n k _; simp [decimalAux]
  | succ f ih =>
    intro n k hn
    unfold decimalAux
    by_cases h : n < 10
    · simp [h]
    · simp only [h, if_false]
      rw [decimalAux_append, List.length_append, List.length_singleton]
      cases k with
      | zero => simp at hn; omega
      | succ k =>
        have : n / 10 < 10 ^ (k + 1) := by
          rw [pow_succ] at hn
          omega
        have := ih (n / 10) k this
        omega

theorem decimal_length_le (n : Nat) (h : n ≤ 9999) : (decimal n).length ≤ 4 :=
  decimalAux_length _ n 3 (by norm_num; omega)

theorem decimal_ne_nil (n : Nat) : decimal n ≠ [] := decimalAux_ne_nil n n

theorem decimal_digits (n : Nat) : ∀ c ∈ decimal n, ∃ d, d < 10 ∧ c = digitChar d :=
  decimalAux_digits _ n

theorem isDigit_NUL : isDigit NUL = false := by decide

theorem atoi_decimal (n : Nat) (tail : CStr) :
    atoi (decimal n ++ NUL :: tail) = some (n : Int) := by
  obtain ⟨k, hk⟩ := atoiDigits_decimalAux (n + 1) n (Nat.lt_succ_self _) 0 (NUL :: tail)
  have hd : atoiDigits 0 (decimal n ++ NUL :: tail) = some n := by
    unfold decimal
    rw [hk]
    simp [atoiDigits, isDigit_NUL]
  obtain ⟨c, cs, hcs⟩ := List.exists_cons_of_ne_nil (decimal_ne_nil n)
  obtain ⟨d, hd10, hcd⟩ := decimal_digits n c (by rw [hcs]; exact List.mem_cons_self _ _)
  rw [hcs] at hd ⊢
  have h1 : isSpace c = false := hcd ▸ isSpace_digitChar d hd10
  have h2 : c ≠ '-' := hcd ▸ digitChar_ne d hd10 '-' (by decide)
  have h3 : c ≠ '+' := hcd ▸ digitChar_ne d hd10 '+' (by decide)
  simp only [List.cons_append] at hd ⊢
  simp [atoi, h1, atoiSigned, h2, h3, hd]

theorem cstrOf_append (s tail : CStr) (h : NUL ∉ s) : cstrOf (s ++ NUL :: tail) = some s := by
  induction s with
  | nil => simp [cstrOf]
  | cons c cs ih =>
    have hc : c ≠ NUL := fun he => h (he ▸ List.mem_cons_self _ _)
    have hcs : NUL ∉ cs := fun hm => h (List.mem_cons_of_mem _ hm)
    simp [cstrOf, hc, ih hcs]

theorem NUL_not_mem_decimal (n : Nat) : NUL ∉ decimal n := by
  intro h
  obtain ⟨d, hd, he⟩ := decimal_digits n NUL h
  exact digitChar_ne d hd NUL (by decide) he.symm

theorem slash_not_mem_decimal (n : Nat) : '/' ∉ decimal n := by
  intro h
  obtain ⟨d, hd, he⟩ := decimal_digits n '/' h
  exact digitChar_ne d hd '/' (by decide) he.symm

theorem cstrOf_decimal (n : Nat) (tail : CStr) :
    cstrOf (decimal n ++ NUL :: tail) = some (decimal n) :=
  cstrOf_append _ _ (NUL_not_mem_decimal n)

theorem sprintf_d_nat (n : Nat) : sprintf_d (n : Int) = decimal n := by
  unfold sprintf_d
  simp

theorem decimal_injective (a b : Nat) (h : decimal a = decimal b) : a = b := by
  have ha := atoi_decimal a []
  have hb := atoi_decimal b []
  rw [h, hb] at ha
  exact_mod_cast (Option.some.inj ha).symm

theorem snapshotPath_injective (sp fn : CStr) (a b : Nat)
    (h : snapshotPath sp fn a = snapshotPath sp fn b) : a = b := by
  unfold snapshotPath at h
  have h1 := List.append_cancel_left h
  have h2 := List.append_cancel_left (List.cons.inj h1).2
  exact decimal_injective a b (List.cons.inj h2).2

theorem under_snapshotPath (sp fn : CStr) (i : Nat) :
    under (sp ++ marker) (snapshotPath sp fn i) := under_child _ _

theorem under_counterPath (sp : CStr) : under (sp ++ marker) (counterPath sp) :=
  under_version_file _

theorem snapshotPath_ne_counterPath (sp fn : CStr) (i : Nat) :
    snapshotPath sp fn i ≠ counterPath sp := snap_ne_version_file _ _ _

theorem parentDir_snapshotPath (sp fn : CStr) (i : Nat) (h : '/' ∉ fn) :
    parentDir (snapshotPath sp fn i) = sp ++ marker := by
  unfold snapshotPath
  apply parentDir_child
  intro hm
  rcases List.mem_append.mp hm with hm | hm
  · exact h hm
  · rcases List.mem_cons.mp hm with hm | hm
    · exact absurd hm (by decide)
    · exact slash_not_mem_decimal i hm

theorem snap_path_source (vd fn digits : CStr) :
    vd ++ ['/'] ++ fn ++ [','] ++ digits = vd ++ '/' :: (fn ++ ',' :: digits) := by
  simp

theorem written_nonempty (d buf : CStr) (off : Nat) (h : buf ≠ []) :
    written d buf off = overlay d buf off := by
  unfold written
  rw [if_neg h]

/-- The five bytes written to the counter file replace its whole content. -/
theorem written_counter_buf (c digits : CStr) (hc : c.length ≤ 5) (hd : digits.length ≤ 4)
    (hne : digits ≠ []) :
    written c (digits ++ zeros (5 - digits.length)) 0
      = digits ++ NUL :: zeros (4 - digits.length) := by
  have hz : zeros (5 - digits.length) = NUL :: zeros (4 - digits.length) := by
    unfold zeros
    have : 5 - digits.length = (4 - digits.length) + 1 := by omega
    rw [this, List.replicate_succ]
  have hlen : (digits ++ zeros (5 - digits.length)).length = 5 := by
    simp [zeros]
    omega
  rw [written_nonempty _ _ _ (by simp [hne])]
  unfold overlay
  rw [hlen, List.drop_eq_nil_of_le (by omega), hz]
  simp [zeros]


/-! ## Writes to a file with a history -/

/-- A write to a file with a history whose counter is `k ≤ 9998` advances the
counter to `k + 1` and records snapshot `k + 1`: the first `offset` bytes
found at the buffer holding snapshot `k`, then the written bytes.  The
directory stream it opens stays open. -/
theorem vers_write_next (junk : Nat → Char) (storage_dir path buf : CStr) (offset : Nat)
    (fs : FS) (k : Nat) (dl dp : CStr) (hbase : '/' ∉ basename path)
    (hinv : HistoryAt fs (prepend_storage_dir storage_dir path) (basename path) k)
    (hk : k + 1 ≤ 9999)
    (hlive : fs.lookup (prepend_storage_dir storage_dir path) = some (Node.file dl))
    (hprev : fs.lookup (snapshotPath (prepend_storage_dir storage_dir path) (basename path) k)
      = some (Node.file dp))
    (hfit : pathsFit (prepend_storage_dir storage_dir path) (basename path))
    (hfd : 2 ≤ fs.fd_free)
    (hb0 : 0 < buf.length) (hp0 : 0 < dp.length)
    (hstack : buf.length + dp.length ≤ fs.env.stack)
    (hintb : buf.length < 2147483648) (hintp : dp.length < 2147483648)
    (hinto : offset < 2147483648)
    (hmax : offset + buf.length ≤ fs.env.max_size) (hmax5 : 5 ≤ fs.env.max_size) :
    ∃ fs1, vers_write junk storage_dir path buf offset fs = Outcome.ret buf.length fs1 ∧
      HistoryAt fs1 (prepend_storage_dir storage_dir path) (basename path) (k + 1) ∧
      fs1.env = fs.env ∧ fs1.fd_free = fs.fd_free - 1 ∧
      fs1.lookup (prepend_storage_dir storage_dir path)
        = some (Node.file (written dl buf offset)) ∧
      fs1.lookup (snapshotPath (prepend_storage_dir storage_dir path) (basename path) (k + 1))
        = some (Node.file (written (written [] (memTake junk dp offset) 0) buf offset)) := by
  unfold vers_write
  generalize prepend_storage_dir storage_dir path = sp at *
  generalize basename path = fn at *
  obtain ⟨hf, _, hdir, ⟨z, hcnt, hclen⟩, hsnaps, hexact⟩ := hinv
  obtain ⟨hfit1, hfit2, hfit3, hfit4⟩ := pathsFit_spec sp fn hfit
  -- paths
  have hu_c := under_counterPath sp
  have hc_vd : counterPath sp ≠ sp ++ marker := under_ne _ _ hu_c
  have hc_sp : counterPath sp ≠ sp := under_marker_ne _ _ hu_c
  have hvd_sp : sp ++ marker ≠ sp := append_marker_ne sp
  have hs_vd : ∀ i, snapshotPath sp fn i ≠ sp ++ marker :=
    fun i => under_ne _ _ (under_snapshotPath sp fn i)
  have hs_sp : ∀ i, snapshotPath sp fn i ≠ sp :=
    fun i => under_marker_ne _ _ (under_snapshotPath sp fn i)
  have hs_c : ∀ i, snapshotPath sp fn i ≠ counterPath sp := snapshotPath_ne_counterPath sp fn
  have hnew : fs.lookup (snapshotPath sp fn (k + 1)) = none := by
    by_contra hne
    rcases hexact _ (under_snapshotPath sp fn (k + 1)) hne with h | ⟨i, hi, h⟩
    · exact hs_c _ h
    · have := snapshotPath_injective sp fn _ _ h
      omega
  have hpath_c : sp ++ marker ++ version_file = counterPath sp := rfl
  have hpath_p : sp ++ marker ++ ['/'] ++ fn ++ [','] ++ decimal k = snapshotPath sp fn k :=
    snap_path_source _ _ _
  have hpath_n : sp ++ marker ++ ['/'] ++ fn ++ [','] ++ decimal (k + 1)
      = snapshotPath sp fn (k + 1) := snap_path_source _ _ _
  -- the version number
  have hlen : (decimal (k + 1)).length ≤ 4 := decimal_length_le _ hk
  have hlenk : (decimal k).length ≤ 4 := decimal_length_le _ (by omega)
  have hbuf : (decimal k ++ NUL :: z) ++ zeros (5 - (decimal k ++ NUL :: z).length)
      = decimal k ++ NUL :: (z ++ zeros (5 - (decimal k ++ NUL :: z).length)) := by simp
  have hatoi : atoi ((decimal k ++ NUL :: z) ++ zeros (5 - (decimal k ++ NUL :: z).length))
      = some (k : Int) := by rw [hbuf]; exact atoi_decimal _ _
  have hcstr : cstrOf ((decimal k ++ NUL :: z) ++ zeros (5 - (decimal k ++ NUL :: z).length))
      = some (decimal k) := by rw [hbuf]; exact cstrOf_decimal _ _
  have hspr : sprintf_d ((k : Int) + 1) = decimal (k + 1) := by
    have : ((k : Int) + 1) = ((k + 1 : Nat) : Int) := by push_cast; rfl
    rw [this, sprintf_d_nat]
  have hnot : ¬ 5 < (decimal (k + 1)).length + 1 := by omega
  -- the checks
  have k1 : noVLA fs.env.stack buf.length = false := noVLA_false _ _ hb0 (by omega)
  have k2 : overflows 256 sp = false := overflows_false _ _ hfit1
  have k3 : noInt buf.length = false := noInt_false _ hintb
  have k4 : overflows 256 (sp ++ marker) = false := overflows_false _ _ hfit2
  have k5 : overflows 256 (counterPath sp) = false := overflows_false _ _ hfit3
  have k6 : overflows 256 (snapshotPath sp fn (k + 1)) = false :=
    overflows_false _ _ (hfit4 _ hlen)
  have k7 : overflows 256 (snapshotPath sp fn k) = false :=
    overflows_false _ _ (hfit4 _ hlenk)
  have k8 : noInt dp.length = false := noInt_false _ hintp
  have k9 : noInt offset = false := noInt_false _ hinto
  -- the calls
  have h1 : sys_open fs sp OFlag.wronly = Except.ok fs.takeFd :=
    sys_open_file fs sp dl _ hlive (by decide) (by omega)
  have h2 := sys_pwrite_file fs.takeFd sp buf offset dl hf hlive (Or.inr hmax)
  have c2 := sys_close_set fs sp (Node.file (written dl buf offset)) (by omega)
  generalize hfs2 : fs.set sp (Node.file (written dl buf offset)) = fs2 at c2
  have hl2 : ∀ q, fs2.lookup q = if q = sp then some (Node.file (written dl buf offset))
      else fs.lookup q := by
    intro q; rw [← hfs2, FS.lookup_set]
  have he2 : fs2.env = fs.env := by rw [← hfs2, FS.env_set]
  have hd2 : fs2.fd_free = fs.fd_free := by rw [← hfs2, FS.fd_free_set]
  have h3 := sys_opendir_dir fs2 (sp ++ marker) (by rw [hl2, if_neg hvd_sp, hdir]) (by omega)
  generalize hfsL : fs2.takeFd = fsL at h3
  have hlL : ∀ q, fsL.lookup q = fs2.lookup q := by
    intro q; rw [← hfsL, FS.lookup_takeFd]
  have heL : fsL.env = fs.env := by rw [← hfsL, FS.env_takeFd, he2]
  have hdL : fsL.fd_free = fs.fd_free - 1 := by rw [← hfsL, FS.fd_free_takeFd, hd2]
  have hfL : fsL.env.faults = [] := by rw [heL, hf]
  have hcntL : fsL.lookup (counterPath sp) = some (Node.file (decimal k ++ NUL :: z)) := by
    rw [hlL, hl2, if_neg hc_sp, hcnt]
  have h4 : sys_open fsL (counterPath sp) OFlag.rdonly = Except.ok fsL.takeFd :=
    sys_open_file _ _ _ _ hcntL (by decide) (by omega)
  have h5 : sys_pread fsL.takeFd (counterPath sp) 5 0 = Except.ok (decimal k ++ NUL :: z) := by
    rw [sys_pread_file fsL.takeFd _ _ 5 0 hcntL, List.drop_zero, List.take_of_length_le hclen]
  have c5 : sys_close fsL.takeFd = fsL := sys_close_takeFd _ (by omega)
  have h6 : sys_open fsL (counterPath sp) OFlag.wronly = Except.ok fsL.takeFd :=
    sys_open_file _ _ _ _ hcntL (by decide) (by omega)
  have h7 := sys_pwrite_file fsL.takeFd (counterPath sp)
    (decimal (k + 1) ++ zeros (5 - (decimal (k + 1)).length)) 0 _ hfL hcntL
    (Or.inr (by
      rw [FS.env_takeFd, heL]
      simp only [List.length_append, zeros, List.length_replicate]
      omega))
  rw [written_counter_buf _ _ hclen hlen (decimal_ne_nil _)] at h7
  have c7 := sys_close_set fsL (counterPath sp)
    (Node.file (decimal (k + 1) ++ NUL :: zeros (4 - (decimal (k + 1)).length))) (by omega)
  generalize hfs3 : fsL.set (counterPath sp)
    (Node.file (decimal (k + 1) ++ NUL :: zeros (4 - (decimal (k + 1)).length))) = fs3 at c7
  have hl3 : ∀ q, fs3.lookup q = if q = counterPath sp
      then some (Node.file (decimal (k + 1) ++ NUL :: zeros (4 - (decimal (k + 1)).length)))
      else fs2.lookup q := by
    intro q; rw [← hfs3, FS.lookup_set, hlL]
  have he3 : fs3.env = fs.env := by rw [← hfs3, FS.env_set, heL]
  have hd3 : fs3.fd_free = fs.fd_free - 1 := by rw [← hfs3, FS.fd_free_set, hdL]
  have hf3 : fs3.env.faults = [] := by rw [he3, hf]
  have hprev3 : fs3.lookup (snapshotPath sp fn k) = some (Node.file dp) := by
    rw [hl3, if_neg (hs_c k), hl2, if_neg (hs_sp k), hprev]
  have h8 := sys_lstat_file fs3 _ dp hprev3
  have k10 : noVLA (fs3.env.stack - buf.length) dp.length = false :=
    noVLA_false _ _ hp0 (by rw [he3]; omega)
  have h9 : sys_open fs3 (snapshotPath sp fn k) OFlag.rdonly = Except.ok fs3.takeFd :=
    sys_open_file _ _ _ _ hprev3 (by decide) (by omega)
  have h10 : sys_pread fs3.takeFd (snapshotPath sp fn k) dp.length 0 = Except.ok dp := by
    rw [sys_pread_file fs3.takeFd _ _ _ _ hprev3, List.drop_zero, List.take_of_length_le (Nat.le_refl _)]
  have c10 : sys_close fs3.takeFd = fs3 := sys_close_takeFd _ (by omega)
  have h11 : sys_open fs3 (snapshotPath sp fn (k + 1)) OFlag.wronly_creat
      = Except.ok (fs3.set (snapshotPath sp fn (k + 1)) (Node.file [])).takeFd :=
    sys_open_creat_new _ _ hf3
      (by rw [hl3, if_neg (hs_c _), hl2, if_neg (hs_sp _), hnew])
      (by rw [parentDir_snapshotPath _ _ _ hbase, hl3, if_neg hc_vd.symm, hl2, if_neg hvd_sp,
            hdir])
      (by omega)
  generalize hfs4 : fs3.set (snapshotPath sp fn (k + 1)) (Node.file []) = fs4 at h11
  have hl4 : ∀ q, fs4.lookup q = if q = snapshotPath sp fn (k + 1) then some (Node.file [])
      else fs3.lookup q := by
    intro q; rw [← hfs4, FS.lookup_set]
  have he4 : fs4.env = fs.env := by rw [← hfs4, FS.env_set, he3]
  have hd4 : fs4.fd_free = fs.fd_free - 1 := by rw [← hfs4, FS.fd_free_set, hd3]
  have hf4 : fs4.env.faults = [] := by rw [he4, hf]
  have hmt : (memTake junk dp offset).length = offset := by simp [memTake]
  have h12 := sys_pwrite_file fs4.takeFd (snapshotPath sp fn (k + 1)) (memTake junk dp offset) 0
    [] hf4 (by rw [FS.lookup_takeFd, hl4, if_pos rfl])
    (Or.inr (by rw [FS.env_takeFd, he4, hmt]; omega))
  have h13 := sys_pwrite_file (fs4.takeFd.set (snapshotPath sp fn (k + 1))
    (Node.file (written [] (memTake junk dp offset) 0))) (snapshotPath sp fn (k + 1)) buf offset
    _ hf4 (by rw [FS.lookup_set, if_pos rfl])
    (Or.inr (by rw [FS.env_set, FS.env_takeFd, he4]; exact hmax))
  have c13 := sys_close_set_set fs4 (snapshotPath sp fn (k + 1))
    (Node.file (written [] (memTake junk dp offset) 0))
    (Node.file (written (written [] (memTake junk dp offset) 0) buf offset)) (by omega)
  have hfin : ∀ q, ((fs4.set (snapshotPath sp fn (k + 1))
      (Node.file (written [] (memTake junk dp offset) 0))).set (snapshotPath sp fn (k + 1))
      (Node.file (written (written [] (memTake junk dp offset) 0) buf offset))).lookup q =
      if q = snapshotPath sp fn (k + 1)
        then some (Node.file (written (written [] (memTake junk dp offset) 0) buf offset))
      else if q = counterPath sp
        then some (Node.file (decimal (k + 1) ++ NUL :: zeros (4 - (decimal (k + 1)).length)))
      else if q = sp then some (Node.file (written dl buf offset))
      else fs.lookup q := by
    intro q
    rw [FS.lookup_set, FS.lookup_set, hl4, hl3, hl2]
    by_cases c1 : q = snapshotPath sp fn (k + 1)
    · rw [if_pos c1, if_pos c1]
    · rw [if_neg c1, if_neg c1, if_neg c1, if_neg c1]
  refine ⟨(fs4.set (snapshotPath sp fn (k + 1))
      (Node.file (written [] (memTake junk dp offset) 0))).set (snapshotPath sp fn (k + 1))
      (Node.file (written (written [] (memTake junk dp offset) 0) buf offset)), ?_, ?_, ?_, ?_,
      ?_, ?_⟩
  · simp only [k1, k2, k3, k4, hpath_c, k5, Bool.false_eq_true, if_false, h1, h2, c2, h3, h4, h5,
      hatoi, c5, hspr, hnot, h6, h7, c7, hcstr, hpath_p, hpath_n, k6, k7, h8, k10, h9, k8, h10,
      c10, h11, k9, h12, h13, c13]
  · refine ⟨by rw [FS.env_set, FS.env_set, he4, hf], ⟨written dl buf offset, ?_⟩, ?_,
      ⟨zeros (4 - (decimal (k + 1)).length), ?_, ?_⟩, ?_, ?_⟩
    · rw [hfin, if_neg (hs_sp _).symm, if_neg hc_sp.symm, if_pos rfl]
    · rw [hfin, if_neg (hs_vd _).symm, if_neg hc_vd.symm, if_neg hvd_sp, hdir]
    · rw [hfin, if_neg (hs_c _).symm, if_pos rfl]
    · simp [zeros]
      omega
    · intro i hi
      rw [hfin]
      by_cases c1 : snapshotPath sp fn i = snapshotPath sp fn (k + 1)
      · rw [if_pos c1]; exact ⟨_, rfl⟩
      · rw [if_neg c1, if_neg (hs_c i), if_neg (hs_sp i)]
        have hik : i ≤ k := by
          rcases Nat.lt_or_ge k i with h | h
          · have : i = k + 1 := by omega
            exact absurd (this ▸ rfl) c1
          · exact h
        exact hsnaps i hik
    · intro q hu hq
      rw [hfin] at hq
      by_cases c1 : q = snapshotPath sp fn (k + 1)
      · exact Or.inr ⟨k + 1, Nat.le_refl _, c1⟩
      · by_cases c2 : q = counterPath sp
        · exact Or.inl c2
        · rw [if_neg c1, if_neg c2, if_neg (under_marker_ne _ _ hu)] at hq
          rcases hexact q hu hq with h | ⟨i, hi, h⟩
          · exact Or.inl h
          · exact Or.inr ⟨i, by omega, h⟩
  · rw [FS.env_set, FS.env_set, he4]
  · rw [FS.fd_free_set, FS.fd_free_set, hd4]
  · rw [hfin, if_neg (hs_sp _).symm, if_neg hc_sp.symm, if_pos rfl]
  · rw [hfin, if_pos rfl]
theorem decimal_10000_length : (decimal 10000).length = 5 := by decide

/-- A write to a file whose counter is 9999 overflows the five byte buffer
of the version number. -/
theorem vers_write_overflow (junk : Nat → Char) (storage_dir path buf : CStr) (offset : Nat)
    (fs : FS) (dl : CStr)
    (hinv : HistoryAt fs (prepend_storage_dir storage_dir path) (basename path) 9999)
    (hlive : fs.lookup (prepend_storage_dir storage_dir path) = some (Node.file dl))
    (hfit : pathsFit (prepend_storage_dir storage_dir path) (basename path))
    (hfd : 2 ≤ fs.fd_free)
    (hb0 : 0 < buf.length) (hstack : buf.length ≤ fs.env.stack)
    (hintb : buf.length < 2147483648)
    (hmax : offset + buf.length ≤ fs.env.max_size) :
    vers_write junk storage_dir path buf offset fs = Outcome.ub := by
  unfold vers_write
  generalize prepend_storage_dir storage_dir path = sp at *
  generalize basename path = fn at *
  obtain ⟨hf, _, hdir, ⟨z, hcnt, hclen⟩, _, _⟩ := hinv
  obtain ⟨hfit1, hfit2, hfit3, hfit4⟩ := pathsFit_spec sp fn hfit
  have hu_c := under_counterPath sp
  have hc_sp : counterPath sp ≠ sp := under_marker_ne _ _ hu_c
  have hvd_sp : sp ++ marker ≠ sp := append_marker_ne sp
  have hpath_c : sp ++ marker ++ version_file = counterPath sp := rfl
  have hbuf : (decimal 9999 ++ NUL :: z) ++ zeros (5 - (decimal 9999 ++ NUL :: z).length)
      = decimal 9999 ++ NUL :: (z ++ zeros (5 - (decimal 9999 ++ NUL :: z).length)) := by simp
  have hatoi : atoi ((decimal 9999 ++ NUL :: z) ++ zeros (5 - (decimal 9999 ++ NUL :: z).length))
      = some ((9999 : Nat) : Int) := by rw [hbuf]; exact atoi_decimal _ _
  have hspr : sprintf_d (((9999 : Nat) : Int) + 1) = decimal 10000 := by
    have : (((9999 : Nat) : Int) + 1) = ((10000 : Nat) : Int) := by norm_num
    rw [this, sprintf_d_nat]
  have hover : 5 < (decimal 10000).length + 1 := by rw [decimal_10000_length]; decide
  have k1 : noVLA fs.env.stack buf.length = false := noVLA_false _ _ hb0 hstack
  have k2 : overflows 256 sp = false := overflows_false _ _ hfit1
  have k3 : noInt buf.length = false := noInt_false _ hintb
  have k4 : overflows 256 (sp ++ marker) = false := overflows_false _ _ hfit2
  have k5 : overflows 256 (counterPath sp) = false := overflows_false _ _ hfit3
  have h1 : sys_open fs sp OFlag.wronly = Except.ok fs.takeFd :=
    sys_open_file fs sp dl _ hlive (by decide) (by omega)
  have h2 := sys_pwrite_file fs.takeFd sp buf offset dl hf hlive (Or.inr hmax)
  have c2 := sys_close_set fs sp (Node.file (written dl buf offset)) (by omega)
  generalize hfs2 : fs.set sp (Node.file (written dl buf offset)) = fs2 at c2
  have hl2 : ∀ q, fs2.lookup q = if q = sp then some (Node.file (written dl buf offset))
      else fs.lookup q := by
    intro q; rw [← hfs2, FS.lookup_set]
  have hd2 : fs2.fd_free = fs.fd_free := by rw [← hfs2, FS.fd_free_set]
  have h3 := sys_opendir_dir fs2 (sp ++ marker) (by rw [hl2, if_neg hvd_sp, hdir]) (by omega)
  have hcnt2 : fs2.takeFd.lookup (counterPath sp) = some (Node.file (decimal 9999 ++ NUL :: z)) := by
    rw [FS.lookup_takeFd, hl2, if_neg hc_sp, hcnt]
  have h4 : sys_open fs2.takeFd (counterPath sp) OFlag.rdonly = Except.ok fs2.takeFd.takeFd :=
    sys_open_file _ _ _ _ hcnt2 (by decide) (by rw [FS.fd_free_takeFd]; omega)
  have h5 : sys_pread fs2.takeFd.takeFd (counterPath sp) 5 0
      = Except.ok (decimal 9999 ++ NUL :: z) := by
    rw [sys_pread_file fs2.takeFd.takeFd _ _ 5 0 hcnt2, List.drop_zero,
      List.take_of_length_le hclen]
  simp only [k1, k2, k3, k4, hpath_c, k5, Bool.false_eq_true, if_false, h1, h2, c2, h3, h4, h5,
    hatoi, hspr, hover, if_true]

/-- A write to a file with a history by a process that has one descriptor
left: the live file is written, the directory stream takes the descriptor,
and the counter file can no more be opened: `-EMFILE`, with the counter and
the snapshots as they were and no descriptor left. -/
theorem vers_write_emfile (junk : Nat → Char) (storage_dir path buf : CStr) (offset : Nat)
    (fs : FS) (k : Nat) (dl : CStr)
    (hinv : HistoryAt fs (prepend_storage_dir storage_dir path) (basename path) k)
    (hlive : fs.lookup (prepend_storage_dir storage_dir path) = some (Node.file dl))
    (hfit : pathsFit (prepend_storage_dir storage_dir path) (basename path))
    (hfd : fs.fd_free = 1)
    (hb0 : 0 < buf.length) (hstack : buf.length ≤ fs.env.stack)
    (hintb : buf.length < 2147483648)
    (hmax : offset + buf.length ≤ fs.env.max_size) :
    ∃ fs1, vers_write junk storage_dir path buf offset fs = Outcome.ret (-EMFILE) fs1 ∧
      HistoryAt fs1 (prepend_storage_dir storage_dir path) (basename path) k ∧
      fs1.env = fs.env ∧ fs1.fd_free = 0 ∧
      fs1.lookup (prepend_storage_dir storage_dir path)
        = some (Node.file (written dl buf offset)) := by
  unfold vers_write
  generalize prepend_storage_dir storage_dir path = sp at *
  generalize basename path = fn at *
  obtain ⟨hf, _, hdir, ⟨z, hcnt, hclen⟩, hsnaps, hexact⟩ := hinv
  obtain ⟨hfit1, hfit2, hfit3, hfit4⟩ := pathsFit_spec sp fn hfit
  have hu_c := under_counterPath sp
  have hc_sp : counterPath sp ≠ sp := under_marker_ne _ _ hu_c
  have hvd_sp : sp ++ marker ≠ sp := append_marker_ne sp
  have hs_sp : ∀ i, snapshotPath sp fn i ≠ sp :=
    fun i => under_marker_ne _ _ (under_snapshotPath sp fn i)
  have hpath_c : sp ++ marker ++ version_file = counterPath sp := rfl
  have k1 : noVLA fs.env.stack buf.length = false := noVLA_false _ _ hb0 hstack
  have k2 : overflows 256 sp = false := overflows_false _ _ hfit1
  have k3 : noInt buf.length = false := noInt_false _ hintb
  have k4 : overflows 256 (sp ++ marker) = false := overflows_false _ _ hfit2
  have k5 : overflows 256 (counterPath sp) = false := overflows_false _ _ hfit3
  have h1 : sys_open fs sp OFlag.wronly = Except.ok fs.takeFd :=
    sys_open_file fs sp dl _ hlive (by decide) (by omega)
  have h2 := sys_pwrite_file fs.takeFd sp buf offset dl hf hlive (Or.inr hmax)
  have c2 := sys_close_set fs sp (Node.file (written dl buf offset)) (by omega)
  generalize hfs2 : fs.set sp (Node.file (written dl buf offset)) = fs2 at c2
  have hl2 : ∀ q, fs2.lookup q = if q = sp then some (Node.file (written dl buf offset))
      else fs.lookup q := by
    intro q; rw [← hfs2, FS.lookup_set]
  have he2 : fs2.env = fs.env := by rw [← hfs2, FS.env_set]
  have hd2 : fs2.fd_free = fs.fd_free := by rw [← hfs2, FS.fd_free_set]
  have h3 := sys_opendir_dir fs2 (sp ++ marker) (by rw [hl2, if_neg hvd_sp, hdir]) (by omega)
  have h4 : sys_open fs2.takeFd (counterPath sp) OFlag.rdonly = Except.error EMFILE :=
    sys_open_emfile _ _ _ (by rw [FS.fd_free_takeFd]; omega)
  refine ⟨fs2.takeFd, ?_, ?_, ?_, ?_, ?_⟩
  · simp only [k1, k2, k3, k4, hpath_c, k5, Bool.false_eq_true, if_false, h1, h2, c2, h3, h4]
  · refine ⟨by rw [FS.env_takeFd, he2, hf], ⟨written dl buf offset, ?_⟩, ?_, ⟨z, ?_, hclen⟩, ?_,
      ?_⟩
    · rw [FS.lookup_takeFd, hl2, if_pos rfl]
    · rw [FS.lookup_takeFd, hl2, if_neg hvd_sp, hdir]
    · rw [FS.lookup_takeFd, hl2, if_neg hc_sp, hcnt]
    · intro i hi
      rw [FS.lookup_takeFd, hl2, if_neg (hs_sp i)]
      exact hsnaps i hi
    · intro q hu hq
      rw [FS.lookup_takeFd, hl2, if_neg (under_marker_ne _ _ hu)] at hq
      exact hexact q hu hq
  · rw [FS.env_takeFd, he2]
  · rw [FS.fd_free_takeFd, hd2]; omega
  · rw [FS.lookup_takeFd, hl2, if_pos rfl]

theorem decimal_zero : decimal 0 = ['0'] := by decide

theorem written_empty_file (d : CStr) : written [] d 0 = d := by
  unfold written overlay
  by_cases h : d = []
  · simp [h]
  · simp [h, zeros]

/-- The snapshot a whole-file write records: the written bytes. -/
theorem whole_file_snapshot (junk : Nat → Char) (dp b : CStr) :
    written (written [] (memTake junk dp 0) 0) b 0 = b := by
  have : memTake junk dp 0 = [] := by simp [memTake]
  rw [this, written_empty_file, written_empty_file]

/-- The first write to a file without a history area leaves a history whose
counter is 0. -/
theorem vers_write_first_history (junk : Nat → Char) (storage_dir path buf : CStr)
    (offset : Nat) (fs : FS) (d : CStr) (hf : fs.env.faults = [])
    (hlive : fs.lookup (prepend_storage_dir storage_dir path) = some (Node.file d))
    (hpar : fs.lookup (parentDir (prepend_storage_dir storage_dir path)) = some Node.dir)
    (hnone : fs.lookup (prepend_storage_dir storage_dir path ++ marker) = none)
    (hempty : dirEmpty fs (prepend_storage_dir storage_dir path ++ marker) = true)
    (hbase : '/' ∉ basename path)
    (hfit : pathsFit (prepend_storage_dir storage_dir path) (basename path))
    (hfd : 0 < fs.fd_free)
    (hb0 : 0 < buf.length) (hstack : buf.length ≤ fs.env.stack)
    (hint : buf.length < 2147483648) (hmax : offset + buf.length ≤ fs.env.max_size)
    (hmax2 : 2 ≤ fs.env.max_size) :
    ∃ fs1, vers_write junk storage_dir path buf offset fs = Outcome.ret buf.length fs1 ∧
      HistoryAt fs1 (prepend_storage_dir storage_dir path) (basename path) 0 ∧
      fs1.env = fs.env ∧ fs1.fd_free = fs.fd_free ∧
      fs1.lookup (prepend_storage_dir storage_dir path) = some (Node.file (written d buf offset)) ∧
      fs1.lookup (snapshotPath (prepend_storage_dir storage_dir path) (basename path) 0)
        = some (Node.file (written [] buf offset)) := by
  obtain ⟨fs1, hrun, he1, hd1, hl⟩ :=
    vers_write_first junk storage_dir path buf offset fs d hf hlive hpar hnone hempty hbase
      hfit hfd hb0 hstack hint hmax hmax2
  have hemp := (dirEmpty_iff fs _).mp hempty
  generalize prepend_storage_dir storage_dir path = sp at *
  generalize basename path = fn at *
  have hsnap0 : sp ++ marker ++ '/' :: (fn ++ [',', '0']) = snapshotPath sp fn 0 := by
    unfold snapshotPath; rw [decimal_zero]
  have hcp : sp ++ marker ++ version_file = counterPath sp := rfl
  rw [hsnap0, hcp] at hl
  have hu_c := under_counterPath sp
  have hc_vd : counterPath sp ≠ sp ++ marker := under_ne _ _ hu_c
  have hc_sp : counterPath sp ≠ sp := under_marker_ne _ _ hu_c
  have hvd_sp : sp ++ marker ≠ sp := append_marker_ne sp
  have hs_vd : snapshotPath sp fn 0 ≠ sp ++ marker := under_ne _ _ (under_snapshotPath sp fn 0)
  have hs_sp : snapshotPath sp fn 0 ≠ sp := under_marker_ne _ _ (under_snapshotPath sp fn 0)
  have hs_c : snapshotPath sp fn 0 ≠ counterPath sp := snapshotPath_ne_counterPath sp fn 0
  refine ⟨fs1, hrun, ⟨by rw [he1, hf], ⟨written d buf offset, ?_⟩, ?_, ⟨[], ?_, ?_⟩, ?_, ?_⟩,
    he1, hd1, ?_, ?_⟩
  · rw [hl, if_neg hs_sp.symm, if_neg hc_sp.symm, if_neg hvd_sp.symm, if_pos rfl]
  · rw [hl, if_neg hs_vd.symm, if_neg hc_vd.symm, if_pos rfl]
  · rw [hl, if_neg hs_c.symm, if_pos rfl, decimal_zero]; rfl
  · rw [decimal_zero]; decide
  · intro i hi
    have : i = 0 := by omega
    subst this
    rw [hl, if_pos rfl]
    exact ⟨_, rfl⟩
  · intro q hu hq
    rw [hl] at hq
    by_cases c1 : q = snapshotPath sp fn 0
    · exact Or.inr ⟨0, Nat.le_refl _, c1⟩
    · by_cases c2 : q = counterPath sp
      · exact Or.inl c2
      · rw [if_neg c1, if_neg c2, if_neg (under_ne _ _ hu), if_neg (under_marker_ne _ _ hu)] at hq
        exact absurd (hemp q hu) hq
  · rw [hl, if_neg hs_sp.symm, if_neg hc_sp.symm, if_neg hvd_sp.symm, if_pos rfl]
  · rw [hl, if_pos rfl]

/-- Whole-file writes to a file with a history advance the counter by one
each and take one descriptor each, as long as the counter stays below 10000
and two descriptors are left. -/
theorem write_all_history (junk : Nat → Char) (storage_dir path : CStr)
    (hbase : '/' ∉ basename path)
    (hfit : pathsFit (prepend_storage_dir storage_dir path) (basename path))
    (bufs : List CStr) : ∀ (fs : FS) (k : Nat) (dp : CStr),
    HistoryAt fs (prepend_storage_dir storage_dir path) (basename path) k →
    fs.lookup (snapshotPath (prepend_storage_dir storage_dir path) (basename path) k)
      = some (Node.file dp) →
    0 < dp.length → 2 * dp.length ≤ fs.env.stack → dp.length < 2147483648 →
    (∀ b ∈ bufs, 0 < b.length ∧ 2 * b.length ≤ fs.env.stack ∧ b.length < 2147483648 ∧
      b.length ≤ fs.env.max_size) →
    5 ≤ fs.env.max_size →
    k + bufs.length ≤ 9999 →
    bufs.length + 1 ≤ fs.fd_free →
    ∃ fs1, write_all junk storage_dir path bufs fs
        = some (bufs.map (fun b => (b.length : Int)), fs1) ∧
      HistoryAt fs1 (prepend_storage_dir storage_dir path) (basename path) (k + bufs.length) ∧
      fs1.env = fs.env ∧ fs1.fd_free = fs.fd_free - bufs.length := by
  induction bufs with
  | nil => intro fs k dp h _ _ _ _ _ _ _ _; exact ⟨fs, rfl, h, rfl, rfl⟩
  | cons b rest ih =>
    intro fs k dp h hprev hp0 hps hpi hall hmax5 hk hfd
    simp only [List.length_cons] at hk hfd
    obtain ⟨hb0, hbs, hbi, hbm⟩ := hall b (List.mem_cons_self _ _)
    obtain ⟨dl, hlive⟩ := h.2.1
    obtain ⟨fs1, hrun, hinv, he1, hd1, _, hsnap⟩ :=
      vers_write_next junk storage_dir path b 0 fs k dl dp hbase h (by omega) hlive hprev hfit
        (by omega) hb0 hp0 (by omega) hbi hpi (by decide) (by omega) hmax5
    rw [whole_file_snapshot] at hsnap
    obtain ⟨fs2, hrun2, hinv2, he2, hd2⟩ := ih fs1 (k + 1) b hinv hsnap hb0 (by rw [he1]; exact hbs)
      hbi (fun c hc => by rw [he1]; exact hall c (List.mem_cons_of_mem _ hc))
      (by rw [he1]; exact hmax5) (by omega) (by omega)
    refine ⟨fs2, ?_, ?_, ?_, ?_⟩
    · simp only [write_all, hrun, hrun2, List.map_cons]
    · have : k + (b :: rest).length = k + 1 + rest.length := by simp; omega
      rw [this]
      exact hinv2
    · rw [he2, he1]
    · rw [hd2, hd1]
      simp only [List.length_cons]
      omega

/-- Whole-file writes to a file without a history area: after `n + 1` of
them, `n ≤ 9999`, the counter is `n` and `n` descriptors are taken. -/
theorem write_all_new (junk : Nat → Char) (storage_dir path : CStr) (b : CStr)
    (rest : List CStr) (fs : FS) (d : CStr) (hf : fs.env.faults = [])
    (hlive : fs.lookup (prepend_storage_dir storage_dir path) = some (Node.file d))
    (hpar : fs.lookup (parentDir (prepend_storage_dir storage_dir path)) = some Node.dir)
    (hnone : fs.lookup (prepend_storage_dir storage_dir path ++ marker) = none)
    (hempty : dirEmpty fs (prepend_storage_dir storage_dir path ++ marker) = true)
    (hbase : '/' ∉ basename path)
    (hfit : pathsFit (prepend_storage_dir storage_dir path) (basename path))
    (hall : ∀ c ∈ b :: rest, 0 < c.length ∧ 2 * c.length ≤ fs.env.stack ∧
      c.length < 2147483648 ∧ c.length ≤ fs.env.max_size)
    (hmax5 : 5 ≤ fs.env.max_size)
    (hlen : rest.length ≤ 9999) (hfd : rest.length + 1 ≤ fs.fd_free) :
    ∃ fs1, write_all junk storage_dir path (b :: rest) fs
        = some ((b :: rest).map (fun b => (b.length : Int)), fs1) ∧
      HistoryAt fs1 (prepend_storage_dir storage_dir path) (basename path) rest.length ∧
      fs1.env = fs.env ∧ fs1.fd_free = fs.fd_free - rest.length := by
  obtain ⟨hb0, hbs, hbi, hbm⟩ := hall b (List.mem_cons_self _ _)
  obtain ⟨fs1, hrun, hinv, he1, hd1, _, hsnap⟩ :=
    vers_write_first_history junk storage_dir path b 0 fs d hf hlive hpar hnone hempty hbase
      hfit (by omega) hb0 (by omega) hbi (by omega) (by omega)
  rw [written_empty_file] at hsnap
  obtain ⟨fs2, hrun2, hinv2, he2, hd2⟩ :=
    write_all_history junk storage_dir path hbase hfit rest fs1 0 b hinv hsnap hb0
      (by rw [he1]; exact hbs) hbi
      (fun c hc => by rw [he1]; exact hall c (List.mem_cons_of_mem _ hc))
      (by rw [he1]; exact hmax5) (by omega) (by omega)
  refine ⟨fs2, ?_, ?_, ?_, ?_⟩
  · simp only [write_all, hrun, hrun2, List.map_cons]
  · simpa using hinv2
  · rw [he2, he1]
  · rw [hd2, hd1]

theorem write_all_append (junk : Nat → Char) (storage_dir path : CStr) (l₁ l₂ : List CStr) :
    ∀ (fs fs1 fs2 : FS) (codes₁ codes₂ : List Int),
    write_all junk storage_dir path l₁ fs = some (codes₁, fs1) →
    write_all junk storage_dir path l₂ fs1 = some (codes₂, fs2) →
    write_all junk storage_dir path (l₁ ++ l₂) fs = some (codes₁ ++ codes₂, fs2) := by
  induction l₁ with
  | nil =>
    intro fs fs1 fs2 codes₁ codes₂ h1 h2
    simp only [write_all, Option.some.injEq, Prod.mk.injEq] at h1
    rw [List.nil_append, h1.2, ← h1.1, List.nil_append]
    exact h2
  | cons b rest ih =>
    intro fs fs1 fs2 codes₁ codes₂ h1 h2
    simp only [List.cons_append, write_all] at h1 ⊢
    cases hw : vers_write junk storage_dir path b 0 fs with
    | ub => rw [hw] at h1; simp at h1
    | ret code fsm =>
      rw [hw] at h1
      simp only at h1 ⊢
      cases hr : write_all junk storage_dir path rest fsm with
      | none => rw [hr] at h1; simp at h1
      | some r =>
        obtain ⟨codes', fs'⟩ := r
        rw [hr] at h1
        simp only [Option.some.injEq, Prod.mk.injEq] at h1
        have hrec := ih fsm fs1 fs2 codes' codes₂ (by rw [hr, h1.2]) h2
        simp only [List.append_eq, hrec, ← h1.1, List.cons_append]

theorem parentDir_storage (storage_dir dir name : CStr) (h : '/' ∉ name) :
    parentDir (prepend_storage_dir storage_dir (dir ++ '/' :: name)) = storage_dir ++ dir := by
  unfold prepend_storage_dir
  rw [← List.append_assoc]
  exact parentDir_child _ _ h

theorem basename_not_slash (dir name : CStr) (hne : name ≠ []) (h : '/' ∉ name) :
    '/' ∉ basename (dir ++ '/' :: name) := by
  rw [basename_child dir name hne h]
  exact h

/-! ## Rename -/

theorem dropWhile_slash_split (l dr : CStr) :
    (l ++ '/' :: dr).dropWhile (fun c => decide (c ≠ '/')) = '/' :: dr ∨
    ∃ s, (l ++ '/' :: dr).dropWhile (fun c => decide (c ≠ '/')) = '/' :: (s ++ '/' :: dr) := by
  induction l with
  | nil => left; simp [List.dropWhile_cons]
  | cons c l ih =>
    by_cases hc : c = '/'
    · right
      exact ⟨l, by simp [List.dropWhile_cons, hc]⟩
    · simp only [List.cons_append, List.dropWhile_cons, hc, ne_eq, not_false_eq_true,
        decide_True, if_true]
      exact ih

/-- The directory part of a path below `d` is `d` or lies below `d`. -/
theorem parentDir_under (d q : CStr) (h : under d q) :
    parentDir q = d ∨ under d (parentDir q) := by
  have hq := under_eq d q h
  generalize q.drop (d.length + 1) = r at hq
  subst hq
  unfold parentDir
  have h1 : (d ++ '/' :: r).reverse = r.reverse ++ '/' :: d.reverse := by simp
  rw [h1]
  rcases dropWhile_slash_split r.reverse d.reverse with h2 | ⟨s, h2⟩
  · left
    rw [h2]
    simp
  · right
    rw [h2]
    have : (List.drop 1 ('/' :: (s ++ '/' :: d.reverse))).reverse = d ++ '/' :: s.reverse := by
      simp
    rw [this]
    exact under_child _ _

theorem under_append_right (d q m : CStr) (h : under d q) : under d (q ++ m) := by
  have hlen := under_length d q h
  unfold under at *
  rw [List.take_append_of_le_length hlen]
  exact h

/-- In a store where everything below `vd` is a plain entry of `vd`, an
existing directory does not lie below `vd`. -/
theorem dir_not_under_flat (fs : FS) (vd q : CStr) (hflat : flatDir fs vd = true)
    (hq : fs.lookup q = some Node.dir) : ¬ under vd q := by
  intro hu
  exact (flatDir_spec fs vd q _ hflat hu hq).2 rfl

/-- A path whose directory exists and is not `vd` does not lie below a flat
`vd`. -/
theorem not_under_of_parent (fs : FS) (vd q : CStr) (hflat : flatDir fs vd = true)
    (hp : fs.lookup (parentDir q) = some Node.dir) (hne : parentDir q ≠ vd) : ¬ under vd q := by
  intro hu
  rcases parentDir_under vd q hu with h | h
  · exact hne h
  · exact dir_not_under_flat fs vd _ hflat hp h

theorem sys_rmdir_empty (fs : FS) (p : CStr) (h : fs.lookup p = some Node.dir)
    (he : ∀ q, under p q → fs.lookup q = none) :
    sys_rmdir fs p = Except.ok (fs.erase p) := by
  unfold sys_rmdir
  rw [h]
  simp only [(dirEmpty_iff fs p).mpr he, if_true]

/-- The first part of `vers_rename`: the removal loop and `rmdir` delete the
history area of the source and nothing else. -/
theorem remove_history (fs : FS) (vd : CStr) (hdir : fs.lookup vd = some Node.dir)
    (hflat : flatDir fs vd = true) (hfit : entriesFit fs vd = true) :
    ∃ fsl fs1, (['.'] :: ['.', '.'] :: dirNames fs vd).foldl (remove_entry vd) (some fs) = some fsl ∧
      sys_rmdir fsl vd = Except.ok fs1 ∧ fs1.env = fs.env ∧ fs1.fd_free = fs.fd_free ∧
      ∀ q, fs1.lookup q = if q = vd ∨ under vd q then none else fs.lookup q := by
  obtain ⟨fsl, hloop, hl1, hl2, he, hd⟩ := removal_loop fs vd hflat hfit
  refine ⟨fsl, fsl.erase vd, hloop, ?_, ?_, ?_, ?_⟩
  · exact sys_rmdir_empty fsl vd (by rw [hl2 _ (not_under_self _), hdir]) hl1
  · rw [FS.env_erase, he]
  · rw [FS.fd_free_erase, hd]
  · intro q
    rw [FS.lookup_erase]
    by_cases h1 : q = vd
    · rw [if_pos h1, if_pos (Or.inl h1)]
    · rw [if_neg h1]
      by_cases h2 : under vd q
      · rw [if_pos (Or.inr h2), hl1 q h2]
      · rw [if_neg (fun h => h.elim h1 h2), hl2 q h2]

/-- The removal of the history area of the source as `vers_rename` and
`vers_unlink` do it: `opendir`, whose stream stays open, the loop and
`rmdir`. -/
theorem open_remove_history (fs : FS) (vd : CStr) (hdir : fs.lookup vd = some Node.dir)
    (hflat : flatDir fs vd = true) (hfit : entriesFit fs vd = true) (hfd : 0 < fs.fd_free) :
    ∃ names fsl fs1, sys_opendir fs vd = Except.ok (names, fs.takeFd) ∧
      names.foldl (remove_entry vd) (some fs.takeFd) = some fsl ∧
      sys_rmdir fsl vd = Except.ok fs1 ∧ fs1.env = fs.env ∧ fs1.fd_free = fs.fd_free - 1 ∧
      ∀ q, fs1.lookup q = if q = vd ∨ under vd q then none else fs.lookup q := by
  have hflat1 : flatDir fs.takeFd vd = true := hflat
  have hfit1 : entriesFit fs.takeFd vd = true := hfit
  obtain ⟨fsl, fs1, hloop, hrm, he, hd, hl⟩ := remove_history fs.takeFd vd hdir hflat1 hfit1
  exact ⟨_, fsl, fs1, sys_opendir_dir fs vd hdir hfd, hloop, hrm, he, hd, hl⟩

/-- What `vers_rename` does when the destination already has a history
area: the history area of the source is removed, then `mkdir` fails. -/
theorem vers_rename_dest_history (storage_dir from_path to_path : CStr) (fs : FS)
    (hdirA : fs.lookup (prepend_storage_dir storage_dir from_path ++ marker) = some Node.dir)
    (hflat : flatDir fs (prepend_storage_dir storage_dir from_path ++ marker) = true)
    (hdirB : fs.lookup (prepend_storage_dir storage_dir to_path ++ marker) = some Node.dir)
    (hne : to_path ≠ from_path)
    (hto : to_path.length < 50)
    (hfitA : entriesFit fs (prepend_storage_dir storage_dir from_path ++ marker) = true)
    (hfitB : (prepend_storage_dir storage_dir to_path).length + 30 < 256)
    (hfd : 0 < fs.fd_free) :
    ∃ fs1, vers_rename storage_dir from_path to_path fs = Outcome.ret (-EEXIST) fs1 ∧
      fs1.env = fs.env ∧ fs1.fd_free = fs.fd_free - 1 ∧
      ∀ q, fs1.lookup q =
        if q = prepend_storage_dir storage_dir from_path ++ marker
            ∨ under (prepend_storage_dir storage_dir from_path ++ marker) q then none
        else fs.lookup q := by
  have hvd : prepend_storage_dir storage_dir to_path ++ marker
      ≠ prepend_storage_dir storage_dir from_path ++ marker := by
    intro h
    exact hne (List.append_cancel_left (List.append_cancel_right h))
  unfold vers_rename
  generalize prepend_storage_dir storage_dir from_path = sA at *
  generalize prepend_storage_dir storage_dir to_path = sB at *
  have hlenA := (entriesFit_spec fs _ hfitA).1
  rw [List.length_append, marker_length] at hlenA
  obtain ⟨names, fsl, fs1, hopen, hloop, hrm, he1, hd1, hl1⟩ :=
    open_remove_history fs (sA ++ marker) hdirA hflat hfitA hfd
  have hmk : sys_mkdir fs1 (sB ++ marker) = Except.error EEXIST := by
    unfold sys_mkdir
    rw [hl1, if_neg (fun h => h.elim hvd (dir_not_under_flat fs _ _ hflat hdirB)), hdirB]
  have k1 : overflows 50 to_path = false := overflows_false _ _ hto
  have k2 : overflows 256 sA = false := overflows_false _ _ (by omega)
  have k3 : overflows 256 sB = false := overflows_false _ _ (by omega)
  have k4 : overflows 256 (sA ++ marker) = false :=
    overflows_false _ _ (by rw [List.length_append, marker_length]; omega)
  have k5 : overflows 256 (sB ++ marker) = false :=
    overflows_false _ _ (by rw [List.length_append, marker_length]; omega)
  have k6 : overflows 256 (sB ++ marker ++ version_file) = false :=
    overflows_false _ _ (by
      rw [List.length_append, List.length_append, marker_length, version_file_length]; omega)
  refine ⟨fs1, ?_, he1, hd1, hl1⟩
  simp only [k1, k2, k3, k4, Bool.false_eq_true, if_false, hopen, hloop, hrm, k5, k6, hmk]

/-- What `vers_rename` does for a source with a flat history area and a
destination that neither exists nor has a history area. -/
theorem vers_rename_fresh (storage_dir from_path to_path : CStr) (fs : FS) (d : CStr)
    (hf : fs.env.faults = [])
    (hlive : fs.lookup (prepend_storage_dir storage_dir from_path) = some (Node.file d))
    (hdirA : fs.lookup (prepend_storage_dir storage_dir from_path ++ marker) = some Node.dir)
    (hflat : flatDir fs (prepend_storage_dir storage_dir from_path ++ marker) = true)
    (hB : fs.lookup (prepend_storage_dir storage_dir to_path) = none)
    (hvdB : fs.lookup (prepend_storage_dir storage_dir to_path ++ marker) = none)
    (hemptyB : dirEmpty fs (prepend_storage_dir storage_dir to_path ++ marker) = true)
    (hparB : fs.lookup (parentDir (prepend_storage_dir storage_dir to_path)) = some Node.dir)
    (hparne : parentDir (prepend_storage_dir storage_dir to_path)
      ≠ prepend_storage_dir storage_dir from_path ++ marker)
    (hbase : '/' ∉ basename to_path)
    (hto : to_path.length < 50)
    (hfitA : entriesFit fs (prepend_storage_dir storage_dir from_path ++ marker) = true)
    (hfitB : pathsFit (prepend_storage_dir storage_dir to_path) (basename to_path))
    (hfd : 2 ≤ fs.fd_free)
    (hd0 : 0 < d.length) (hstack : d.length ≤ fs.env.stack) (hint : d.length < 2147483648)
    (hmax : d.length ≤ fs.env.max_size) (hmax2 : 2 ≤ fs.env.max_size) :
    ∃ fs1, vers_rename storage_dir from_path to_path fs = Outcome.ret 0 fs1 ∧
      fs1.env = fs.env ∧ fs1.fd_free = fs.fd_free - 1 ∧
      ∀ q, fs1.lookup q =
        if q = prepend_storage_dir storage_dir to_path then some (Node.file d)
        else if q = prepend_storage_dir storage_dir from_path then none
        else if q = snapshotPath (prepend_storage_dir storage_dir to_path) (basename to_path) 0
          then some (Node.file d)
        else if q = counterPath (prepend_storage_dir storage_dir to_path)
          then some (Node.file ['0', NUL])
        else if q = prepend_storage_dir storage_dir to_path ++ marker then some Node.dir
        else if q = prepend_storage_dir storage_dir from_path ++ marker
            ∨ under (prepend_storage_dir storage_dir from_path ++ marker) q then none
        else fs.lookup q := by
  unfold vers_rename
  generalize prepend_storage_dir storage_dir from_path = sA at *
  generalize prepend_storage_dir storage_dir to_path = sB at *
  generalize basename to_path = fn at *
  have hemp := (dirEmpty_iff fs _).mp hemptyB
  have hlenA := (entriesFit_spec fs _ hfitA).1
  rw [List.length_append, marker_length] at hlenA
  obtain ⟨hfit1, hfit2, hfit3, hfit4⟩ := pathsFit_spec sB fn hfitB
  obtain ⟨names, fsl, fs1, hopen, hloop, hrm, he1, hd1, hl1⟩ :=
    open_remove_history fs (sA ++ marker) hdirA hflat hfitA (by omega)
  -- paths
  have hu_c := under_counterPath sB
  have hu_s := under_snapshotPath sB fn 0
  have hc_vd : counterPath sB ≠ sB ++ marker := under_ne _ _ hu_c
  have hc_sp : counterPath sB ≠ sB := under_marker_ne _ _ hu_c
  have hs_vd : snapshotPath sB fn 0 ≠ sB ++ marker := under_ne _ _ hu_s
  have hs_sp : snapshotPath sB fn 0 ≠ sB := under_marker_ne _ _ hu_s
  have hs_c : snapshotPath sB fn 0 ≠ counterPath sB := snapshotPath_ne_counterPath sB fn 0
  have hvd_sp : sB ++ marker ≠ sB := append_marker_ne sB
  have hA_vdA : ¬ (sA = sA ++ marker ∨ under (sA ++ marker) sA) :=
    fun h => h.elim (fun h => append_marker_ne sA h.symm) (not_under_marker sA)
  have hA_vdB : sA ≠ sB ++ marker := fun h => by rw [← h, hlive] at hvdB; exact absurd hvdB (by simp)
  have hA_c : sA ≠ counterPath sB := fun h => by
    rw [h] at hlive; rw [hemp _ hu_c] at hlive; exact absurd hlive (by simp)
  have hA_s : sA ≠ snapshotPath sB fn 0 := fun h => by
    rw [h] at hlive; rw [hemp _ hu_s] at hlive; exact absurd hlive (by simp)
  have hA_B : sA ≠ sB := fun h => by rw [h, hB] at hlive; exact absurd hlive (by simp)
  have hP_vdA : ¬ (parentDir sB = sA ++ marker ∨ under (sA ++ marker) (parentDir sB)) :=
    fun h => h.elim hparne (dir_not_under_flat fs _ _ hflat hparB)
  have hP_vdB : parentDir sB ≠ sB ++ marker := fun h => by
    rw [h, hvdB] at hparB; exact absurd hparB (by simp)
  have hP_c : parentDir sB ≠ counterPath sB := fun h => by
    rw [h, hemp _ hu_c] at hparB; exact absurd hparB (by simp)
  have hP_s : parentDir sB ≠ snapshotPath sB fn 0 := fun h => by
    rw [h, hemp _ hu_s] at hparB; exact absurd hparB (by simp)
  have hpar_vd : parentDir (sB ++ marker) = parentDir sB := parentDir_append _ _ slash_not_mem_marker
  have hpath_c : sB ++ marker ++ version_file = counterPath sB := rfl
  have hpath_s : sB ++ marker ++ ['/'] ++ fn ++ [',', '0'] = snapshotPath sB fn 0 := by
    unfold snapshotPath; rw [decimal_zero]; simp
  have hnone1 : ∀ q, fs.lookup q = none → fs1.lookup q = none := by
    intro q hq
    rw [hl1]
    split
    · rfl
    · exact hq
  -- the checks
  have k1 : overflows 50 to_path = false := overflows_false _ _ hto
  have k2 : overflows 256 sA = false := overflows_false _ _ (by omega)
  have k3 : overflows 256 sB = false := overflows_false _ _ hfit1
  have k4 : overflows 256 (sA ++ marker) = false :=
    overflows_false _ _ (by rw [List.length_append, marker_length]; omega)
  have k5 : overflows 256 (sB ++ marker) = false := overflows_false _ _ hfit2
  have k6 : overflows 256 (counterPath sB) = false := overflows_false _ _ hfit3
  have k7 : overflows 256 (snapshotPath sB fn 0) = false :=
    overflows_false _ _ (hfit4 _ (by rw [decimal_zero]; decide))
  have k9 : noInt d.length = false := noInt_false _ hint
  -- the calls
  have hf1 : fs1.env.faults = [] := by rw [he1, hf]
  have h1 : sys_mkdir fs1 (sB ++ marker) = Except.ok (fs1.set (sB ++ marker) Node.dir) :=
    sys_mkdir_new _ _ hf1 (hnone1 _ hvdB)
      (by rw [hpar_vd, hl1, if_neg hP_vdA, hparB])
  generalize hfs2 : fs1.set (sB ++ marker) Node.dir = fs2 at h1
  have hl2 : ∀ q, fs2.lookup q = if q = sB ++ marker then some Node.dir else fs1.lookup q := by
    intro q; rw [← hfs2, FS.lookup_set]
  have he2 : fs2.env = fs.env := by rw [← hfs2, FS.env_set, he1]
  have hd2 : fs2.fd_free = fs.fd_free - 1 := by rw [← hfs2, FS.fd_free_set, hd1]
  have hf2 : fs2.env.faults = [] := by rw [he2, hf]
  have h2 : sys_open fs2 (counterPath sB) OFlag.wronly_creat
      = Except.ok (fs2.set (counterPath sB) (Node.file [])).takeFd :=
    sys_open_creat_new _ _ hf2 (by rw [hl2, if_neg hc_vd, hnone1 _ (hemp _ hu_c)])
      (by rw [show parentDir (counterPath sB) = sB ++ marker from parentDir_version_file _,
            hl2, if_pos rfl])
      (by omega)
  generalize hfs3 : fs2.set (counterPath sB) (Node.file []) = fs3 at h2
  have hl3 : ∀ q, fs3.lookup q = if q = counterPath sB then some (Node.file [])
      else fs2.lookup q := by
    intro q; rw [← hfs3, FS.lookup_set]
  have he3 : fs3.env = fs.env := by rw [← hfs3, FS.env_set, he2]
  have hd3 : fs3.fd_free = fs.fd_free - 1 := by rw [← hfs3, FS.fd_free_set, hd2]
  have hf3 : fs3.env.faults = [] := by rw [he3, hf]
  have h3 := sys_pwrite_file fs3.takeFd (counterPath sB) ['0', NUL] 0 [] hf3
    (by rw [FS.lookup_takeFd, hl3, if_pos rfl])
    (Or.inr (by rw [FS.env_takeFd, he3]; simpa using hmax2))
  rw [written_counter] at h3
  have c3 := sys_close_set fs3 (counterPath sB) (Node.file ['0', NUL]) (by omega)
  generalize hfs4 : fs3.set (counterPath sB) (Node.file ['0', NUL]) = fs4 at c3
  have hl4 : ∀ q, fs4.lookup q = if q = counterPath sB then some (Node.file ['0', NUL])
      else fs3.lookup q := by
    intro q; rw [← hfs4, FS.lookup_set]
  have he4 : fs4.env = fs.env := by rw [← hfs4, FS.env_set, he3]
  have hd4 : fs4.fd_free = fs.fd_free - 1 := by rw [← hfs4, FS.fd_free_set, hd3]
  have hf4 : fs4.env.faults = [] := by rw [he4, hf]
  have hlive4 : fs4.lookup sA = some (Node.file d) := by
    rw [hl4, if_neg hA_c, hl3, if_neg hA_c, hl2, if_neg hA_vdB, hl1, if_neg hA_vdA, hlive]
  have h4 := sys_lstat_file fs4 sA d hlive4
  have k8 : noVLA fs4.env.stack d.length = false := noVLA_false _ _ hd0 (by rw [he4]; exact hstack)
  have h5 : sys_open fs4 sA OFlag.rdonly = Except.ok fs4.takeFd :=
    sys_open_file _ _ _ _ hlive4 (by decide) (by omega)
  have h6 : sys_pread fs4.takeFd sA d.length 0 = Except.ok d := by
    rw [sys_pread_file fs4.takeFd _ _ _ _ hlive4, List.drop_zero,
      List.take_of_length_le (Nat.le_refl _)]
  have c6 : sys_close fs4.takeFd = fs4 := sys_close_takeFd _ (by omega)
  have h7 : sys_open fs4 (snapshotPath sB fn 0) OFlag.wronly_creat
      = Except.ok (fs4.set (snapshotPath sB fn 0) (Node.file [])).takeFd :=
    sys_open_creat_new _ _ hf4
      (by rw [hl4, if_neg hs_c, hl3, if_neg hs_c, hl2, if_neg hs_vd, hnone1 _ (hemp _ hu_s)])
      (by rw [parentDir_snapshotPath _ _ _ hbase, hl4, if_neg hc_vd.symm, hl3,
            if_neg hc_vd.symm, hl2, if_pos rfl])
      (by omega)
  generalize hfs5 : fs4.set (snapshotPath sB fn 0) (Node.file []) = fs5 at h7
  have hl5 : ∀ q, fs5.lookup q = if q = snapshotPath sB fn 0 then some (Node.file [])
      else fs4.lookup q := by
    intro q; rw [← hfs5, FS.lookup_set]
  have he5 : fs5.env = fs.env := by rw [← hfs5, FS.env_set, he4]
  have hd5 : fs5.fd_free = fs.fd_free - 1 := by rw [← hfs5, FS.fd_free_set, hd4]
  have hf5 : fs5.env.faults = [] := by rw [he5, hf]
  have h8 := sys_pwrite_file fs5.takeFd (snapshotPath sB fn 0) d 0 [] hf5
    (by rw [FS.lookup_takeFd, hl5, if_pos rfl])
    (Or.inr (by rw [FS.env_takeFd, he5]; omega))
  rw [written_empty_file] at h8
  have c8 := sys_close_set fs5 (snapshotPath sB fn 0) (Node.file d) (by omega)
  generalize hfs6 : fs5.set (snapshotPath sB fn 0) (Node.file d) = fs6 at c8
  have hl6 : ∀ q, fs6.lookup q = if q = snapshotPath sB fn 0 then some (Node.file d)
      else fs5.lookup q := by
    intro q; rw [← hfs6, FS.lookup_set]
  have he6 : fs6.env = fs.env := by rw [← hfs6, FS.env_set, he5]
  have hd6 : fs6.fd_free = fs.fd_free - 1 := by rw [← hfs6, FS.fd_free_set, hd5]
  have h9 : sys_rename fs6 sA sB = Except.ok ((fs6.erase sA).set sB (Node.file d)) := by
    unfold sys_rename
    rw [hl6, if_neg hA_s, hl5, if_neg hA_s, hlive4]
    simp only
    rw [hl6, if_neg hP_s, hl5, if_neg hP_s, hl4, if_neg hP_c, hl3, if_neg hP_c, hl2,
      if_neg hP_vdB, hl1, if_neg hP_vdA, hparB]
    simp only
    rw [hl6, if_neg hs_sp.symm, hl5, if_neg hs_sp.symm, hl4, if_neg hc_sp.symm, hl3,
      if_neg hc_sp.symm, hl2, if_neg hvd_sp.symm, hnone1 _ hB]
    simp only [hA_B, if_false]
  refine ⟨(fs6.erase sA).set sB (Node.file d), ?_, ?_, ?_, ?_⟩
  · simp only [k1, k2, k3, k4, Bool.false_eq_true, if_false, hopen, hloop, hrm, k5, hpath_c, k6,
      h1, h2, h3, c3, hpath_s, k7, h4, k8, h5, k9, h6, c6, h7, h8, c8, h9]
  · rw [FS.env_set, FS.env_erase, he6]
  · rw [FS.fd_free_set, FS.fd_free_erase, hd6]
  · intro q
    rw [FS.lookup_set, FS.lookup_erase, hl6, hl5, hl4, hl3, hl2, hl1]
    by_cases c1 : q = sB
    · rw [if_pos c1, if_pos c1]
    · rw [if_neg c1, if_neg c1]
      by_cases c2 : q = sA
      · rw [if_pos c2, if_pos c2]
      · rw [if_neg c2, if_neg c2]
        by_cases c3 : q = snapshotPath sB fn 0
        · rw [if_pos c3, if_pos c3]
        · rw [if_neg c3, if_neg c3, if_neg c3]
          by_cases c4 : q = counterPath sB
          · rw [if_pos c4, if_pos c4]
          · rw [if_neg c4, if_neg c4, if_neg c4]

theorem read_counter_zero (fs : FS) (p : CStr) (h : fs.lookup p = some (Node.file ['0', NUL])) :
    read_counter fs p = some 0 := by
  unfold read_counter
  rw [sys_pread_file _ _ _ 5 0 h]
  decide

/-! ## Directory listings and the marker -/

theorem strstr_eq_none_iff (hay needle : CStr) :
    strstr hay needle = none ↔ ¬ Occurs needle hay := by
  induction hay with
  | nil =>
    unfold strstr Occurs
    by_cases hn : needle = []
    · simp only [hn, if_true]
      constructor
      · intro h; exact absurd h (by simp)
      · intro h; exact absurd ⟨[], [], by simp⟩ h
    · simp only [hn, if_false, true_iff]
      rintro ⟨pre, post, h⟩
      have h1 := congrArg List.length h
      simp only [List.length_nil, List.length_append] at h1
      have : needle.length = 0 := by omega
      exact hn (List.length_eq_zero.mp this)
  | cons c cs ih =>
    unfold strstr
    by_cases ht : (c :: cs).take needle.length = needle
    · simp only [ht, if_true]
      constructor
      · intro h; exact absurd h (by simp)
      · intro h
        exfalso
        apply h
        refine ⟨[], (c :: cs).drop needle.length, ?_⟩
        have := List.take_append_drop needle.length (c :: cs)
        rw [ht] at this
        simpa using this.symm
    · simp only [ht, if_false]
      rw [ih]
      constructor
      · intro h hocc
        obtain ⟨pre, post, hp⟩ := hocc
        cases pre with
        | nil =>
          apply ht
          rw [hp]
          simp
        | cons a pre' =>
          apply h
          refine ⟨pre', post, ?_⟩
          simp only [List.cons_append] at hp
          exact (List.cons.inj hp).2
      · intro h hocc
        obtain ⟨pre, post, hp⟩ := hocc
        exact h ⟨c :: pre, post, by rw [hp]; simp⟩

theorem strstr_isSome_iff (hay needle : CStr) :
    (strstr hay needle).isSome = true ↔ Occurs needle hay := by
  have h := strstr_eq_none_iff hay needle
  cases hs : strstr hay needle with
  | none =>
    rw [hs] at h
    simp only [Option.isSome_none, Bool.false_eq_true, false_iff]
    exact h.mp rfl
  | some v =>
    rw [hs] at h
    simp only [Option.isSome_some, true_iff]
    by_contra hc
    exact absurd (h.mpr hc) (by simp)

/-- With a `filler` that accepts every entry the loop of `vers_readdir` hands
it the entries without the marker in their name, in their order. -/
theorem vers_readdir_loop_accept {β : Type} (filler : β → CStr → Stat → Int → β × Int)
    (hacc : ∀ b name st, (filler b name st 0).2 = 0) (entries : List Dirent) :
    ∀ buf : β, vers_readdir_loop filler entries buf
      = (entries.filter (fun de => !(strstr de.d_name marker).isSome)).foldl
          (fun b de => (filler b de.d_name ⟨de.d_ino, de.d_type <<< 12⟩ 0).1) buf := by
  induction entries with
  | nil => intro buf; rfl
  | cons de rest ih =>
    intro buf
    unfold vers_readdir_loop
    by_cases hm : (strstr de.d_name marker).isSome = true
    · simp only [hm, if_true, List.filter_cons, Bool.not_true, Bool.false_eq_true, if_false]
      exact ih buf
    · simp only [hm, if_false, List.filter_cons, Bool.not_eq_true, Bool.not_false, if_true,
        List.foldl_cons, hacc, ne_eq, not_true_eq_false, Bool.not_eq_true']
      exact ih _

/-- A path in which the marker occurs is rejected by `vers_mkdir` with the
value 1, and nothing is created. -/
theorem vers_mkdir_marker (storage_dir path : CStr) (fs : FS) (h : Occurs marker path) :
    vers_mkdir storage_dir path fs = Outcome.ret 1 fs := by
  unfold vers_mkdir
  rw [if_pos ((strstr_isSome_iff path marker).mpr h)]

theorem foldl_collect (l : List Dirent) : ∀ init : List CStr,
    l.foldl (fun b de => (collect b de.d_name ⟨de.d_ino, de.d_type <<< 12⟩ 0).1) init
      = init ++ l.map (fun de => de.d_name) := by
  induction l with
  | nil => intro init; simp
  | cons de rest ih =>
    intro init
    rw [List.foldl_cons, ih]
    simp [collect]


/-! ## A store without room for the next snapshot -/

theorem lookupFault_single (q p : CStr) (e : Int) :
    lookupFault [(q, e)] p = if q = p then some e else none := rfl

theorem lookup_noRoomFor (fs : FS) (sp fn : CStr) (k : Nat) (e : Int) (q : CStr) :
    (noRoomFor fs sp fn k e).lookup q = fs.lookup q := rfl

/-- The first part of a write or truncate on a file with a history, up to the
update of the counter file, on a store that has no room for the next
snapshot: the counter file is rewritten to hold `k + 1`. -/
theorem counter_update (fs2 : FS) (sp fn : CStr) (k : Nat) (e : Int) (z : CStr)
    (hk : k + 1 ≤ 9999)
    (hfaults : fs2.env.faults = [(snapshotPath sp fn (k + 1), e)])
    (hcnt2 : fs2.lookup (counterPath sp) = some (Node.file (decimal k ++ NUL :: z)))
    (hclen : (decimal k ++ NUL :: z).length ≤ 5)
    (hfd : 0 < fs2.fd_free) (hmax5 : 5 ≤ fs2.env.max_size) :
    sys_open fs2 (counterPath sp) OFlag.rdonly = Except.ok fs2.takeFd ∧
    sys_pread fs2.takeFd (counterPath sp) 5 0 = Except.ok (decimal k ++ NUL :: z) ∧
    atoi ((decimal k ++ NUL :: z) ++ zeros (5 - (decimal k ++ NUL :: z).length))
      = some (k : Int) ∧
    cstrOf ((decimal k ++ NUL :: z) ++ zeros (5 - (decimal k ++ NUL :: z).length))
      = some (decimal k) ∧
    sprintf_d ((k : Int) + 1) = decimal (k + 1) ∧
    ¬ 5 < (decimal (k + 1)).length + 1 ∧
    sys_close fs2.takeFd = fs2 ∧
    sys_open fs2 (counterPath sp) OFlag.wronly = Except.ok fs2.takeFd ∧
    sys_pwrite fs2.takeFd (counterPath sp)
        (decimal (k + 1) ++ zeros (5 - (decimal (k + 1)).length)) 0
      = Except.ok (((decimal (k + 1) ++ zeros (5 - (decimal (k + 1)).length)).length : Int),
          fs2.takeFd.set (counterPath sp)
            (Node.file (decimal (k + 1) ++ NUL :: zeros (4 - (decimal (k + 1)).length)))) ∧
    sys_close (fs2.takeFd.set (counterPath sp)
        (Node.file (decimal (k + 1) ++ NUL :: zeros (4 - (decimal (k + 1)).length))))
      = fs2.set (counterPath sp)
        (Node.file (decimal (k + 1) ++ NUL :: zeros (4 - (decimal (k + 1)).length))) := by
  have hlen : (decimal (k + 1)).length ≤ 4 := decimal_length_le _ hk
  have hbuf : (decimal k ++ NUL :: z) ++ zeros (5 - (decimal k ++ NUL :: z).length)
      = decimal k ++ NUL :: (z ++ zeros (5 - (decimal k ++ NUL :: z).length)) := by simp
  have hnf : lookupFault fs2.takeFd.env.faults (counterPath sp) = none := by
    rw [FS.env_takeFd, hfaults, lookupFault_single,
      if_neg (snapshotPath_ne_counterPath sp fn (k + 1))]
  refine ⟨sys_open_file _ _ _ _ hcnt2 (by decide) hfd, ?_, ?_, ?_, ?_, by omega,
    sys_close_takeFd _ hfd, sys_open_file _ _ _ _ hcnt2 (by decide) hfd, ?_,
    sys_close_set _ _ _ hfd⟩
  · rw [sys_pread_file fs2.takeFd _ _ 5 0 hcnt2, List.drop_zero, List.take_of_length_le hclen]
  · rw [hbuf]; exact atoi_decimal _ _
  · rw [hbuf]; exact cstrOf_decimal _ _
  · have : ((k : Int) + 1) = ((k + 1 : Nat) : Int) := by push_cast; rfl
    rw [this, sprintf_d_nat]
  · have h7 := sys_pwrite_ok fs2.takeFd (counterPath sp)
      (decimal (k + 1) ++ zeros (5 - (decimal (k + 1)).length)) 0 _ hnf hcnt2
      (Or.inr (by
        rw [FS.env_takeFd]
        simp only [List.length_append, zeros, List.length_replicate]
        omega))
    rw [written_counter_buf _ _ hclen hlen (decimal_ne_nil _)] at h7
    exact h7

theorem read_counter_of_lookup (fs : FS) (p : CStr) (k : Nat) (z : CStr)
    (h : fs.lookup p = some (Node.file (decimal k ++ NUL :: z)))
    (hlen : (decimal k ++ NUL :: z).length ≤ 5) :
    read_counter fs p = some (k : Int) := by
  unfold read_counter
  rw [sys_pread_file _ _ _ 5 0 h, List.drop_zero, List.take_of_length_le hlen]
  have hbuf : (decimal k ++ NUL :: z) ++ zeros (5 - (decimal k ++ NUL :: z).length)
      = decimal k ++ NUL :: (z ++ zeros (5 - (decimal k ++ NUL :: z).length)) := by simp
  simp only [hbuf]
  exact atoi_decimal _ _

theorem sys_open_creat_refused (fs : FS) (p : CStr) (e : Int) (h : fs.lookup p = none)
    (hp : fs.lookup (parentDir p) = some Node.dir) (hfl : lookupFault fs.env.faults p = some e)
    (hfd : 0 < fs.fd_free) :
    sys_open fs p OFlag.wronly_creat = Except.error e := by
  unfold sys_open openNode
  rw [if_neg (by omega), h]
  simp only [createAt, hp, hfl]

/-- A write to a file with a history on a store that has no room for the
next snapshot: the counter is advanced, then the creation of the snapshot
fails and its error is returned. -/
theorem vers_write_no_room (junk : Nat → Char) (storage_dir path buf : CStr) (offset : Nat)
    (fs : FS) (k : Nat) (e : Int) (dp : CStr) (hbase : '/' ∉ basename path)
    (hinv : HistoryAt fs (prepend_storage_dir storage_dir path) (basename path) k)
    (hk : k + 1 ≤ 9999)
    (hprev : fs.lookup (snapshotPath (prepend_storage_dir storage_dir path) (basename path) k)
      = some (Node.file dp))
    (hfit : pathsFit (prepend_storage_dir storage_dir path) (basename path))
    (hfd : 2 ≤ fs.fd_free)
    (hb0 : 0 < buf.length) (hp0 : 0 < dp.length)
    (hstack : buf.length + dp.length ≤ fs.env.stack)
    (hintb : buf.length < 2147483648) (hintp : dp.length < 2147483648)
    (hmax : offset + buf.length ≤ fs.env.max_size) (hmax5 : 5 ≤ fs.env.max_size) :
    ∃ fs1, vers_write junk storage_dir path buf offset
        (noRoomFor fs (prepend_storage_dir storage_dir path) (basename path) k e)
        = Outcome.ret (-e) fs1 ∧
      read_counter fs1 (counterPath (prepend_storage_dir storage_dir path))
        = some ((k + 1 : Nat) : Int) ∧
      fs1.lookup (snapshotPath (prepend_storage_dir storage_dir path) (basename path) (k + 1))
        = none ∧
      ∀ i, i ≤ k → ∃ d, fs1.lookup
        (snapshotPath (prepend_storage_dir storage_dir path) (basename path) i)
          = some (Node.file d) := by
  unfold vers_write
  generalize prepend_storage_dir storage_dir path = sp at *
  generalize basename path = fn at *
  obtain ⟨_, ⟨dl, hlive⟩, hdir, ⟨z, hcnt, hclen⟩, hsnaps, hexact⟩ := hinv
  obtain ⟨hfit1, hfit2, hfit3, hfit4⟩ := pathsFit_spec sp fn hfit
  have hu_c := under_counterPath sp
  have hc_vd : counterPath sp ≠ sp ++ marker := under_ne _ _ hu_c
  have hc_sp : counterPath sp ≠ sp := under_marker_ne _ _ hu_c
  have hvd_sp : sp ++ marker ≠ sp := append_marker_ne sp
  have hs_sp : ∀ i, snapshotPath sp fn i ≠ sp :=
    fun i => under_marker_ne _ _ (under_snapshotPath sp fn i)
  have hs_c : ∀ i, snapshotPath sp fn i ≠ counterPath sp := snapshotPath_ne_counterPath sp fn
  have hnew : fs.lookup (snapshotPath sp fn (k + 1)) = none := by
    by_contra hne
    rcases hexact _ (under_snapshotPath sp fn (k + 1)) hne with h | ⟨i, hi, h⟩
    · exact hs_c _ h
    · have := snapshotPath_injective sp fn _ _ h
      omega
  have hpath_c : sp ++ marker ++ version_file = counterPath sp := rfl
  have hpath_p : sp ++ marker ++ ['/'] ++ fn ++ [','] ++ decimal k = snapshotPath sp fn k :=
    snap_path_source _ _ _
  have hpath_n : sp ++ marker ++ ['/'] ++ fn ++ [','] ++ decimal (k + 1)
      = snapshotPath sp fn (k + 1) := snap_path_source _ _ _
  have hlen : (decimal (k + 1)).length ≤ 4 := decimal_length_le _ hk
  have hlenk : (decimal k).length ≤ 4 := decimal_length_le _ (by omega)
  generalize hfs0 : noRoomFor fs sp fn k e = fs0
  have hl0 : ∀ q, fs0.lookup q = fs.lookup q := by intro q; rw [← hfs0]; rfl
  have hf0 : fs0.env.faults = [(snapshotPath sp fn (k + 1), e)] := by rw [← hfs0]; rfl
  have hs0 : fs0.env.stack = fs.env.stack := by rw [← hfs0]; rfl
  have hm0 : fs0.env.max_size = fs.env.max_size := by rw [← hfs0]; rfl
  have hd0 : fs0.fd_free = fs.fd_free := by rw [← hfs0]; rfl
  -- the checks
  have k1 : noVLA fs0.env.stack buf.length = false := noVLA_false _ _ hb0 (by rw [hs0]; omega)
  have k2 : overflows 256 sp = false := overflows_false _ _ hfit1
  have k3 : noInt buf.length = false := noInt_false _ hintb
  have k4 : overflows 256 (sp ++ marker) = false := overflows_false _ _ hfit2
  have k5 : overflows 256 (counterPath sp) = false := overflows_false _ _ hfit3
  have k6 : overflows 256 (snapshotPath sp fn (k + 1)) = false :=
    overflows_false _ _ (hfit4 _ hlen)
  have k7 : overflows 256 (snapshotPath sp fn k) = false :=
    overflows_false _ _ (hfit4 _ hlenk)
  have k8 : noInt dp.length = false := noInt_false _ hintp
  -- the calls
  have h1 : sys_open fs0 sp OFlag.wronly = Except.ok fs0.takeFd :=
    sys_open_file fs0 sp dl _ (by rw [hl0, hlive]) (by decide) (by omega)
  have h2 := sys_pwrite_ok fs0.takeFd sp buf offset dl
    (by rw [FS.env_takeFd, hf0, lookupFault_single, if_neg (hs_sp _)])
    (by rw [FS.lookup_takeFd, hl0, hlive]) (Or.inr (by rw [FS.env_takeFd, hm0]; exact hmax))
  have c2 := sys_close_set fs0 sp (Node.file (written dl buf offset)) (by omega)
  generalize hfs2 : fs0.set sp (Node.file (written dl buf offset)) = fs2 at c2
  have hl2 : ∀ q, fs2.lookup q = if q = sp then some (Node.file (written dl buf offset))
      else fs.lookup q := by
    intro q; rw [← hfs2, FS.lookup_set, hl0]
  have he2 : fs2.env = fs0.env := by rw [← hfs2, FS.env_set]
  have hd2 : fs2.fd_free = fs.fd_free := by rw [← hfs2, FS.fd_free_set, hd0]
  have h3 := sys_opendir_dir fs2 (sp ++ marker) (by rw [hl2, if_neg hvd_sp, hdir]) (by omega)
  generalize hfsL : fs2.takeFd = fsL at h3
  have hlL : ∀ q, fsL.lookup q = fs2.lookup q := by
    intro q; rw [← hfsL, FS.lookup_takeFd]
  have heL : fsL.env = fs0.env := by rw [← hfsL, FS.env_takeFd, he2]
  have hdL : fsL.fd_free = fs.fd_free - 1 := by rw [← hfsL, FS.fd_free_takeFd, hd2]
  have hcntL : fsL.lookup (counterPath sp) = some (Node.file (decimal k ++ NUL :: z)) := by
    rw [hlL, hl2, if_neg hc_sp, hcnt]
  obtain ⟨h4, h5, hatoi, hcstr, hspr, hnot, c5, h6, h7, c7⟩ :=
    counter_update fsL sp fn k e z hk (by rw [heL, hf0]) hcntL hclen (by omega)
      (by rw [heL, hm0]; exact hmax5)
  generalize hfs3 : fsL.set (counterPath sp)
    (Node.file (decimal (k + 1) ++ NUL :: zeros (4 - (decimal (k + 1)).length))) = fs3 at c7
  have hl3 : ∀ q, fs3.lookup q = if q = counterPath sp
      then some (Node.file (decimal (k + 1) ++ NUL :: zeros (4 - (decimal (k + 1)).length)))
      else fs2.lookup q := by
    intro q; rw [← hfs3, FS.lookup_set, hlL]
  have he3 : fs3.env = fs0.env := by rw [← hfs3, FS.env_set, heL]
  have hd3 : fs3.fd_free = fs.fd_free - 1 := by rw [← hfs3, FS.fd_free_set, hdL]
  have hprev3 : fs3.lookup (snapshotPath sp fn k) = some (Node.file dp) := by
    rw [hl3, if_neg (hs_c k), hl2, if_neg (hs_sp k), hprev]
  have h8 := sys_lstat_file fs3 _ dp hprev3
  have k10 : noVLA (fs3.env.stack - buf.length) dp.length = false :=
    noVLA_false _ _ hp0 (by rw [he3, hs0]; omega)
  have h9 : sys_open fs3 (snapshotPath sp fn k) OFlag.rdonly = Except.ok fs3.takeFd :=
    sys_open_file _ _ _ _ hprev3 (by decide) (by omega)
  have h10 : sys_pread fs3.takeFd (snapshotPath sp fn k) dp.length 0 = Except.ok dp := by
    rw [sys_pread_file fs3.takeFd _ _ _ _ hprev3, List.drop_zero,
      List.take_of_length_le (Nat.le_refl _)]
  have c10 : sys_close fs3.takeFd = fs3 := sys_close_takeFd _ (by omega)
  have hnew3 : fs3.lookup (snapshotPath sp fn (k + 1)) = none := by
    rw [hl3, if_neg (hs_c _), hl2, if_neg (hs_sp _), hnew]
  have h11 : sys_open fs3 (snapshotPath sp fn (k + 1)) OFlag.wronly_creat = Except.error e :=
    sys_open_creat_refused _ _ e hnew3
      (by rw [parentDir_snapshotPath _ _ _ hbase, hl3, if_neg hc_vd.symm, hl2, if_neg hvd_sp,
            hdir])
      (by rw [he3, hf0, lookupFault_single, if_pos rfl]) (by omega)
  refine ⟨fs3, ?_, ?_, hnew3, ?_⟩
  · simp only [k1, k2, k3, k4, hpath_c, k5, Bool.false_eq_true, if_false, h1, h2, c2, h3, h4, h5,
      hatoi, c5, hspr, hnot, h6, h7, c7, hcstr, hpath_p, hpath_n, k6, k7, h8, k10, h9, k8, h10,
      c10, h11]
  · exact read_counter_of_lookup fs3 _ (k + 1) _ (by rw [hl3, if_pos rfl])
      (by simp [zeros]; omega)
  · intro i hi
    obtain ⟨d, hd⟩ := hsnaps i hi
    exact ⟨d, by rw [hl3, if_neg (hs_c i), hl2, if_neg (hs_sp i), hd]⟩

/-- A truncate of a file with a history on a store that has no room for the
next snapshot: the counter is advanced, then the creation of the snapshot
fails and its error is returned. -/
theorem vers_truncate_no_room (junk : Nat → Char) (storage_dir path : CStr) (size : Nat)
    (fs : FS) (k : Nat) (e : Int) (dl : CStr) (hbase : '/' ∉ basename path)
    (hinv : HistoryAt fs (prepend_storage_dir storage_dir path) (basename path) k)
    (hk : k + 1 ≤ 9999)
    (hlive : fs.lookup (prepend_storage_dir storage_dir path) = some (Node.file dl))
    (hfit : pathsFit (prepend_storage_dir storage_dir path) (basename path))
    (hfd : 2 ≤ fs.fd_free)
    (hl0 : 0 < dl.length) (hstack : dl.length ≤ fs.env.stack)
    (hintl : dl.length < 2147483648)
    (hmax : size ≤ fs.env.max_size) (hmax5 : 5 ≤ fs.env.max_size) :
    ∃ fs1, vers_truncate junk storage_dir path size
        (noRoomFor fs (prepend_storage_dir storage_dir path) (basename path) k e)
        = Outcome.ret (-e) fs1 ∧
      read_counter fs1 (counterPath (prepend_storage_dir storage_dir path))
        = some ((k + 1 : Nat) : Int) ∧
      fs1.lookup (snapshotPath (prepend_storage_dir storage_dir path) (basename path) (k + 1))
        = none ∧
      ∀ i, i ≤ k → ∃ d, fs1.lookup
        (snapshotPath (prepend_storage_dir storage_dir path) (basename path) i)
          = some (Node.file d) := by
  unfold vers_truncate
  generalize prepend_storage_dir storage_dir path = sp at *
  generalize basename path = fn at *
  obtain ⟨_, _, hdir, ⟨z, hcnt, hclen⟩, hsnaps, hexact⟩ := hinv
  obtain ⟨dp, hprev⟩ := hsnaps k (Nat.le_refl _)
  obtain ⟨hfit1, hfit2, hfit3, hfit4⟩ := pathsFit_spec sp fn hfit
  have hu_c := under_counterPath sp
  have hc_vd : counterPath sp ≠ sp ++ marker := under_ne _ _ hu_c
  have hc_sp : counterPath sp ≠ sp := under_marker_ne _ _ hu_c
  have hvd_sp : sp ++ marker ≠ sp := append_marker_ne sp
  have hs_sp : ∀ i, snapshotPath sp fn i ≠ sp :=
    fun i => under_marker_ne _ _ (under_snapshotPath sp fn i)
  have hs_c : ∀ i, snapshotPath sp fn i ≠ counterPath sp := snapshotPath_ne_counterPath sp fn
  have hnew : fs.lookup (snapshotPath sp fn (k + 1)) = none := by
    by_contra hne
    rcases hexact _ (under_snapshotPath sp fn (k + 1)) hne with h | ⟨i, hi, h⟩
    · exact hs_c _ h
    · have := snapshotPath_injective sp fn _ _ h
      omega
  have hpath_c : sp ++ marker ++ version_file = counterPath sp := rfl
  have hpath_p : sp ++ marker ++ ['/'] ++ fn ++ [','] ++ decimal k = snapshotPath sp fn k :=
    snap_path_source _ _ _
  have hpath_n : sp ++ marker ++ ['/'] ++ fn ++ [','] ++ decimal (k + 1)
      = snapshotPath sp fn (k + 1) := snap_path_source _ _ _
  have hlen : (decimal (k + 1)).length ≤ 4 := decimal_length_le _ hk
  have hlenk : (decimal k).length ≤ 4 := decimal_length_le _ (by omega)
  generalize hfs0 : noRoomFor fs sp fn k e = fs0
  have hl0' : ∀ q, fs0.lookup q = fs.lookup q := by intro q; rw [← hfs0]; rfl
  have hf0 : fs0.env.faults = [(snapshotPath sp fn (k + 1), e)] := by rw [← hfs0]; rfl
  have hs0 : fs0.env.stack = fs.env.stack := by rw [← hfs0]; rfl
  have hm0 : fs0.env.max_size = fs.env.max_size := by rw [← hfs0]; rfl
  have hd0 : fs0.fd_free = fs.fd_free := by rw [← hfs0]; rfl
  -- the checks
  have k2 : overflows 256 sp = false := overflows_false _ _ hfit1
  have k4 : overflows 256 (sp ++ marker) = false := overflows_false _ _ hfit2
  have k5 : overflows 256 (counterPath sp) = false := overflows_false _ _ hfit3
  have k6 : overflows 256 (snapshotPath sp fn (k + 1)) = false :=
    overflows_false _ _ (hfit4 _ hlen)
  have k7 : overflows 256 (snapshotPath sp fn k) = false :=
    overflows_false _ _ (hfit4 _ hlenk)
  have k8 : noInt dl.length = false := noInt_false _ hintl
  -- the calls
  have h1 := sys_lstat_file fs0 sp dl (by rw [hl0', hlive])
  have h2 : sys_truncate fs0 sp size = Except.ok (fs0.set sp (Node.file (resize dl size))) :=
    sys_truncate_file fs0 sp dl size (by rw [hl0', hlive]) (by rw [hm0]; exact hmax)
  generalize hfs2 : fs0.set sp (Node.file (resize dl size)) = fs2 at h2
  have hl2 : ∀ q, fs2.lookup q = if q = sp then some (Node.file (resize dl size))
      else fs.lookup q := by
    intro q; rw [← hfs2, FS.lookup_set, hl0']
  have he2 : fs2.env = fs0.env := by rw [← hfs2, FS.env_set]
  have hd2 : fs2.fd_free = fs.fd_free := by rw [← hfs2, FS.fd_free_set, hd0]
  have h3 := sys_opendir_dir fs2 (sp ++ marker) (by rw [hl2, if_neg hvd_sp, hdir]) (by omega)
  generalize hfsL : fs2.takeFd = fsL at h3
  have hlL : ∀ q, fsL.lookup q = fs2.lookup q := by
    intro q; rw [← hfsL, FS.lookup_takeFd]
  have heL : fsL.env = fs0.env := by rw [← hfsL, FS.env_takeFd, he2]
  have hdL : fsL.fd_free = fs.fd_free - 1 := by rw [← hfsL, FS.fd_free_takeFd, hd2]
  have hcntL : fsL.lookup (counterPath sp) = some (Node.file (decimal k ++ NUL :: z)) := by
    rw [hlL, hl2, if_neg hc_sp, hcnt]
  obtain ⟨h4, h5, hatoi, hcstr, hspr, hnot, c5, h6, h7, c7⟩ :=
    counter_update fsL sp fn k e z hk (by rw [heL, hf0]) hcntL hclen (by omega)
      (by rw [heL, hm0]; exact hmax5)
  generalize hfs3 : fsL.set (counterPath sp)
    (Node.file (decimal (k + 1) ++ NUL :: zeros (4 - (decimal (k + 1)).length))) = fs3 at c7
  have hl3 : ∀ q, fs3.lookup q = if q = counterPath sp
      then some (Node.file (decimal (k + 1) ++ NUL :: zeros (4 - (decimal (k + 1)).length)))
      else fs2.lookup q := by
    intro q; rw [← hfs3, FS.lookup_set, hlL]
  have he3 : fs3.env = fs0.env := by rw [← hfs3, FS.env_set, heL]
  have hd3 : fs3.fd_free = fs.fd_free - 1 := by rw [← hfs3, FS.fd_free_set, hdL]
  have hprev3 : fs3.lookup (snapshotPath sp fn k) = some (Node.file dp) := by
    rw [hl3, if_neg (hs_c k), hl2, if_neg (hs_sp k), hprev]
  have k10 : noVLA fs3.env.stack dl.length = false :=
    noVLA_false _ _ hl0 (by rw [he3, hs0]; exact hstack)
  have h9 : sys_open fs3 (snapshotPath sp fn k) OFlag.rdonly = Except.ok fs3.takeFd :=
    sys_open_file _ _ _ _ hprev3 (by decide) (by omega)
  have h10 := sys_pread_file fs3.takeFd (snapshotPath sp fn k) dp dl.length 0 hprev3
  have c10 : sys_close fs3.takeFd = fs3 := sys_close_takeFd _ (by omega)
  have hnew3 : fs3.lookup (snapshotPath sp fn (k + 1)) = none := by
    rw [hl3, if_neg (hs_c _), hl2, if_neg (hs_sp _), hnew]
  have h11 : sys_open fs3 (snapshotPath sp fn (k + 1)) OFlag.wronly_creat = Except.error e :=
    sys_open_creat_refused _ _ e hnew3
      (by rw [parentDir_snapshotPath _ _ _ hbase, hl3, if_neg hc_vd.symm, hl2, if_neg hvd_sp,
            hdir])
      (by rw [he3, hf0, lookupFault_single, if_pos rfl]) (by omega)
  refine ⟨fs3, ?_, ?_, hnew3, ?_⟩
  · simp only [k2, h1, k4, hpath_c, k5, Bool.false_eq_true, if_false, h2, h3, h4, h5, hatoi, c5,
      hspr, hnot, h6, h7, c7, hcstr, hpath_p, hpath_n, k6, k7, k10, h9, k8, h10, c10, h11]
  · exact read_counter_of_lookup fs3 _ (k + 1) _ (by rw [hl3, if_pos rfl])
      (by simp [zeros]; omega)
  · intro i hi
    obtain ⟨d, hd⟩ := hsnaps i hi
    exact ⟨d, by rw [hl3, if_neg (hs_c i), hl2, if_neg (hs_sp i), hd]⟩

theorem historyAt_store_hello :
    HistoryAt store_hello (prepend_storage_dir "/s".toList "/a".toList)
      (basename "/a".toList) 0 := by
  obtain ⟨fs1, hrun, hinv, _⟩ := vers_write_first_history junk_J "/s".toList "/a".toList
    "hello".toList 0 store_new [] rfl (by decide) (by decide) (by decide) (by decide) (by decide)
    (by decide) (by decide) (by decide) (by decide) (by decide) (by decide) (by decide)
  have hrun' : vers_write junk_J "/s".toList "/a".toList "hello".toList 0 store_new
      = Outcome.ret 5 store_hello := rfl
  rw [hrun'] at hrun
  have : store_hello = fs1 := (Outcome.ret.inj hrun).2
  rw [this]
  exact hinv

/-! ## A process that runs out of descriptors -/

theorem map_length_replicate (n : Nat) (b : CStr) :
    (List.replicate n b).map (fun b => (b.length : Int)) = List.replicate n (b.length : Int) := by
  rw [List.map_replicate]

/-- The file `a` of `store_new` is written 1020 times, one byte each time, by
a process that can open 1019 more descriptors.  The first write leaves no
stream open, each of the next 1018 leaves one open, and the 1020th finds one
descriptor left: its directory stream takes it and the counter file cannot
be opened.  The first 1019 writes return 1, the 1020th returns `-EMFILE`;
the counter stays at 1018 and the process has no descriptor left. -/
theorem exhausting_run :
    ∃ fs1, write_all junk_J "/s".toList "/a".toList (List.replicate 1020 "x".toList) store_new
        = some (List.replicate 1019 1 ++ [-EMFILE], fs1) ∧
      HistoryAt fs1 (prepend_storage_dir "/s".toList "/a".toList) (basename "/a".toList) 1018 ∧
      fs1.env = store_new.env ∧ fs1.fd_free = 0 := by
  have hbase : '/' ∉ basename "/a".toList := by decide
  have hfit : pathsFit (prepend_storage_dir "/s".toList "/a".toList) (basename "/a".toList) := by
    decide
  have hall : ∀ c ∈ "x".toList :: List.replicate 1018 "x".toList,
      0 < c.length ∧ 2 * c.length ≤ store_new.env.stack ∧ c.length < 2147483648 ∧
      c.length ≤ store_new.env.max_size := by
    intro c hc
    have : c = "x".toList := by
      rcases List.mem_cons.mp hc with h | h
      · exact h
      · exact List.eq_of_mem_replicate h
    subst this
    decide
  obtain ⟨fs1, hrun, hinv, he1, hd1⟩ := write_all_new junk_J "/s".toList "/a".toList "x".toList
    (List.replicate 1018 "x".toList) store_new [] rfl (by decide) (by decide) (by decide)
    (by decide) hbase hfit hall (by decide) (by rw [List.length_replicate]; decide)
    (by rw [List.length_replicate]; decide)
  rw [List.length_replicate] at hinv hd1
  obtain ⟨dl, hlive⟩ := hinv.2.1
  obtain ⟨fs2, hlast, hinv2, he2, hd2, _⟩ := vers_write_emfile junk_J "/s".toList "/a".toList
    "x".toList 0 fs1 1018 dl hinv hlive hfit (by rw [hd1]; decide) (by decide)
    (by rw [he1]; decide) (by decide) (by rw [he1]; decide)
  have hone : write_all junk_J "/s".toList "/a".toList ["x".toList] fs1
      = some ([-EMFILE], fs2) := by
    simp only [write_all, hlast]
  have hsplit : List.replicate 1020 "x".toList
      = ("x".toList :: List.replicate 1018 "x".toList) ++ ["x".toList] := by
    rw [← List.replicate_succ, ← List.replicate_succ']
  have hcodes : ("x".toList :: List.replicate 1018 "x".toList).map (fun b => (b.length : Int))
      = List.replicate 1019 1 := by
    rw [← List.replicate_succ, map_length_replicate]
    rfl
  rw [hcodes] at hrun
  refine ⟨fs2, ?_, hinv2, by rw [he2, he1], hd2⟩
  rw [hsplit]
  exact write_all_append _ _ _ _ _ _ _ _ _ _ hrun hone

/-- C1 (the code at the failing input): the file `a` holds `hello` and its
history holds snapshot 0 = `hello` (the state left by the first write).
Writing `X` at offset 0 succeeds with 1, the live file becomes `Xello` and
the counter 1, but snapshot 1 is recorded as `X`: length 1, not
max(5, 0 + 1) = 5, and the bytes [1, 5) of the prior content are not carried
over.  (The second write also leaves its directory stream open: one
descriptor fewer.) -/
theorem write_snapshot_drops_tail (junk : Nat → Char) :
    vers_write junk "/s".toList "/a".toList "hello".toList 0 store_new
      = Outcome.ret 5 store_hello ∧
    vers_write junk "/s".toList "/a".toList "X".toList 0 store_hello
      = Outcome.ret 1
        (store [("/s".toList, Node.dir), ("/s/a".toList, Node.file "Xello".toList),
          ("/s/a__versions__".toList, Node.dir),
          ("/s/a__versions__/.version_file.txt".toList, Node.file ['1', NUL, NUL, NUL, NUL]),
          ("/s/a__versions__/a,0".toList, Node.file "hello".toList),
          ("/s/a__versions__/a,1".toList, Node.file "X".toList)] [] 1018) :=
  ⟨rfl, rfl⟩

/-- C2 (the code at the failing input): the file `a` holds `hello` and has
no history area.  Writing `X` at offset 0 succeeds with 1 and creates the
history area with counter 0, but snapshot 0 is `X` while the live content
after the write is `Xello`.  Such a file also arises through the file system
itself: `vers_truncate` of the new file `a` to 5 grows the live file, then
fails for want of a history area, and the write that follows records `X`
for a live content of five bytes. -/
theorem first_write_snapshot_not_live (junk : Nat → Char) :
    vers_write junk "/s".toList "/a".toList "X".toList 0 store_plain
      = Outcome.ret 1
        (store [("/s".toList, Node.dir), ("/s/a".toList, Node.file "Xello".toList),
          ("/s/a__versions__".toList, Node.dir),
          ("/s/a__versions__/.version_file.txt".toList, Node.file ['0', NUL]),
          ("/s/a__versions__/a,0".toList, Node.file "X".toList)] [] 1019) ∧
    vers_truncate junk "/s".toList "/a".toList 5 store_new
      = Outcome.ret (-ENOENT)
        (store [("/s".toList, Node.dir), ("/s/a".toList, Node.file [NUL, NUL, NUL, NUL, NUL])]
          [] 1019) ∧
    vers_write junk "/s".toList "/a".toList "X".toList 0
        (store [("/s".toList, Node.dir), ("/s/a".toList, Node.file [NUL, NUL, NUL, NUL, NUL])]
          [] 1019)
      = Outcome.ret 1
        (store [("/s".toList, Node.dir), ("/s/a".toList, Node.file ['X', NUL, NUL, NUL, NUL]),
          ("/s/a__versions__".toList, Node.dir),
          ("/s/a__versions__/.version_file.txt".toList, Node.file ['0', NUL]),
          ("/s/a__versions__/a,0".toList, Node.file "X".toList)] [] 1019) :=
  ⟨rfl, rfl, rfl⟩

/-- C3 (the code at the failing input): the file `a` and its latest
snapshot both hold `hello`.  Truncating to 8 succeeds with 0 and extends the
live file with zero bytes, but the three bytes of snapshot 1 past `hello`
are read from beyond the five byte buffer: they are whatever lies in memory
there (`junk 5`, `junk 6`, `junk 7`), not zero bytes. -/
theorem truncate_grow_snapshot_junk (junk : Nat → Char) :
    vers_truncate junk "/s".toList "/a".toList 8 store_hello
      = Outcome.ret 0
        (store [("/s".toList, Node.dir),
          ("/s/a".toList, Node.file ("hello".toList ++ [NUL, NUL, NUL])),
          ("/s/a__versions__".toList, Node.dir),
          ("/s/a__versions__/.version_file.txt".toList, Node.file ['1', NUL, NUL, NUL, NUL]),
          ("/s/a__versions__/a,0".toList, Node.file "hello".toList),
          ("/s/a__versions__/a,1".toList,
            Node.file ("hello".toList ++ [junk 5, junk 6, junk 7]))] [] 1018) :=
  rfl

/-- C5 (amended): for every existing regular file that has no history area,
whose path with the marker appended fits the 256 byte block, `vers_unlink`
by a process that has a descriptor left treats the missing history area as
an error: it returns `-ENOENT` and leaves the state as it was, the live file
included. -/
theorem unlink_without_history (storage_dir path : CStr) (fs : FS) (d : CStr)
    (hlive : fs.lookup (prepend_storage_dir storage_dir path) = some (Node.file d))
    (hnone : fs.lookup (prepend_storage_dir storage_dir path ++ marker) = none)
    (hfit : (prepend_storage_dir storage_dir path).length + 12 < 256)
    (hfd : 0 < fs.fd_free) :
    vers_unlink storage_dir path fs = Outcome.ret (-ENOENT) fs ∧
      fs.lookup (prepend_storage_dir storage_dir path) = some (Node.file d) := by
  refine ⟨?_, hlive⟩
  unfold vers_unlink
  simp only [overflows_false 256 (prepend_storage_dir storage_dir path) (by omega),
    overflows_false 256 (prepend_storage_dir storage_dir path ++ marker)
      (by rw [List.length_append, marker_length]; omega),
    Bool.false_eq_true, if_false, sys_opendir_none fs _ hnone hfd]

theorem unlink_without_history_witness :
    vers_unlink "/s".toList "/a".toList store_new = Outcome.ret (-ENOENT) store_new ∧
      store_new.lookup (prepend_storage_dir "/s".toList "/a".toList) = some (Node.file []) :=
  unlink_without_history "/s".toList "/a".toList store_new [] (by decide) (by decide)
    (by decide) (by decide)

/-- C5 (as stated) fails: the newly created, never written file `a` has no
history area, and `vers_unlink` returns -2 (`-ENOENT`), not success, with
the live file still in the store. -/
theorem unlink_new_file_fails :
    vers_unlink "/s".toList "/a".toList store_new = Outcome.ret (-2) store_new ∧
      store_new.lookup "/s/a".toList = some (Node.file []) := by
  decide

/-- C6 (amended): for every regular file that has no history area, whose
counter file path fits the 256 byte block, and every new size S that the
store allows a file, `vers_truncate` by a process that has a descriptor left
truncates (or zero-extends) the live file to S and then fails with
`-ENOENT`: nothing else in the state changes, so no history area and no
snapshot is created. -/
theorem truncate_without_history (junk : Nat → Char) (storage_dir path : CStr) (size : Nat)
    (fs : FS) (d : CStr)
    (hlive : fs.lookup (prepend_storage_dir storage_dir path) = some (Node.file d))
    (hnone : fs.lookup (prepend_storage_dir storage_dir path ++ marker) = none)
    (hfit : (prepend_storage_dir storage_dir path).length + 30 < 256)
    (hsize : size ≤ fs.env.max_size)
    (hfd : 0 < fs.fd_free) :
    ∃ fs1, vers_truncate junk storage_dir path size fs = Outcome.ret (-ENOENT) fs1 ∧
      fs1.lookup (prepend_storage_dir storage_dir path) = some (Node.file (resize d size)) ∧
      fs1.lookup (prepend_storage_dir storage_dir path ++ marker) = none ∧
      (∀ q, q ≠ prepend_storage_dir storage_dir path → fs1.lookup q = fs.lookup q) ∧
      fs1.env = fs.env ∧ fs1.fd_free = fs.fd_free := by
  unfold vers_truncate
  generalize prepend_storage_dir storage_dir path = sp at *
  have k1 : overflows 256 sp = false := overflows_false _ _ (by omega)
  have k2 : overflows 256 (sp ++ marker) = false :=
    overflows_false _ _ (by rw [List.length_append, marker_length]; omega)
  have k3 : overflows 256 (sp ++ marker ++ version_file) = false :=
    overflows_false _ _ (by
      rw [List.length_append, List.length_append, marker_length, version_file_length]; omega)
  have h1 := sys_lstat_file fs sp d hlive
  have h2 := sys_truncate_file fs sp d size hlive hsize
  have h3 : sys_opendir (fs.set sp (Node.file (resize d size))) (sp ++ marker)
      = Except.error ENOENT :=
    sys_opendir_none _ _ (by rw [FS.lookup_set, if_neg (append_marker_ne sp), hnone]) hfd
  refine ⟨fs.set sp (Node.file (resize d size)), ?_, ?_, ?_, ?_, rfl, rfl⟩
  · simp only [k1, k2, k3, Bool.false_eq_true, if_false, h1, h2, h3]
  · rw [FS.lookup_set, if_pos rfl]
  · rw [FS.lookup_set, if_neg (append_marker_ne sp), hnone]
  · intro q hq
    rw [FS.lookup_set, if_neg hq]

theorem truncate_without_history_witness :
    ∃ fs1, vers_truncate junk_J "/s".toList "/a".toList 3 store_plain
        = Outcome.ret (-ENOENT) fs1 ∧
      fs1.lookup (prepend_storage_dir "/s".toList "/a".toList)
        = some (Node.file (resize "hello".toList 3)) ∧
      fs1.lookup (prepend_storage_dir "/s".toList "/a".toList ++ marker) = none ∧
      (∀ q, q ≠ prepend_storage_dir "/s".toList "/a".toList →
        fs1.lookup q = store_plain.lookup q) ∧
      fs1.env = store_plain.env ∧ fs1.fd_free = store_plain.fd_free :=
  truncate_without_history junk_J "/s".toList "/a".toList 3 store_plain "hello".toList
    (by decide) (by decide) (by decide) (by decide) (by decide)

/-- C6 (as stated) fails: the file `a` holds `hello` and has no history
area; `vers_truncate` to 3 returns -2 (`-ENOENT`), not success, and leaves
the store with the truncated live file only: no history area, no counter,
no snapshot 0 or 1. -/
theorem truncate_plain_file_fails :
    vers_truncate junk_J "/s".toList "/a".toList 3 store_plain
      = Outcome.ret (-2)
        (store [("/s".toList, Node.dir), ("/s/a".toList, Node.file "hel".toList)] [] 1019) := by
  decide

/-- C7 (amended): for every tracked file A (a regular file, not empty, whose
history area is a directory holding plain entries only) and every path B of
fewer than 50 bytes, in an existing directory and not inside A's history
area, such that neither B nor a history area for B exists, `vers_rename(A,
B)` by a process that can open two more descriptors returns 0 and afterwards
B's history area exists, its counter reads back as 0, it holds exactly one
snapshot, version 0 named after B, whose content is A's live content before
the rename; A's history area and everything in it are gone; the live file is
at B and no longer at A.  The paths involved fit their 256 byte blocks
(`entriesFit`, `pathsFit`), and A's content fits the stack of the handler
and the largest file size. -/
theorem rename_restarts_history (storage_dir from_path dirB nameB : CStr) (fs : FS) (d : CStr)
    (hname : nameB ≠ []) (hslash : '/' ∉ nameB) (hf : fs.env.faults = [])
    (hlive : fs.lookup (prepend_storage_dir storage_dir from_path) = some (Node.file d))
    (hdirA : fs.lookup (prepend_storage_dir storage_dir from_path ++ marker) = some Node.dir)
    (hflat : flatDir fs (prepend_storage_dir storage_dir from_path ++ marker) = true)
    (hB : fs.lookup (prepend_storage_dir storage_dir (dirB ++ '/' :: nameB)) = none)
    (hvdB : fs.lookup (prepend_storage_dir storage_dir (dirB ++ '/' :: nameB) ++ marker) = none)
    (hemptyB : dirEmpty fs (prepend_storage_dir storage_dir (dirB ++ '/' :: nameB) ++ marker)
      = true)
    (hparB : fs.lookup (storage_dir ++ dirB) = some Node.dir)
    (hout : ¬ under (prepend_storage_dir storage_dir from_path ++ marker)
      (prepend_storage_dir storage_dir (dirB ++ '/' :: nameB)))
    (hto : (dirB ++ '/' :: nameB).length < 50)
    (hfitA : entriesFit fs (prepend_storage_dir storage_dir from_path ++ marker) = true)
    (hfitB : pathsFit (prepend_storage_dir storage_dir (dirB ++ '/' :: nameB)) nameB)
    (hfd : 2 ≤ fs.fd_free)
    (hd0 : 0 < d.length) (hstack : d.length ≤ fs.env.stack) (hint : d.length < 2147483648)
    (hmax : d.length ≤ fs.env.max_size) (hmax2 : 2 ≤ fs.env.max_size) :
    ∃ fs1, vers_rename storage_dir from_path (dirB ++ '/' :: nameB) fs = Outcome.ret 0 fs1 ∧
      fs1.lookup (prepend_storage_dir storage_dir (dirB ++ '/' :: nameB) ++ marker)
        = some Node.dir ∧
      read_counter fs1 (counterPath (prepend_storage_dir storage_dir (dirB ++ '/' :: nameB)))
        = some 0 ∧
      fs1.lookup (snapshotPath (prepend_storage_dir storage_dir (dirB ++ '/' :: nameB)) nameB 0)
        = some (Node.file d) ∧
      (∀ q, under (prepend_storage_dir storage_dir (dirB ++ '/' :: nameB) ++ marker) q →
        fs1.lookup q ≠ none →
        q = counterPath (prepend_storage_dir storage_dir (dirB ++ '/' :: nameB)) ∨
        q = snapshotPath (prepend_storage_dir storage_dir (dirB ++ '/' :: nameB)) nameB 0) ∧
      fs1.lookup (prepend_storage_dir storage_dir from_path ++ marker) = none ∧
      (∀ q, under (prepend_storage_dir storage_dir from_path ++ marker) q →
        fs1.lookup q = none) ∧
      fs1.lookup (prepend_storage_dir storage_dir (dirB ++ '/' :: nameB)) = some (Node.file d) ∧
      fs1.lookup (prepend_storage_dir storage_dir from_path) = none := by
  have hbase := basename_not_slash dirB nameB hname hslash
  have hbn := basename_child dirB nameB hname hslash
  have hpar := parentDir_storage storage_dir dirB nameB hslash
  have hparne : parentDir (prepend_storage_dir storage_dir (dirB ++ '/' :: nameB))
      ≠ prepend_storage_dir storage_dir from_path ++ marker := by
    intro h
    apply hout
    have : prepend_storage_dir storage_dir (dirB ++ '/' :: nameB)
        = (storage_dir ++ dirB) ++ '/' :: nameB := by
      unfold prepend_storage_dir; rw [List.append_assoc]
    rw [this, ← hpar, h]
    exact under_child _ _
  obtain ⟨fs1, hrun, _, _, hl⟩ := vers_rename_fresh storage_dir from_path (dirB ++ '/' :: nameB)
    fs d hf hlive hdirA hflat hB hvdB hemptyB (by rw [hpar]; exact hparB) hparne hbase hto hfitA
    (by rw [hbn]; exact hfitB) hfd hd0 hstack hint hmax hmax2
  rw [hbn] at hl
  rw [← hpar] at hparB
  generalize prepend_storage_dir storage_dir from_path = sA at *
  generalize prepend_storage_dir storage_dir (dirB ++ '/' :: nameB) = sB at *
  have hemp := (dirEmpty_iff fs _).mp hemptyB
  have hu_c := under_counterPath sB
  have hu_s := under_snapshotPath sB nameB 0
  have hc_vd : counterPath sB ≠ sB ++ marker := under_ne _ _ hu_c
  have hc_sp : counterPath sB ≠ sB := under_marker_ne _ _ hu_c
  have hs_vd : snapshotPath sB nameB 0 ≠ sB ++ marker := under_ne _ _ hu_s
  have hs_sp : snapshotPath sB nameB 0 ≠ sB := under_marker_ne _ _ hu_s
  have hs_c : snapshotPath sB nameB 0 ≠ counterPath sB := snapshotPath_ne_counterPath sB nameB 0
  have hvd_sp : sB ++ marker ≠ sB := append_marker_ne sB
  have hA_vdB : sA ≠ sB ++ marker := fun h => by rw [← h, hlive] at hvdB; exact absurd hvdB (by simp)
  have hA_c : sA ≠ counterPath sB := fun h => by
    rw [h] at hlive; rw [hemp _ hu_c] at hlive; exact absurd hlive (by simp)
  have hA_s : sA ≠ snapshotPath sB nameB 0 := fun h => by
    rw [h] at hlive; rw [hemp _ hu_s] at hlive; exact absurd hlive (by simp)
  have hA_B : sA ≠ sB := fun h => by rw [h, hB] at hlive; exact absurd hlive (by simp)
  -- nothing of the destination lies in the history area of the source
  have hvdA_B : sA ++ marker ≠ sB := fun h => by rw [h, hB] at hdirA; exact absurd hdirA (by simp)
  have hvdA_vdB : sA ++ marker ≠ sB ++ marker := fun h => by
    rw [h, hvdB] at hdirA; exact absurd hdirA (by simp)
  have hvdA_c : sA ++ marker ≠ counterPath sB := fun h => by
    rw [h, hemp _ hu_c] at hdirA; exact absurd hdirA (by simp)
  have hvdA_s : sA ++ marker ≠ snapshotPath sB nameB 0 := fun h => by
    rw [h, hemp _ hu_s] at hdirA; exact absurd hdirA (by simp)
  have hnu_vdB : ¬ under (sA ++ marker) (sB ++ marker) := by
    intro hu
    rcases parentDir_under _ _ hu with h | h
    · rw [parentDir_append _ _ slash_not_mem_marker] at h
      exact hparne h
    · rw [parentDir_append _ _ slash_not_mem_marker] at h
      exact dir_not_under_flat fs _ _ hflat hparB h
  have hnu_c : ¬ under (sA ++ marker) (counterPath sB) := by
    intro hu
    rcases parentDir_under _ _ hu with h | h
    · rw [show parentDir (counterPath sB) = sB ++ marker from parentDir_version_file _] at h
      exact hvdA_vdB h.symm
    · rw [show parentDir (counterPath sB) = sB ++ marker from parentDir_version_file _] at h
      exact hnu_vdB h
  have hnu_s : ¬ under (sA ++ marker) (snapshotPath sB nameB 0) := by
    intro hu
    rcases parentDir_under _ _ hu with h | h
    · rw [parentDir_snapshotPath _ _ _ hslash] at h
      exact hvdA_vdB h.symm
    · rw [parentDir_snapshotPath _ _ _ hslash] at h
      exact hnu_vdB h
  have hcnt : fs1.lookup (counterPath sB) = some (Node.file ['0', NUL]) := by
    rw [hl, if_neg hc_sp, if_neg hA_c.symm, if_neg hs_c.symm, if_pos rfl]
  refine ⟨fs1, hrun, ?_, read_counter_zero _ _ hcnt, ?_, ?_, ?_, ?_, ?_, ?_⟩
  · rw [hl, if_neg hvd_sp, if_neg hA_vdB.symm, if_neg hs_vd.symm, if_neg hc_vd.symm, if_pos rfl]
  · rw [hl, if_neg hs_sp, if_neg hA_s.symm, if_pos rfl]
  · intro q hu hq
    by_cases c1 : q = snapshotPath sB nameB 0
    · exact Or.inr c1
    · by_cases c2 : q = counterPath sB
      · exact Or.inl c2
      · exfalso
        apply hq
        rw [hl, if_neg (under_marker_ne _ _ hu)]
        by_cases c3 : q = sA
        · rw [if_pos c3]
        · rw [if_neg c3, if_neg c1, if_neg c2, if_neg (under_ne _ _ hu)]
          split
          · rfl
          · exact hemp q hu
  · rw [hl, if_neg hvdA_B, if_neg (append_marker_ne sA), if_neg hvdA_s, if_neg hvdA_c,
      if_neg hvdA_vdB, if_pos (Or.inl rfl)]
  · intro q hu
    have c1 : q ≠ sB := fun h => hout (h ▸ hu)
    have c3 : q ≠ snapshotPath sB nameB 0 := fun h => hnu_s (h ▸ hu)
    have c4 : q ≠ counterPath sB := fun h => hnu_c (h ▸ hu)
    have c5 : q ≠ sB ++ marker := fun h => hnu_vdB (h ▸ hu)
    rw [hl, if_neg c1]
    by_cases c2 : q = sA
    · rw [if_pos c2]
    · rw [if_neg c2, if_neg c3, if_neg c4, if_neg c5, if_pos (Or.inr hu)]
  · rw [hl, if_pos rfl]
  · rw [hl, if_neg hA_B, if_pos rfl]

theorem rename_restarts_history_witness :
    ∃ fs1, vers_rename "/s".toList "/a".toList ([] ++ '/' :: "b".toList) store_hello
        = Outcome.ret 0 fs1 ∧
      fs1.lookup (prepend_storage_dir "/s".toList ([] ++ '/' :: "b".toList) ++ marker)
        = some Node.dir ∧
      read_counter fs1 (counterPath (prepend_storage_dir "/s".toList ([] ++ '/' :: "b".toList)))
        = some 0 ∧
      fs1.lookup (snapshotPath (prepend_storage_dir "/s".toList ([] ++ '/' :: "b".toList))
        "b".toList 0) = some (Node.file "hello".toList) ∧
      (∀ q, under (prepend_storage_dir "/s".toList ([] ++ '/' :: "b".toList) ++ marker) q →
        fs1.lookup q ≠ none →
        q = counterPath (prepend_storage_dir "/s".toList ([] ++ '/' :: "b".toList)) ∨
        q = snapshotPath (prepend_storage_dir "/s".toList ([] ++ '/' :: "b".toList))
          "b".toList 0) ∧
      fs1.lookup (prepend_storage_dir "/s".toList "/a".toList ++ marker) = none ∧
      (∀ q, under (prepend_storage_dir "/s".toList "/a".toList ++ marker) q →
        fs1.lookup q = none) ∧
      fs1.lookup (prepend_storage_dir "/s".toList ([] ++ '/' :: "b".toList))
        = some (Node.file "hello".toList) ∧
      fs1.lookup (prepend_storage_dir "/s".toList "/a".toList) = none :=
  rename_restarts_history "/s".toList "/a".toList [] "b".toList store_hello "hello".toList
    (by decide) (by decide) rfl (by decide) (by decide) (by decide) (by decide) (by decide)
    (by decide) (by decide) (by decide) (by decide) (by decide) (by decide) (by decide)
    (by decide) (by decide) (by decide) (by decide) (by decide)

/-- C7 (as stated) fails: the tracked file `a` holds `hello` and has a
history; the path `/a__versions__/x` does not exist and has no history area.
`vers_rename` of `a` to that path first removes the history area of `a`, in
which the destination would lie, then cannot create the history area of the
destination: it returns -2 (`-ENOENT`), not success.  The live file is still
at `a`, the destination does not exist, and the history of `a` is lost. -/
theorem rename_into_own_history_fails :
    store_hello.lookup "/s/a__versions__/x".toList = none ∧
    store_hello.lookup "/s/a__versions__/x__versions__".toList = none ∧
    vers_rename "/s".toList "/a".toList "/a__versions__/x".toList store_hello
      = Outcome.ret (-2)
        (store [("/s".toList, Node.dir), ("/s/a".toList, Node.file "hello".toList)] [] 1018) := by
  decide

/-- C8 (amended): for every tracked file `from` whose history area holds
plain entries only and every destination `to` of fewer than 50 bytes, other
than `from`, that already has a history area, `vers_rename(from, to)` by a
process that has a descriptor left does not succeed: creating `to`'s history
area fails and the call returns `-EEXIST`; `to`'s history area is not
discarded, the live file stays at `from`, and nothing outside `from`'s
history area is changed.  The paths involved fit their 256 byte blocks. -/
theorem rename_onto_history_fails (storage_dir from_path to_path : CStr) (fs : FS) (d : CStr)
    (hlive : fs.lookup (prepend_storage_dir storage_dir from_path) = some (Node.file d))
    (hdirA : fs.lookup (prepend_storage_dir storage_dir from_path ++ marker) = some Node.dir)
    (hflat : flatDir fs (prepend_storage_dir storage_dir from_path ++ marker) = true)
    (hdirB : fs.lookup (prepend_storage_dir storage_dir to_path ++ marker) = some Node.dir)
    (hne : to_path ≠ from_path)
    (hto : to_path.length < 50)
    (hfitA : entriesFit fs (prepend_storage_dir storage_dir from_path ++ marker) = true)
    (hfitB : (prepend_storage_dir storage_dir to_path).length + 30 < 256)
    (hfd : 0 < fs.fd_free) :
    ∃ fs1, vers_rename storage_dir from_path to_path fs = Outcome.ret (-EEXIST) fs1 ∧
      fs1.lookup (prepend_storage_dir storage_dir to_path ++ marker) = some Node.dir ∧
      fs1.lookup (prepend_storage_dir storage_dir from_path) = some (Node.file d) ∧
      ∀ q, q ≠ prepend_storage_dir storage_dir from_path ++ marker →
        ¬ under (prepend_storage_dir storage_dir from_path ++ marker) q →
        fs1.lookup q = fs.lookup q := by
  obtain ⟨fs1, hrun, _, _, hl⟩ :=
    vers_rename_dest_history storage_dir from_path to_path fs hdirA hflat hdirB hne hto hfitA
      hfitB hfd
  have hvd : prepend_storage_dir storage_dir to_path ++ marker
      ≠ prepend_storage_dir storage_dir from_path ++ marker := by
    intro h
    exact hne (List.append_cancel_left (List.append_cancel_right h))
  refine ⟨fs1, hrun, ?_, ?_, ?_⟩
  · rw [hl, if_neg (fun h => h.elim hvd (dir_not_under_flat fs _ _ hflat hdirB)), hdirB]
  · rw [hl, if_neg (fun h => h.elim (fun h => append_marker_ne _ h.symm) (not_under_marker _)),
      hlive]
  · intro q h1 h2
    rw [hl, if_neg (fun h => h.elim h1 h2)]

theorem rename_onto_history_fails_witness :
    ∃ fs1, vers_rename "/s".toList "/a".toList "/b".toList store_two
        = Outcome.ret (-EEXIST) fs1 ∧
      fs1.lookup (prepend_storage_dir "/s".toList "/b".toList ++ marker) = some Node.dir ∧
      fs1.lookup (prepend_storage_dir "/s".toList "/a".toList)
        = some (Node.file "hello".toList) ∧
      ∀ q, q ≠ prepend_storage_dir "/s".toList "/a".toList ++ marker →
        ¬ under (prepend_storage_dir "/s".toList "/a".toList ++ marker) q →
        fs1.lookup q = store_two.lookup q :=
  rename_onto_history_fails "/s".toList "/a".toList "/b".toList store_two "hello".toList
    (by decide) (by decide) (by decide) (by decide) (by decide) (by decide) (by decide)
    (by decide) (by decide)

/-- C8 (as stated) fails: `a` (content `hello`) and `b` (content `old`) both
have a history; `vers_rename(a, b)` returns -17 (`-EEXIST`), not success; the
history area of `b` still holds its old snapshot 0 = `old`, and the live
files are where they were (the history area of `a` has been removed). -/
theorem rename_onto_tracked_file_fails :
    vers_rename "/s".toList "/a".toList "/b".toList store_two
      = Outcome.ret (-17)
        (store [("/s".toList, Node.dir), ("/s/a".toList, Node.file "hello".toList),
          ("/s/b".toList, Node.file "old".toList),
          ("/s/b__versions__".toList, Node.dir),
          ("/s/b__versions__/.version_file.txt".toList, Node.file ['0', NUL]),
          ("/s/b__versions__/b,0".toList, Node.file "old".toList)] [] 1018) := by
  decide

/-- C10 (the code at the failing input): the backing store answers `EIO` to
the write to the live file `a`.  `vers_write` of `X` at offset 0 leaves the
live file untouched, goes on to record the history, and returns 1, the byte
count of the snapshot write, where the failure should be reported. -/
theorem write_swallows_live_failure (junk : Nat → Char) :
    sys_pwrite store_faulty "/s/a".toList "X".toList 0 = Except.error EIO ∧
    vers_write junk "/s".toList "/a".toList "X".toList 0 store_faulty
      = Outcome.ret 1
        (store [("/s".toList, Node.dir), ("/s/a".toList, Node.file []),
          ("/s/a__versions__".toList, Node.dir),
          ("/s/a__versions__/.version_file.txt".toList, Node.file ['0', NUL]),
          ("/s/a__versions__/a,0".toList, Node.file "X".toList)]
         [("/s/a".toList, EIO)] 1019) :=
  ⟨rfl, rfl⟩

/-- C11 (amended): for every backing directory whose path fits
`storage_path` (fewer than 256 bytes), whatever entries its stream yields,
and every `filler` that accepts every entry, `vers_readdir` by a process
that has a descriptor left returns 0 and hands the caller exactly the
entries of the directory whose name does not hold the marker
`__versions__`, in the order of the stream; with a caller that records the
names, the listing is the list of those names.  No entry handed over has
the marker in its name. -/
theorem readdir_hides_history {β : Type} (readdir : CStr → Except Int (List Dirent))
    (storage_dir path : CStr) (filler : β → CStr → Stat → Int → β × Int) (buf : β) (fs : FS)
    (entries : List Dirent)
    (hopen : readdir (prepend_storage_dir storage_dir path) = Except.ok entries)
    (hacc : ∀ b name st, (filler b name st 0).2 = 0)
    (hfit : (prepend_storage_dir storage_dir path).length < 256)
    (hfd : 0 < fs.fd_free) :
    vers_readdir readdir storage_dir path filler buf fs
      = some ((0 : Int), (entries.filter (fun de => !(strstr de.d_name marker).isSome)).foldl
          (fun b de => (filler b de.d_name ⟨de.d_ino, de.d_type <<< 12⟩ 0).1) buf) ∧
    vers_readdir readdir storage_dir path collect [] fs
      = some ((0 : Int), (entries.filter (fun de => !(strstr de.d_name marker).isSome)).map
          (fun de => de.d_name)) ∧
    (∀ de, de ∈ entries.filter (fun de => !(strstr de.d_name marker).isSome) ↔
      de ∈ entries ∧ ¬ Occurs marker de.d_name) := by
  have hfd0 : ¬ fs.fd_free = 0 := by omega
  refine ⟨?_, ?_, ?_⟩
  · unfold vers_readdir
    simp only [overflows_false 256 _ hfit, Bool.false_eq_true, if_false, hfd0, hopen]
    rw [vers_readdir_loop_accept filler hacc]
  · unfold vers_readdir
    simp only [overflows_false 256 _ hfit, Bool.false_eq_true, if_false, hfd0, hopen]
    rw [vers_readdir_loop_accept collect (fun _ _ _ => rfl), foldl_collect]
    simp
  · intro de
    rw [List.mem_filter]
    constructor
    · rintro ⟨hm, hk⟩
      refine ⟨hm, fun hocc => ?_⟩
      have := (strstr_isSome_iff de.d_name marker).mpr hocc
      simp [this] at hk
    · rintro ⟨hm, hno⟩
      refine ⟨hm, ?_⟩
      have : ¬ (strstr de.d_name marker).isSome = true :=
        fun h => hno ((strstr_isSome_iff de.d_name marker).mp h)
      simpa using this

theorem readdir_hides_history_witness :
    vers_readdir dir_stream "/s".toList "/".toList collect [] store_root
      = some ((0 : Int), (dir_entries.filter (fun de => !(strstr de.d_name marker).isSome)).foldl
          (fun b de => (collect b de.d_name ⟨de.d_ino, de.d_type <<< 12⟩ 0).1) []) ∧
    vers_readdir dir_stream "/s".toList "/".toList collect [] store_root
      = some ((0 : Int), (dir_entries.filter (fun de => !(strstr de.d_name marker).isSome)).map
          (fun de => de.d_name)) ∧
    (∀ de, de ∈ dir_entries.filter (fun de => !(strstr de.d_name marker).isSome) ↔
      de ∈ dir_entries ∧ ¬ Occurs marker de.d_name) :=
  readdir_hides_history dir_stream "/s".toList "/".toList collect [] store_root dir_entries rfl
    (fun _ _ _ => rfl) (by decide) (by decide)

/-- C11 (as stated) fails: the backing directory holds the entries `.`,
`..`, `a`, `a__versions__` and `b`, the caller's filler accepts every entry,
and the serving process has no descriptor left: `vers_readdir` cannot open
the directory, returns -24 (`-EMFILE`) and hands the caller no entry, where
the claim has the listing `.`, `..`, `a`, `b`.  The process gets into that
state through the file system itself: after the 1020 writes of
`exhausting_run`, `vers_readdir` returns -24 and lists nothing. -/
theorem readdir_without_descriptor_lists_nothing :
    vers_readdir dir_stream "/s".toList "/".toList collect [] (store [("/s".toList, Node.dir)] [] 0)
      = some (-24, []) ∧
    (dir_entries.filter (fun de => !(strstr de.d_name marker).isSome)).map (fun de => de.d_name)
      = [".".toList, "..".toList, "a".toList, "b".toList] ∧
    ∃ codes fs1,
      write_all junk_J "/s".toList "/a".toList (List.replicate 1020 "x".toList) store_new
        = some (codes, fs1) ∧
      vers_readdir dir_stream "/s".toList "/".toList collect [] fs1 = some (-24, []) := by
  refine ⟨by decide, by decide, ?_⟩
  obtain ⟨fs1, hrun, _, _, hd⟩ := exhausting_run
  refine ⟨_, fs1, hrun, ?_⟩
  unfold vers_readdir
  simp only [overflows_false 256 (prepend_storage_dir "/s".toList "/".toList) (by decide),
    Bool.false_eq_true, if_false, hd, if_true]
  rfl

/-- C12 (the code at the failing input): the marker occurs in the path
`/x__versions__`.  `vers_mkdir` rejects it with the value 1 and leaves the
store as it is, but `vers_mknod` for a regular file returns 0 and creates
the file `x__versions__` in the storage directory. -/
theorem mknod_accepts_marker :
    Occurs marker "/x__versions__".toList ∧
    vers_mkdir "/s".toList "/x__versions__".toList store_root = Outcome.ret 1 store_root ∧
    vers_mknod "/s".toList "/x__versions__".toList Mode.reg store_root
      = Outcome.ret 0
        (store [("/s".toList, Node.dir), ("/s/x__versions__".toList, Node.file [])] [] 1019) :=
  ⟨⟨"/x".toList, [], by decide⟩, by decide, by decide⟩

/-- C13 (amended): in every execution of `vers_write` or `vers_truncate` on a
file that has a history with counter V ≤ 9998, the persisted counter is
advanced before the new snapshot is written: when the backing store has no
room for snapshot V + 1 and refuses to create it, the operation returns that
error with the persisted counter reading V + 1 and snapshot V + 1 missing;
only the snapshots 0..V exist.  The execution is one that reaches the
creation of the snapshot: the paths of the history area fit the 256 byte
blocks (`pathsFit`), the process can open two more descriptors, the live
content, the latest snapshot and the written bytes are not empty and fit the
stack of the handler, and the new size and the end of the written bytes are
within the largest file size. -/
theorem counter_advanced_before_snapshot (junk : Nat → Char) (storage_dir path buf : CStr)
    (offset size : Nat) (fs : FS) (k : Nat) (e : Int) (dl dp : CStr)
    (hbase : '/' ∉ basename path)
    (hinv : HistoryAt fs (prepend_storage_dir storage_dir path) (basename path) k)
    (hk : k + 1 ≤ 9999)
    (hlive : fs.lookup (prepend_storage_dir storage_dir path) = some (Node.file dl))
    (hprev : fs.lookup (snapshotPath (prepend_storage_dir storage_dir path) (basename path) k)
      = some (Node.file dp))
    (hfit : pathsFit (prepend_storage_dir storage_dir path) (basename path))
    (hfd : 2 ≤ fs.fd_free)
    (hb0 : 0 < buf.length) (hp0 : 0 < dp.length) (hl0 : 0 < dl.length)
    (hstack : buf.length + dp.length ≤ fs.env.stack) (hstackl : dl.length ≤ fs.env.stack)
    (hintb : buf.length < 2147483648) (hintp : dp.length < 2147483648)
    (hintl : dl.length < 2147483648)
    (hmax : offset + buf.length ≤ fs.env.max_size) (hsize : size ≤ fs.env.max_size)
    (hmax5 : 5 ≤ fs.env.max_size) :
    (∃ fs1, vers_write junk storage_dir path buf offset
        (noRoomFor fs (prepend_storage_dir storage_dir path) (basename path) k e)
        = Outcome.ret (-e) fs1 ∧
      read_counter fs1 (counterPath (prepend_storage_dir storage_dir path))
        = some ((k + 1 : Nat) : Int) ∧
      fs1.lookup (snapshotPath (prepend_storage_dir storage_dir path) (basename path) (k + 1))
        = none ∧
      ∀ i, i ≤ k → ∃ d, fs1.lookup
        (snapshotPath (prepend_storage_dir storage_dir path) (basename path) i)
          = some (Node.file d)) ∧
    (∃ fs1, vers_truncate junk storage_dir path size
        (noRoomFor fs (prepend_storage_dir storage_dir path) (basename path) k e)
        = Outcome.ret (-e) fs1 ∧
      read_counter fs1 (counterPath (prepend_storage_dir storage_dir path))
        = some ((k + 1 : Nat) : Int) ∧
      fs1.lookup (snapshotPath (prepend_storage_dir storage_dir path) (basename path) (k + 1))
        = none ∧
      ∀ i, i ≤ k → ∃ d, fs1.lookup
        (snapshotPath (prepend_storage_dir storage_dir path) (basename path) i)
          = some (Node.file d)) :=
  ⟨vers_write_no_room junk storage_dir path buf offset fs k e dp hbase hinv hk hprev hfit hfd
      hb0 hp0 hstack hintb hintp hmax hmax5,
   vers_truncate_no_room junk storage_dir path size fs k e dl hbase hinv hk hlive hfit hfd hl0
      hstackl hintl hsize hmax5⟩

theorem counter_advanced_before_snapshot_witness :
    (∃ fs1, vers_write junk_J "/s".toList "/a".toList "X".toList 0
        (noRoomFor store_hello (prepend_storage_dir "/s".toList "/a".toList)
          (basename "/a".toList) 0 ENOSPC)
        = Outcome.ret (-ENOSPC) fs1 ∧
      read_counter fs1 (counterPath (prepend_storage_dir "/s".toList "/a".toList))
        = some ((0 + 1 : Nat) : Int) ∧
      fs1.lookup (snapshotPath (prepend_storage_dir "/s".toList "/a".toList)
        (basename "/a".toList) (0 + 1)) = none ∧
      ∀ i, i ≤ 0 → ∃ d, fs1.lookup
        (snapshotPath (prepend_storage_dir "/s".toList "/a".toList) (basename "/a".toList) i)
          = some (Node.file d)) ∧
    (∃ fs1, vers_truncate junk_J "/s".toList "/a".toList 3
        (noRoomFor store_hello (prepend_storage_dir "/s".toList "/a".toList)
          (basename "/a".toList) 0 ENOSPC)
        = Outcome.ret (-ENOSPC) fs1 ∧
      read_counter fs1 (counterPath (prepend_storage_dir "/s".toList "/a".toList))
        = some ((0 + 1 : Nat) : Int) ∧
      fs1.lookup (snapshotPath (prepend_storage_dir "/s".toList "/a".toList)
        (basename "/a".toList) (0 + 1)) = none ∧
      ∀ i, i ≤ 0 → ∃ d, fs1.lookup
        (snapshotPath (prepend_storage_dir "/s".toList "/a".toList) (basename "/a".toList) i)
          = some (Node.file d)) :=
  counter_advanced_before_snapshot junk_J "/s".toList "/a".toList "X".toList 0 3 store_hello 0
    ENOSPC "hello".toList "hello".toList (by decide) historyAt_store_hello (by decide)
    (by decide) (by decide) (by decide) (by decide) (by decide) (by decide) (by decide)
    (by decide) (by decide) (by decide) (by decide) (by decide) (by decide) (by decide)
    (by decide)

/-- C13 (as stated) fails: the file `a` has a history with counter 0 and
snapshot 0, and the backing store has no room for a new file.  `vers_write`
of `X` and `vers_truncate` to 3 each advance the counter file to 1 first;
the creation of snapshot 1 then fails with `ENOSPC` (-28 is returned), and
the store left behind has a counter reading 1 and no snapshot 1. -/
theorem counter_names_missing_snapshot :
    vers_write junk_J "/s".toList "/a".toList "X".toList 0
        (noRoomFor store_hello "/s/a".toList "a".toList 0 ENOSPC)
      = Outcome.ret (-28)
        (store [("/s".toList, Node.dir), ("/s/a".toList, Node.file "Xello".toList),
          ("/s/a__versions__".toList, Node.dir),
          ("/s/a__versions__/.version_file.txt".toList, Node.file ['1', NUL, NUL, NUL, NUL]),
          ("/s/a__versions__/a,0".toList, Node.file "hello".toList)]
         [("/s/a__versions__/a,1".toList, 28)] 1018) ∧
    vers_truncate junk_J "/s".toList "/a".toList 3
        (noRoomFor store_hello "/s/a".toList "a".toList 0 ENOSPC)
      = Outcome.ret (-28)
        (store [("/s".toList, Node.dir), ("/s/a".toList, Node.file "hel".toList),
          ("/s/a__versions__".toList, Node.dir),
          ("/s/a__versions__/.version_file.txt".toList, Node.file ['1', NUL, NUL, NUL, NUL]),
          ("/s/a__versions__/a,0".toList, Node.file "hello".toList)]
         [("/s/a__versions__/a,1".toList, 28)] 1018) ∧
    read_counter
        (store [("/s".toList, Node.dir), ("/s/a".toList, Node.file "Xello".toList),
          ("/s/a__versions__".toList, Node.dir),
          ("/s/a__versions__/.version_file.txt".toList, Node.file ['1', NUL, NUL, NUL, NUL]),
          ("/s/a__versions__/a,0".toList, Node.file "hello".toList)]
         [("/s/a__versions__/a,1".toList, 28)] 1018)
        "/s/a__versions__/.version_file.txt".toList = some 1 ∧
    FS.lookup
        (store [("/s".toList, Node.dir), ("/s/a".toList, Node.file "Xello".toList),
          ("/s/a__versions__".toList, Node.dir),
          ("/s/a__versions__/.version_file.txt".toList, Node.file ['1', NUL, NUL, NUL, NUL]),
          ("/s/a__versions__/a,0".toList, Node.file "hello".toList)]
         [("/s/a__versions__/a,1".toList, 28)] 1018)
        "/s/a__versions__/a,1".toList = none := by
  decide

end VersFS
